import Mathlib

/-!
# Otter Browser: error console filter and tab bar drop/preview logic

A shallow embedding of the logic of
`src/modules/widgets/errorConsole/ErrorConsoleWidget.cpp` and
`src/ui/TabBarWidget.cpp`, followed by theorems about it.

Conventions.
* `QString` is a list of characters. Qt's case folding is a parameter `fold`
  of every definition that compares text case-insensitively, so the theorems
  hold for whatever folding Qt applies.
* C++ `int`, `qint64` and `quint64` values are `Int` / `Nat`; widget and screen
  coordinates are far from the machine limits, signed overflow is undefined
  in C++ and is not modelled.
* Qt library calls (`QRect`, `QPoint`, `QTabBar::tabAt`, `QTabBar::moveTab`,
  `QStandardItemModel::sort`, ...) are modelled from their Qt 5 behaviour and
  marked as such.
-/

namespace Otter

/-! ## Qt text primitives -/

/-- A `QString`, as its sequence of characters. -/
abbrev QString := List Char

/-- Qt library: `QString::contains(str, Qt::CaseInsensitive)`: some suffix of
the folded haystack starts with the folded needle. The empty needle is
contained in every string. -/
def containsCI (fold : Char → Char) (hay needle : QString) : Bool :=
  (hay.map fold).tails.any (fun t => (needle.map fold).isPrefixOf t)

/-! ## Console messages -/

/-- Modelled from the spec: `Console::MessageLevel` is declared in
`core/Console.h`, which is not part of the excerpt; the spec lists the levels
Error, Warning and Info, of which the source names the first two. -/
inductive MessageLevel where
  | ErrorLevel
  | WarningLevel
  | InformationLevel
  deriving DecidableEq, Repr

/-- Modelled from the spec: `Console::MessageCategory` is declared in
`core/Console.h`, which is not part of the excerpt; the spec lists the five
categories, under the names the source uses for them. -/
inductive MessageCategory where
  | NetworkCategory
  | SecurityCategory
  | CssCategory
  | JavaScriptCategory
  | OtherCategory
  deriving DecidableEq, Repr

/-- The fields of `Console::Message` that `addMessage` reads. `time` is
`message.time.toMSecsSinceEpoch()`. -/
structure Message where
  level : MessageLevel
  category : MessageCategory
  time : Int
  source : QString
  line : Int
  window : Nat
  note : QString
  deriving DecidableEq, Repr

/-- The `MessagesScopes` flag set (`NoScope`, `AllTabsScope`,
`CurrentTabScope`, `OtherSourcesScope`): one boolean per flag, which is what
`testFlag` reads. The numeric values live in the absent header. -/
structure MessagesScopes where
  allTabs : Bool
  currentTab : Bool
  otherSources : Bool
  deriving DecidableEq, Repr

/-- `NoScope`. -/
def NoScope : MessagesScopes := ⟨false, false, false⟩

/-- A `QStandardItem` of the console model: the data roles `addMessage`
stores, the icon name and category label it chose, and the text of the
optional description child (`item->child(0, 0)`). -/
structure Item where
  icon : QString
  label : QString
  time : Int
  category : MessageCategory
  source : QString
  window : Nat
  child : Option QString
  deriving DecidableEq, Repr

/-- The note shown under an item: the text of its child, empty without one. -/
def Item.note (item : Item) : QString := item.child.getD []

/-- A row of the console view: the item and whether the view hides its row
(`setRowHidden`). The view keeps hidden rows by persistent index, so the flag
travels with the item when the model is sorted. -/
structure Row where
  item : Item
  hidden : Bool
  deriving DecidableEq, Repr

/-- The state of an `ErrorConsoleWidget`: the model (absent until the first
`showEvent`), the scope flags, the text of the filter line edit, the five
category toggles and the identifier `getCurrentWindow()` returns (0 without a
main window or active window). -/
structure ErrorConsoleWidget where
  m_model : Option (List Row)
  m_messageScopes : MessagesScopes
  filterText : QString
  networkButton : Bool
  securityButton : Bool
  cssButton : Bool
  javaScriptButton : Bool
  otherButton : Bool
  currentWindow : Nat
  deriving DecidableEq, Repr

/-- `ErrorConsoleWidget::getCategories`. -/
def getCategories (w : ErrorConsoleWidget) : List MessageCategory :=
  (if w.networkButton then [MessageCategory.NetworkCategory] else []) ++
  (if w.securityButton then [MessageCategory.SecurityCategory] else []) ++
  (if w.cssButton then [MessageCategory.CssCategory] else []) ++
  (if w.javaScriptButton then [MessageCategory.JavaScriptCategory] else []) ++
  (if w.otherButton then [MessageCategory.OtherCategory] else [])

/-- `ErrorConsoleWidget::getCurrentWindow`. -/
def getCurrentWindow (w : ErrorConsoleWidget) : Nat := w.currentWindow

/-- The value of `matched` at the end of `ErrorConsoleWidget::applyFilters`
for a non-null item. -/
def matched (fold : Char → Char) (scopes : MessagesScopes) (item : Item)
    (filter : QString) (categories : List MessageCategory) (currentWindow : Nat) : Bool :=
  if !filter.isEmpty &&
      !(containsCI fold item.source filter ||
        (match item.child with
         | some text => containsCI fold text filter
         | none => false)) then
    false
  else
    ((item.window == 0 && scopes.otherSources) ||
      (decide (item.window > 0) &&
        ((item.window == currentWindow && scopes.currentTab) || scopes.allTabs))) &&
    categories.contains item.category

/-- Set the hidden flag of the row at index `i` (`setRowHidden(item->row(), ...)`). -/
def setRowHidden : List Row → Nat → Bool → List Row
  | [], _, _ => []
  | r :: rs, 0, h => { r with hidden := h } :: rs
  | r :: rs, i + 1, h => r :: setRowHidden rs i h

/-- `ErrorConsoleWidget::applyFilters`. The item pointer is the index of its
row in the model; `none`, an index past the end, or an absent model stand for
the null pointer, for which the function returns at once. -/
def applyFilters (fold : Char → Char) (w : ErrorConsoleWidget) (item : Option Nat)
    (filter : QString) (categories : List MessageCategory) (currentWindow : Nat) :
    ErrorConsoleWidget :=
  match item, w.m_model with
  | some i, some rows =>
    match rows.get? i with
    | some r =>
      let isMatched := matched fold w.m_messageScopes r.item filter categories currentWindow
      { w with m_model := some (setRowHidden rows i (!isMatched)) }
    | none => w
  | _, _ => w

/-- Whether the view shows row `i`: the row exists and is not hidden. -/
def rowVisible (w : ErrorConsoleWidget) (i : Nat) : Bool :=
  match w.m_model with
  | some rows =>
    match rows.get? i with
    | some r => !r.hidden
    | none => false
  | none => false

/-- The item stored in row `i`, if any. -/
def itemAt (w : ErrorConsoleWidget) (i : Nat) : Option Item :=
  match w.m_model with
  | some rows => (rows.get? i).map Row.item
  | none => none

/-- Qt library: one step of the stable descending sort on `TimeRole`: `a` goes
in front of the first row that is not later than it, so it stays ahead of the
rows with an equal time that followed it in the input. -/
def insertDescending (a : Row) : List Row → List Row
  | [] => [a]
  | b :: l => if b.item.time ≤ a.item.time then a :: b :: l else b :: insertDescending a l

/-- Qt library: `m_model->sort(0, Qt::DescendingOrder)` with sort role
`TimeRole`. `QStandardItemModel::sort` runs `std::stable_sort` with the
comparison "the other item's time is less than mine"; the result of a stable
sort does not depend on the algorithm, here insertion from the back. -/
def sortDescending : List Row → List Row
  | [] => []
  | a :: l => insertDescending a (sortDescending l)

/-- The `QStandardItem` that `addMessage` builds for a message. -/
def messageItem (message : Message) : Item :=
  { icon :=
      match message.level with
      | MessageLevel.ErrorLevel => "dialog-error".toList
      | MessageLevel.WarningLevel => "dialog-warning".toList
      | _ => "dialog-information".toList
    label :=
      match message.category with
      | MessageCategory.NetworkCategory => "Network".toList
      | MessageCategory.SecurityCategory => "Security".toList
      | MessageCategory.JavaScriptCategory => "JS".toList
      | _ => "Other".toList
    time := message.time
    category := message.category
    source :=
      message.source ++ (if message.line > 0 then ':' :: (toString message.line).toList else [])
    window := message.window
    child := if message.note.isEmpty then none else some message.note }

/-- The row index of the appended item after the stable descending sort: it
follows exactly the rows that are not earlier than it. -/
def sortedRowOf (rows : List Row) (item : Item) : Nat :=
  rows.countP (fun r => decide (item.time ≤ r.item.time))

/-- `ErrorConsoleWidget::addMessage`. -/
def addMessage (fold : Char → Char) (w : ErrorConsoleWidget) (message : Message) :
    ErrorConsoleWidget :=
  match w.m_model with
  | none => w
  | some rows =>
    let item := messageItem message
    let appended := rows ++ [{ item := item, hidden := false }]
    let sorted := sortDescending appended
    applyFilters fold { w with m_model := some sorted } (some (sortedRowOf rows item))
      w.filterText (getCategories w) (getCurrentWindow w)

/-- `ErrorConsoleWidget::clear`. -/
def clear (w : ErrorConsoleWidget) : ErrorConsoleWidget :=
  match w.m_model with
  | some _ => { w with m_model := some [] }
  | none => w

/-- The loop `for (i = 0; i < rowCount; ++i) applyFilters(m_model->item(i, 0), ...)`,
run for the row indices `i, i+1, ..., i+n-1`. -/
def filterRows (fold : Char → Char) (filter : QString) (categories : List MessageCategory)
    (currentWindow : Nat) : Nat → Nat → ErrorConsoleWidget → ErrorConsoleWidget
  | 0, _, w => w
  | n + 1, i, w =>
    filterRows fold filter categories currentWindow n (i + 1)
      (applyFilters fold w (some i) filter categories currentWindow)

/-- `ErrorConsoleWidget::filterMessages`. -/
def filterMessages (fold : Char → Char) (w : ErrorConsoleWidget) (filter : QString) :
    ErrorConsoleWidget :=
  match w.m_model with
  | some rows => filterRows fold filter (getCategories w) (getCurrentWindow w) rows.length 0 w
  | none => w

/-- The console state in which `showEvent` leaves a fresh widget before it
replays the stored messages: an empty model, the scopes of the constructor. -/
def createdWidget (w : ErrorConsoleWidget) : ErrorConsoleWidget :=
  { w with m_model := some [] }

/-! ## Qt geometry -/

/-- Qt library: `QPoint`. -/
structure QPoint where
  x : Int
  y : Int
  deriving DecidableEq, Repr

/-- Qt library: `QPoint::isNull`: both coordinates are 0. -/
def QPoint.isNull (p : QPoint) : Bool := p.x == 0 && p.y == 0

/-- Qt library: `QRect`, stored as Qt stores it, by its top-left corner
`(x1, y1)` and its bottom-right corner `(x2, y2)`, both inside the rectangle. -/
structure QRect where
  x1 : Int
  y1 : Int
  x2 : Int
  y2 : Int
  deriving DecidableEq, Repr

/-- Qt library: `QRect(x, y, width, height)`. -/
def QRect.ofSize (x y width height : Int) : QRect := ⟨x, y, x + width - 1, y + height - 1⟩

/-- Qt library: the default-constructed, null `QRect()`. -/
def QRect.null : QRect := ⟨0, 0, -1, -1⟩

/-- Qt library: `QRect::left`. -/
def QRect.left (r : QRect) : Int := r.x1

/-- Qt library: `QRect::top`. -/
def QRect.top (r : QRect) : Int := r.y1

/-- Qt library: `QRect::right`, which is `left() + width() - 1`. -/
def QRect.right (r : QRect) : Int := r.x2

/-- Qt library: `QRect::bottom`, which is `top() + height() - 1`. -/
def QRect.bottom (r : QRect) : Int := r.y2

/-- Qt library: `QRect::width`. -/
def QRect.width (r : QRect) : Int := r.x2 - r.x1 + 1

/-- Qt library: `QRect::height`. -/
def QRect.height (r : QRect) : Int := r.y2 - r.y1 + 1

/-- Qt library: `QRect::topLeft`. -/
def QRect.topLeft (r : QRect) : QPoint := ⟨r.x1, r.y1⟩

/-- Qt library: `QRect::center`: `((x1 + x2) / 2, (y1 + y2) / 2)` with the
truncating division of C++. -/
def QRect.center (r : QRect) : QPoint := ⟨Int.tdiv (r.x1 + r.x2) 2, Int.tdiv (r.y1 + r.y2) 2⟩

/-- Qt library: `QRect::contains(point)` (not proper): the corners are put in
order when the rectangle is inverted. -/
def QRect.contains (r : QRect) (p : QPoint) : Bool :=
  let l := if r.x2 < r.x1 - 1 then r.x2 else r.x1
  let rr := if r.x2 < r.x1 - 1 then r.x1 else r.x2
  let t := if r.y2 < r.y1 - 1 then r.y2 else r.y1
  let b := if r.y2 < r.y1 - 1 then r.y1 else r.y2
  if p.x < l ∨ p.x > rr then false
  else if p.y < t ∨ p.y > b then false
  else true

/-- Qt library: `QRect::moveTo(point)`: same size, top-left corner at `p`. -/
def QRect.moveTo (r : QRect) (p : QPoint) : QRect :=
  ⟨p.x, p.y, r.x2 + (p.x - r.x1), r.y2 + (p.y - r.y1)⟩

/-- Qt library: `QSize`. -/
structure QSize where
  width : Int
  height : Int
  deriving DecidableEq, Repr

/-- Qt library: `qBound(min, value, max)`, which is `qMax(min, qMin(max, value))`. -/
def qBound (lo value hi : Int) : Int := max lo (min hi value)

/-! ## The tab bar -/

/-- Qt library: `QTabBar::Shape`. -/
inductive Shape where
  | RoundedNorth
  | RoundedSouth
  | RoundedWest
  | RoundedEast
  | TriangularNorth
  | TriangularSouth
  | TriangularWest
  | TriangularEast
  deriving DecidableEq, Repr

/-- What the tab bar reads of a `Window`: `getIdentifier()` and `isPinned()`. -/
structure Window where
  identifier : Nat
  isPinned : Bool
  deriving DecidableEq, Repr

/-- The preview popup (`PreviewWidget`, declared outside the excerpt): whether it
is shown, where, and its size. -/
structure PreviewWidget where
  isVisible : Bool
  position : QPoint
  width : Int
  height : Int
  deriving DecidableEq, Repr

/-- The state of a `TabBarWidget`. `windows` holds, tab by tab, the window of
the tab's `TabHandleWidget` (`none`: no handle, or a handle without window);
`tabRects` is the layout Qt computed, `tabRects[i]` being `tabRect(i)`; `rect`
is the widget's own `rect()`. The remaining fields are the members of the
class and the inputs it reads from Qt (`isActiveWindow()`, `underMouse()`) and
from the settings of the size of the parent. The members that track a drag
of a tab start as the constructor sets them. -/
structure TabBarWidget where
  windows : List (Option Window)
  tabRects : List QRect
  currentIndex : Int
  shape : Shape
  rect : QRect
  m_previewWidget : Option PreviewWidget
  m_dragMovePosition : QPoint
  m_minimumTabSize : QSize
  m_maximumTabSize : QSize
  m_tabWidth : Int
  m_clickedTab : Int
  m_hoveredTab : Int
  m_pinnedTabsAmount : Int
  m_previewTimer : Int
  m_arePreviewsEnabled : Bool
  m_needsUpdateOnLeave : Bool
  isActiveWindow : Bool
  underMouse : Bool
  m_dragStartPosition : QPoint := ⟨0, 0⟩
  m_draggedWindow : Nat := 0
  m_isDraggingTab : Bool := false
  m_isDetachingTab : Bool := false
  m_isIgnoringTabDrag : Bool := false
  deriving DecidableEq, Repr

/-- Qt library: `QTabBar::count`. -/
def TabBarWidget.count (t : TabBarWidget) : Int := t.windows.length

/-- Qt library: `QTabBar::tabRect(index)`: the null rectangle for an index that
is not a tab. -/
def TabBarWidget.tabRect (t : TabBarWidget) (index : Int) : QRect :=
  if 0 ≤ index ∧ index < t.count then t.tabRects.getD index.toNat QRect.null else QRect.null

/-- The loop of `QTabBar::tabAt`: the first of the tabs `i, ..., i + n - 1`
whose rectangle contains the point, or -1. -/
def tabAtFrom (t : TabBarWidget) (position : QPoint) : Nat → Nat → Int
  | 0, _ => -1
  | n + 1, i =>
    if (t.tabRect i).contains position then (i : Int) else tabAtFrom t position n (i + 1)

/-- Qt library: `QTabBar::tabAt(position)`: the current tab when it contains
the point, else the first tab that does, else -1. -/
def TabBarWidget.tabAt (t : TabBarWidget) (position : QPoint) : Int :=
  if (0 ≤ t.currentIndex ∧ t.currentIndex < t.count) ∧
      (t.tabRect t.currentIndex).contains position = true then
    t.currentIndex
  else
    tabAtFrom t position t.windows.length 0

/-- `TabBarWidget::getWindow`. -/
def TabBarWidget.getWindow (t : TabBarWidget) (index : Int) : Option Window :=
  if index < 0 ∨ index ≥ t.count then none else (t.windows.getD index.toNat none)

/-- The test `shape() == RoundedNorth || shape() == RoundedSouth`. -/
def TabBarWidget.isHorizontal (t : TabBarWidget) : Bool :=
  t.shape == Shape.RoundedNorth || t.shape == Shape.RoundedSouth

/-- `TabBarWidget::getDropIndex`. -/
def TabBarWidget.getDropIndex (t : TabBarWidget) : Int :=
  if t.m_dragMovePosition.isNull then
    (if t.count > 0 then t.count + 1 else 0)
  else
    let index := t.tabAt t.m_dragMovePosition
    let isHorizontal := t.isHorizontal
    if index ≥ 0 then
      let tabCenter := (t.tabRect index).center
      if (isHorizontal && decide (t.m_dragMovePosition.x > tabCenter.x)) ||
          (!isHorizontal && decide (t.m_dragMovePosition.y > tabCenter.y)) then
        index + 1
      else
        index
    else
      if (isHorizontal && decide (t.m_dragMovePosition.x < t.rect.left)) ||
          (!isHorizontal && decide (t.m_dragMovePosition.y < t.rect.top)) then
        t.count
      else
        0

/-- The test `window && window->isPinned()` on a tab's window pointer. -/
def pinnedOf : Option Window → Bool
  | some window => window.isPinned
  | none => false

/-- `TabBarWidget::updatePinnedTabsAmount` (`updateSize` only triggers a new
layout and has no effect on the state modelled here). -/
def TabBarWidget.updatePinnedTabsAmount (t : TabBarWidget) : TabBarWidget :=
  let amount : Int := (t.windows.countP pinnedOf : Nat)
  if amount ≠ t.m_pinnedTabsAmount then { t with m_pinnedTabsAmount := amount } else t

/-- The test `window && window->isPinned()` on the window of tab `index`. -/
def TabBarWidget.isPinnedTab (t : TabBarWidget) (index : Int) : Bool :=
  pinnedOf (t.getWindow index)

/-- The width of `TabBarWidget::tabSizeHint(index)`. The quotient is the
truncating division of C++ on `int`, of which `qFloor` changes nothing. -/
def TabBarWidget.tabSizeHintWidth (t : TabBarWidget) (index : Int) : Int :=
  if t.isHorizontal then
    if t.isPinnedTab index then t.m_minimumTabSize.width
    else if t.m_tabWidth > 0 then t.m_tabWidth
    else
      qBound t.m_minimumTabSize.width
        (Int.tdiv (t.rect.width - t.m_pinnedTabsAmount * t.m_minimumTabSize.width)
          (max 1 (t.count - t.m_pinnedTabsAmount)))
        t.m_maximumTabSize.width
  else
    t.m_maximumTabSize.width

/-- Qt library: `QTabBar::insertTab(index, text)` on the list of tabs: inserted
at `index` when that is an existing tab, appended otherwise. The new tab has
no button yet. The current index follows Qt: the first tab becomes current, a
tab inserted at or before the current one shifts it. -/
def TabBarWidget.insertTab (t : TabBarWidget) (index : Int) : TabBarWidget :=
  let place : Int := if 0 ≤ index ∧ index < t.count then index else t.count
  { t with
    windows := t.windows.insertIdx place.toNat none
    currentIndex :=
      if t.count = 0 then place
      else if place ≤ t.currentIndex then t.currentIndex + 1
      else t.currentIndex }

/-- Qt library: `QTabBar::setTabButton(index, LeftSide, handle)`, which does
nothing for an index that is not a tab. -/
def TabBarWidget.setTabButton (t : TabBarWidget) (index : Int) (window : Option Window) :
    TabBarWidget :=
  if 0 ≤ index ∧ index < t.count then { t with windows := t.windows.set index.toNat window }
  else t

/-- `TabBarWidget::addTab`. -/
def TabBarWidget.addTab (t : TabBarWidget) (index : Int) (window : Window) : TabBarWidget :=
  let withHandle := (t.insertTab index).setTabButton index (some window)
  if window.isPinned then withHandle.updatePinnedTabsAmount else withHandle

/-- Qt library: `QTabBar::removeTab(index)` on the list of tabs; nothing
happens for an index that is not a tab. A current index behind the removed
tab moves down by one; when the current tab itself is removed Qt selects the
previously selected tab (`SelectPreviousTab`), which it tracks outside this
state: `nextCurrent` is that choice. -/
def TabBarWidget.qRemoveTab (t : TabBarWidget) (index nextCurrent : Int) : TabBarWidget :=
  if 0 ≤ index ∧ index < t.count then
    { t with
      windows := t.windows.eraseIdx index.toNat
      currentIndex :=
        if index < t.currentIndex then t.currentIndex - 1
        else if index = t.currentIndex then nextCurrent
        else t.currentIndex }
  else t

/-- `TabBarWidget::removeTab`. `cursorTab` is `tabAt(mapFromGlobal(QCursor::pos()))`
after the removal. -/
def TabBarWidget.removeTab (t : TabBarWidget) (index nextCurrent cursorTab : Int) :
    TabBarWidget :=
  let frozen :=
    if t.underMouse then { t with m_tabWidth := t.tabSizeHintWidth (t.count - 1) } else t
  let window := frozen.getWindow index
  let removed := frozen.qRemoveTab index nextCurrent
  let wasPinned := pinnedOf window
  let recounted := if wasPinned then removed.updatePinnedTabsAmount else removed
  if recounted.underMouse ∧ cursorTab < 0 then { recounted with m_tabWidth := 0 } else recounted

/-- Qt library: `QTabBar::moveTab(from, to)` on the list of tabs: nothing for
equal or invalid indices, else the tab leaves position `from` and is put at
position `to`; the current index follows the tab it pointed at. -/
def TabBarWidget.moveTab (t : TabBarWidget) (source target : Int) : TabBarWidget :=
  if source = target ∨ ¬ (0 ≤ source ∧ source < t.count) ∨ ¬ (0 ≤ target ∧ target < t.count) then t
  else
    { t with
      windows :=
        (t.windows.eraseIdx source.toNat).insertIdx target.toNat
          (t.windows.getD source.toNat none)
      currentIndex :=
        if t.currentIndex = source then target
        else if source < t.currentIndex ∧ t.currentIndex ≤ target then t.currentIndex - 1
        else if target ≤ t.currentIndex ∧ t.currentIndex < source then t.currentIndex + 1
        else t.currentIndex }

/-- The search loop of `dropEvent`: the first tab whose window has the dragged
identifier, scanning the tabs `i, i + 1, ...`; -1 when there is none. -/
def findWindowFrom (identifier : Nat) : List (Option Window) → Nat → Int
  | [], _ => -1
  | w :: rest, i =>
    match w with
    | some window =>
      if window.identifier = identifier then (i : Int) else findWindowFrom identifier rest (i + 1)
    | none => findWindowFrom identifier rest (i + 1)

/-- What `dropEvent` reads of the `QDropEvent`: whether it has a source widget
and whether that is this tab bar, the `x-window-identifier` property of the
mime data when set, whether the mime data has URLs, and the URLs
`Utils::extractUrls` returns. -/
structure DropEvent where
  hasSource : Bool
  sourceIsThis : Bool
  windowIdentifier : Option Nat
  hasUrls : Bool
  urls : List QString
  deriving DecidableEq, Repr

/-- What `dropEvent` reads of its surroundings: whether the bar has a main
window, whether some main window owns the dragged window, the setting
`Choices_WarnOpenMultipleDroppedUrlsOption`, and whether the user answers the
warning with Cancel. -/
structure DropContext where
  hasMainWindow : Bool
  windowFound : Bool
  warnMultiple : Bool
  userCancels : Bool
  deriving DecidableEq, Repr

/-- A call `dropEvent` makes to move or insert a tab: `moveWindow(window,
mainWindow, index)` and `triggerAction(OpenUrlAction, ... "index" ...)` on a
main window, `moveTab(from, to)` on the bar itself. -/
inductive DropRequest where
  | moveWindow (identifier : Nat) (index : Int)
  | openUrl (url : QString) (index : Int)
  | moveTab (source : Int) (target : Int)
  deriving DecidableEq, Repr

/-- The outcome of `dropEvent`: the new state of the bar, whether the event was
accepted, and the calls made, in order. -/
structure DropResult where
  bar : TabBarWidget
  accepted : Bool
  requests : List DropRequest
  deriving DecidableEq, Repr

/-- The requests of the loop over the dropped URLs, the `i`-th with index
`dropIndex + i`. -/
def openRequests (dropIndex : Int) : List QString → Nat → List DropRequest
  | [], _ => []
  | url :: rest, i => DropRequest.openUrl url (dropIndex + i) :: openRequests dropIndex rest (i + 1)

/-- `TabBarWidget::dropEvent`. -/
def TabBarWidget.dropEvent (t : TabBarWidget) (event : DropEvent) (context : DropContext) :
    DropResult :=
  let dropIndex := t.getDropIndex
  let cleared (bar : TabBarWidget) : TabBarWidget := { bar with m_dragMovePosition := ⟨0, 0⟩ }
  match event.hasSource, event.windowIdentifier with
  | true, some windowIdentifier =>
    let previousIndex : Int :=
      if event.sourceIsThis then findWindowFrom windowIdentifier t.windows 0 else -1
    if previousIndex < 0 then
      if context.hasMainWindow ∧ context.windowFound then
        ⟨cleared t, true, [DropRequest.moveWindow windowIdentifier dropIndex]⟩
      else
        ⟨cleared t, true, []⟩
    else if previousIndex ≠ dropIndex ∧ previousIndex + 1 ≠ dropIndex then
      ⟨cleared (t.moveTab previousIndex (dropIndex - (if dropIndex > previousIndex then 1 else 0))),
        true,
        [DropRequest.moveTab previousIndex
          (dropIndex - (if dropIndex > previousIndex then 1 else 0))]⟩
    else
      ⟨cleared t, true, []⟩
  | _, _ =>
    if event.hasUrls then
      let canOpen :=
        context.hasMainWindow &&
          !(decide (event.urls.length > 1) && context.warnMultiple && context.userCancels)
      if canOpen then ⟨cleared t, true, openRequests dropIndex event.urls 0⟩
      else ⟨cleared t, false, []⟩
    else
      ⟨cleared t, false, []⟩

/-! ## The tab preview -/

/-- What `showPreview` reads of its surroundings: the screen rectangle
`QApplication::desktop()->screenGeometry(this)`, the global position of the
widget's origin (`mapToGlobal` adds it), the size the preview widget has once
`setPreview` has filled it, and the identifier `startTimer` hands out. -/
structure PreviewContext where
  screen : QRect
  origin : QPoint
  previewWidth : Int
  previewHeight : Int
  timerId : Int
  deriving DecidableEq, Repr

/-- The `position` that the `switch` on the shape in `showPreview` assigns,
before the far-edge tests. -/
def previewAnchor (shape : Shape) (screen rectangle : QRect) (width height : Int) : QPoint :=
  match shape with
  | Shape.RoundedEast =>
    ⟨rectangle.left - width,
      max screen.top ((rectangle.bottom - Int.tdiv rectangle.height 2) - Int.tdiv height 2)⟩
  | Shape.RoundedWest =>
    ⟨rectangle.right,
      max screen.top ((rectangle.bottom - Int.tdiv rectangle.height 2) - Int.tdiv height 2)⟩
  | Shape.RoundedSouth =>
    ⟨max screen.left ((rectangle.right - Int.tdiv rectangle.width 2) - Int.tdiv width 2),
      rectangle.top - height⟩
  | _ =>
    ⟨max screen.left ((rectangle.right - Int.tdiv rectangle.width 2) - Int.tdiv width 2),
      rectangle.bottom⟩

/-- The `position` that `showPreview` computes from the shape of the bar, the
screen rectangle, the tab rectangle in global coordinates and the size of the
preview: the `switch` on the shape followed by the two far-edge tests. -/
def previewPosition (shape : Shape) (screen rectangle : QRect) (width height : Int) : QPoint :=
  let anchored : QPoint := previewAnchor shape screen rectangle width height
  let shiftedX : QPoint :=
    if anchored.x + width > screen.right then { anchored with x := screen.right - width }
    else anchored
  if shiftedX.y + height > screen.bottom then { shiftedX with y := screen.bottom - height }
  else shiftedX

/-- `TabBarWidget::hidePreview`. -/
def TabBarWidget.hidePreview (t : TabBarWidget) : TabBarWidget :=
  let hidden :=
    match t.m_previewWidget with
    | some preview => { t with m_previewWidget := some { preview with isVisible := false } }
    | none => t
  if hidden.m_previewTimer > 0 then { hidden with m_previewTimer := 0 } else hidden

/-- `TabBarWidget::showPreview(index, delay)`. A preview widget created here
starts hidden at the origin; `setPreview` gives the widget the size of the
context; `setPosition` and `move` both put it at `position` without resizing
it, and it is visible afterwards. -/
def TabBarWidget.showPreview (t : TabBarWidget) (context : PreviewContext) (index : Int)
    (delay : Int) : TabBarWidget :=
  if delay > 0 then
    (if t.m_previewTimer = 0 then { t with m_previewTimer := context.timerId } else t)
  else if !t.m_arePreviewsEnabled || !t.isActiveWindow then
    t.hidePreview
  else
    match t.getWindow index with
    | some _ =>
      if t.m_clickedTab < 0 then
        let existing : PreviewWidget :=
          match t.m_previewWidget with
          | some preview => preview
          | none => ⟨false, ⟨0, 0⟩, context.previewWidth, context.previewHeight⟩
        let filled : PreviewWidget :=
          { existing with width := context.previewWidth, height := context.previewHeight }
        let inBar := t.tabRect index
        let rectangle :=
          inBar.moveTo ⟨inBar.topLeft.x + context.origin.x, inBar.topLeft.y + context.origin.y⟩
        let position :=
          previewPosition t.shape context.screen rectangle filled.width filled.height
        { t with m_previewWidget := some { filled with position := position, isVisible := true } }
      else
        match t.m_previewWidget with
        | some preview => { t with m_previewWidget := some { preview with isVisible := false } }
        | none => t
    | none =>
      match t.m_previewWidget with
      | some preview => { t with m_previewWidget := some { preview with isVisible := false } }
      | none => t

/-- The items of the console model, in row order; none without a model. -/
def itemsOf (w : ErrorConsoleWidget) : List Item :=
  match w.m_model with
  | some rows => rows.map Row.item
  | none => []

/-! ## Re-filtering on a scope or category change -/

/-- An action of the scope menu, as `filterCategories` reads it: whether it is
checked and the scope flag stored as its data (`NoScope` for the separator). -/
structure ScopeAction where
  isChecked : Bool
  scope : MessagesScopes
  deriving DecidableEq, Repr

/-- The `|=` of two `MessagesScopes` values. -/
def MessagesScopes.union (a b : MessagesScopes) : MessagesScopes :=
  ⟨a.allTabs || b.allTabs, a.currentTab || b.currentTab, a.otherSources || b.otherSources⟩

/-- The scopes `filterCategories` collects from the checked actions of the
menu, starting from `NoScope`. -/
def checkedScopes (actions : List ScopeAction) : MessagesScopes :=
  actions.foldl (fun scopes action => if action.isChecked then scopes.union action.scope else scopes)
    NoScope

/-- `ErrorConsoleWidget::filterCategories`. `menu` is `sender()` cast to a
`QMenu`: the actions of the scope menu when the menu sent the signal, `none`
when a category button or `currentWindowChanged` did. The function calls
`m_model->rowCount()` with no test of `m_model`: the result is `none` when
the model is absent, where the C++ code dereferences a null pointer. -/
def filterCategories (fold : Char → Char) (w : ErrorConsoleWidget)
    (menu : Option (List ScopeAction)) : Option ErrorConsoleWidget :=
  let current : ErrorConsoleWidget :=
    match menu with
    | some actions => { w with m_messageScopes := checkedScopes actions }
    | none => w
  match current.m_model with
  | some rows =>
    some (filterRows fold current.filterText (getCategories current) (getCurrentWindow current)
      rows.length 0 current)
  | none => none

/-- The rows the view hides, by index. -/
def hiddenRows (w : ErrorConsoleWidget) : List Bool :=
  match w.m_model with
  | some rows => rows.map Row.hidden
  | none => []

/-! ## Hovering, leaving and pressing on the tab bar -/

/-- Whether no preview is on screen: there is no preview widget or it is hidden. -/
def TabBarWidget.previewHidden (t : TabBarWidget) : Bool :=
  match t.m_previewWidget with
  | some preview => !preview.isVisible
  | none => true

/-- `TabBarWidget::updatePreviewPosition`; `cursorTab` is
`tabAt(mapFromGlobal(QCursor::pos()))`. `showPreview(index)` is the call with
the default delay of the declaration, 0. -/
def TabBarWidget.updatePreviewPosition (t : TabBarWidget) (context : PreviewContext)
    (cursorTab : Int) : TabBarWidget :=
  match t.m_previewWidget with
  | some preview => if preview.isVisible then t.showPreview context cursorTab 0 else t
  | none => t

/-- `TabBarWidget::timerEvent` for the timer `timerId`; `cursorTab` is
`tabAt(mapFromGlobal(QCursor::pos()))`. -/
def TabBarWidget.timerEvent (t : TabBarWidget) (context : PreviewContext)
    (timerId cursorTab : Int) : TabBarWidget :=
  if timerId = t.m_previewTimer then
    ({ t with m_previewTimer := 0 } : TabBarWidget).showPreview context cursorTab 0
  else t

/-- `TabBarWidget::enterEvent`; `duration` is the setting
`TabBar_PreviewsAnimationDurationOption`. -/
def TabBarWidget.enterEvent (t : TabBarWidget) (context : PreviewContext) (duration : Int) :
    TabBarWidget :=
  t.showPreview context (-1) duration

/-- `TabBarWidget::leaveEvent`. `updateSize` and the status tip event do not
touch the state modelled here. -/
def TabBarWidget.leaveEvent (t : TabBarWidget) : TabBarWidget :=
  let hidden := t.hidePreview
  { hidden with m_tabWidth := 0, m_hoveredTab := -1, m_needsUpdateOnLeave := false }

/-- `TabBarWidget::tabHovered`. The status tip event it sends does not touch
the state modelled here. -/
def TabBarWidget.tabHovered (t : TabBarWidget) (context : PreviewContext) (index : Int) :
    TabBarWidget :=
  if index = t.m_hoveredTab then t
  else
    let hovered : TabBarWidget := { t with m_hoveredTab := index }
    let shown : TabBarWidget :=
      match hovered.m_previewWidget with
      | some preview =>
        if !preview.isVisible && hovered.m_previewTimer == 0 then
          { hovered with m_previewWidget := some { preview with isVisible := true } }
        else hovered
      | none => hovered
    match shown.m_previewWidget with
    | some preview => if preview.isVisible then shown.showPreview context index 0 else shown
    | none => shown

/-- `TabBarWidget::mousePressEvent`. `QTabBar::mousePressEvent` runs first and
may make the pressed tab current: `selected` is the current index it leaves;
when that is a change, `currentChanged` runs `updatePreviewPosition`, for
which `cursorTab` is the tab under the cursor. -/
def TabBarWidget.mousePressEvent (t : TabBarWidget) (context : PreviewContext)
    (leftButton : Bool) (position : QPoint) (selected cursorTab : Int) : TabBarWidget :=
  let base : TabBarWidget :=
    if selected ≠ t.currentIndex then
      ({ t with currentIndex := selected } : TabBarWidget).updatePreviewPosition context cursorTab
    else t
  let pressed : TabBarWidget :=
    if leftButton then
      let ignoring : TabBarWidget := { base with m_isIgnoringTabDrag := decide (base.count = 1) }
      match ignoring.getWindow (ignoring.tabAt position) with
      | some window =>
        { ignoring with m_dragStartPosition := position, m_draggedWindow := window.identifier }
      | none => ignoring
    else base
  pressed.hidePreview

/-- The offset at which `paintEvent` draws the drop indicator line (x on a
horizontal bar, y on a vertical one), `none` when it draws none. -/
def TabBarWidget.dropIndicatorOffset (t : TabBarWidget) : Option Int :=
  if !t.m_dragMovePosition.isNull then
    let dropIndex := t.getDropIndex
    if dropIndex ≥ 0 then
      some
        (if t.count = 0 then 0
         else if dropIndex ≥ t.count then (t.tabRect (t.count - 1)).right
         else (t.tabRect dropIndex).left)
    else none
  else none

/-! ## The tab context menu, the pinned count and the tab handle -/

/-- The enabled state `contextMenuEvent` gives to the actions of a tab. -/
structure TabMenuActions where
  detachTab : Bool
  closeTab : Bool
  closeOtherTabs : Bool
  deriving DecidableEq, Repr

/-- The part of `TabBarWidget::contextMenuEvent` that enables the actions of
the clicked tab: `none` when the menu has no tab actions (no tab under the
pointer, or no window for it). -/
def TabBarWidget.tabMenuActions (t : TabBarWidget) (clickedTab : Int) : Option TabMenuActions :=
  if clickedTab ≥ 0 then
    match t.getWindow clickedTab with
    | some window =>
      let amount := t.count - t.m_pinnedTabsAmount
      let isPinned := window.isPinned
      some
        { detachTab := decide (t.count > 1),
          closeTab := !isPinned,
          closeOtherTabs := decide (amount > 0) && !(decide (amount = 1) && !isPinned) }
    | none => none
  else none

/-- The loop of `updatePinnedTabsAmount` over the tabs `i, ..., i + n - 1`:
the number of them whose window exists and is pinned. -/
def TabBarWidget.pinnedLoop (t : TabBarWidget) : Nat → Nat → Nat
  | 0, _ => 0
  | n + 1, i => (if t.isPinnedTab (i : Int) then 1 else 0) + t.pinnedLoop n (i + 1)

/-- `TabBarWidget::updatePinnedTabsAmount`, with the number of calls of
`updateSize` it makes. -/
def TabBarWidget.updatePinnedTabsAmountCalls (t : TabBarWidget) : TabBarWidget × Nat :=
  let amount : Int := (t.pinnedLoop t.windows.length 0 : Nat)
  if amount ≠ t.m_pinnedTabsAmount then ({ t with m_pinnedTabsAmount := amount }, 1) else (t, 0)

/-- The state of a `TabHandleWidget` that its mouse handlers use. -/
structure TabHandleWidget where
  m_window : Option Window
  m_closeButtonRectangle : QRect
  m_isCloseButtonUnderMouse : Bool
  m_wasCloseButtonPressed : Bool
  deriving DecidableEq, Repr

/-- `TabHandleWidget::mousePressEvent`. -/
def TabHandleWidget.mousePressEvent (h : TabHandleWidget) (position : QPoint) : TabHandleWidget :=
  { h with m_wasCloseButtonPressed := h.m_closeButtonRectangle.contains position }

/-- `TabHandleWidget::mouseReleaseEvent`: whether it calls
`m_window->requestClose()`. The handler changes no member. -/
def TabHandleWidget.mouseReleaseEvent (h : TabHandleWidget) (leftButton : Bool)
    (position : QPoint) : Bool :=
  match h.m_window with
  | some window =>
    !window.isPinned && leftButton && h.m_wasCloseButtonPressed &&
      h.m_closeButtonRectangle.contains position
  | none => false

/-! ## The pinned-tab invariant -/

/-- The pinned tabs form a block at the lowest indices: no pinned tab stands
behind an unpinned one. -/
def PinnedFirst (windows : List (Option Window)) : Prop :=
  windows.Pairwise (fun a b => pinnedOf b = true → pinnedOf a = true)

instance (windows : List (Option Window)) : Decidable (PinnedFirst windows) := by
  unfold PinnedFirst
  infer_instance

/-- The number of pinned tabs. -/
def pinnedCount (windows : List (Option Window)) : Nat := windows.countP pinnedOf

/-- A pinned window followed by two unpinned ones. -/
def pinnedThenTwo : List (Option Window) :=
  [some ⟨1, true⟩, some ⟨2, false⟩, some ⟨3, false⟩]

/-- A drop event of a tab dragged within the same bar. -/
def sameBarDrop (identifier : Nat) : DropEvent :=
  { hasSource := true, sourceIsThis := true, windowIdentifier := some identifier,
    hasUrls := true, urls := [] }

/-- A drop context with a main window and no warning. -/
def plainContext : DropContext :=
  { hasMainWindow := true, windowFound := true, warnMultiple := false, userCancels := false }

/-! ## Sample states used by the concrete checks -/

/-- A console item of category Network that belongs to the tab `window`. -/
def networkItem (window : Nat) : Item :=
  { icon := "dialog-error".toList, label := "Network".toList, time := 1000,
    category := MessageCategory.NetworkCategory, source := "http://a.example/x.js".toList,
    window := window, child := none }

/-- A console showing one Network item of tab `window`, with only the Network
toggle checked, the given scopes, an empty filter text and active tab 7. -/
def sampleConsole (window : Nat) (scopes : MessagesScopes) : ErrorConsoleWidget :=
  { m_model := some [{ item := networkItem window, hidden := false }],
    m_messageScopes := scopes, filterText := [],
    networkButton := true, securityButton := false, cssButton := false,
    javaScriptButton := false, otherButton := false, currentWindow := 7 }

/-- A message of the given time and source, of category Network, for tab 7. -/
def sampleMessage (time : Int) (source : QString) : Message :=
  { level := MessageLevel.ErrorLevel, category := MessageCategory.NetworkCategory,
    time := time, source := source, line := 0, window := 7, note := [] }

/-- A horizontal tab bar 300 wide and 30 high whose tabs hold the given
windows, laid out 50 wide each from x = 0, with tab 0 current and the drag
position `position`. -/
def sampleBar (windows : List (Option Window)) (position : QPoint) : TabBarWidget :=
  { windows := windows,
    tabRects := (List.range windows.length).map (fun i => QRect.ofSize (50 * (i : Int)) 0 50 30),
    currentIndex := 0, shape := Shape.RoundedNorth, rect := QRect.ofSize 0 0 300 30,
    m_previewWidget := none, m_dragMovePosition := position,
    m_minimumTabSize := ⟨40, 30⟩, m_maximumTabSize := ⟨250, 30⟩,
    m_tabWidth := 0, m_clickedTab := -1, m_hoveredTab := -1, m_pinnedTabsAmount := 0,
    m_previewTimer := 0, m_arePreviewsEnabled := true, m_needsUpdateOnLeave := false,
    isActiveWindow := true, underMouse := false }

/-- Three unpinned windows, in the tabs spanning [0,50), [50,100), [100,150). -/
def threeWindows : List (Option Window) :=
  [some ⟨1, false⟩, some ⟨2, false⟩, some ⟨3, false⟩]

/-- The surroundings of the preview scenario: a screen 1024 wide and 768
high with its corner at the origin, the bar at the top-left of the screen, a
preview of 200 by 100. -/
def sampleContext : PreviewContext :=
  { screen := QRect.ofSize 0 0 1024 768, origin := ⟨0, 0⟩,
    previewWidth := 200, previewHeight := 100, timerId := 1 }

/-- The sample bar with three tabs, a visible preview and the preview timer
`timer`, tab 0 hovered. -/
def previewBar (visible : Bool) (timer : Int) : TabBarWidget :=
  { sampleBar threeWindows ⟨0, 0⟩ with
    m_previewWidget := some ⟨visible, ⟨24, 29⟩, 200, 100⟩, m_previewTimer := timer,
    m_hoveredTab := 0 }

/-- The row as `applyFilters` leaves it: same item, hidden unless matched. -/
def refilter (fold : Char → Char) (scopes : MessagesScopes) (filter : QString)
    (categories : List MessageCategory) (currentWindow : Nat) (r : Row) : Row :=
  { r with hidden := !matched fold scopes r.item filter categories currentWindow }

/-- A console before its first `showEvent`: no model yet. -/
def freshConsole : ErrorConsoleWidget :=
  { sampleConsole 7 ⟨true, false, true⟩ with m_model := none }

/-- A tab handle with its close button in the square [30,46) by [4,20). -/
def sampleHandle (window : Option Window) : TabHandleWidget :=
  { m_window := window, m_closeButtonRectangle := QRect.ofSize 30 4 16 16,
    m_isCloseButtonUnderMouse := false, m_wasCloseButtonPressed := false }

/-- A drop of URLs that come from outside the bar. -/
def urlDrop (urls : List QString) : DropEvent :=
  { hasSource := false, sourceIsThis := false, windowIdentifier := none, hasUrls := true,
    urls := urls }

/-! ## Theorems: the message filter -/

theorem containsCI_nil_left (fold : Char → Char) (needle : QString) (h : needle ≠ []) :
    containsCI fold [] needle = false := by
  cases needle with
  | nil => exact absurd rfl h
  | cons c cs => simp [containsCI, List.isPrefixOf]

theorem get?_setRowHidden_self (rows : List Row) (i : Nat) (h : Bool) (r : Row)
    (hr : rows.get? i = some r) :
    (setRowHidden rows i h).get? i = some { r with hidden := h } := by
  induction rows generalizing i with
  | nil => simp at hr
  | cons a l ih =>
    cases i with
    | zero =>
      simp only [List.get?_cons_zero, Option.some.injEq] at hr
      subst hr
      simp [setRowHidden]
    | succ n =>
      simp only [List.get?_cons_succ] at hr
      simpa [setRowHidden] using ih n hr

theorem get?_setRowHidden_other (rows : List Row) (i j : Nat) (h : Bool) (hij : j ≠ i) :
    (setRowHidden rows i h).get? j = rows.get? j := by
  induction rows generalizing i j with
  | nil => simp [setRowHidden]
  | cons a l ih =>
    cases i with
    | zero =>
      cases j with
      | zero => exact absurd rfl hij
      | succ m => simp [setRowHidden]
    | succ n =>
      cases j with
      | zero => simp [setRowHidden]
      | succ m =>
        have hmn : m ≠ n := fun e => hij (by rw [e])
        simpa [setRowHidden] using ih n m hmn

theorem map_item_setRowHidden (rows : List Row) (i : Nat) (h : Bool) :
    (setRowHidden rows i h).map Row.item = rows.map Row.item := by
  induction rows generalizing i with
  | nil => simp [setRowHidden]
  | cons a l ih =>
    cases i with
    | zero => simp [setRowHidden]
    | succ n => simp [setRowHidden, ih n]

theorem length_setRowHidden (rows : List Row) (i : Nat) (h : Bool) :
    (setRowHidden rows i h).length = rows.length := by
  have := congrArg List.length (map_item_setRowHidden rows i h)
  simpa using this

/-- After `applyFilters` on an existing row, the row is visible exactly when
`matched` ended up true. -/
theorem rowVisible_applyFilters (fold : Char → Char) (w : ErrorConsoleWidget)
    (rows : List Row) (i : Nat) (row : Row) (filter : QString)
    (categories : List MessageCategory) (currentWindow : Nat)
    (hmodel : w.m_model = some rows) (hrow : rows.get? i = some row) :
    rowVisible (applyFilters fold w (some i) filter categories currentWindow) i =
      matched fold w.m_messageScopes row.item filter categories currentWindow := by
  simp only [applyFilters, hmodel, hrow, rowVisible]
  rw [get?_setRowHidden_self rows i _ row hrow]
  simp

/-- The scope and category test on the `else` branch of `applyFilters`. -/
theorem scope_category_iff (scopes : MessagesScopes) (item : Item)
    (categories : List MessageCategory) (currentWindow : Nat) :
    (((item.window == 0 && scopes.otherSources) ||
        (decide (item.window > 0) &&
          ((item.window == currentWindow && scopes.currentTab) || scopes.allTabs))) &&
      categories.contains item.category) = true ↔
      (item.category ∈ categories ∧
        ((0 < item.window ∧
            (scopes.allTabs = true ∨ (scopes.currentTab = true ∧ item.window = currentWindow))) ∨
          (item.window = 0 ∧ scopes.otherSources = true))) := by
  simp only [Bool.and_eq_true, Bool.or_eq_true, beq_iff_eq, decide_eq_true_eq,
    List.elem_eq_mem]
  tauto

/-- The three conditions under which `matched` ends up true. -/
theorem matched_iff (fold : Char → Char) (scopes : MessagesScopes) (item : Item)
    (filter : QString) (categories : List MessageCategory) (currentWindow : Nat) :
    matched fold scopes item filter categories currentWindow = true ↔
      ((filter = [] ∨ containsCI fold item.source filter = true ∨
          containsCI fold item.note filter = true) ∧
        item.category ∈ categories ∧
        ((0 < item.window ∧
            (scopes.allTabs = true ∨ (scopes.currentTab = true ∧ item.window = currentWindow))) ∨
          (item.window = 0 ∧ scopes.otherSources = true))) := by
  have hnote : filter ≠ [] →
      (match item.child with
        | some text => containsCI fold text filter
        | none => false) = containsCI fold item.note filter := by
    intro hne
    cases hc : item.child with
    | none => simp [Item.note, hc, containsCI_nil_left fold filter hne]
    | some text => simp [Item.note, hc]
  by_cases hf : filter = []
  · subst hf
    rw [matched]
    simp only [List.isEmpty_nil, Bool.not_true, Bool.false_and, Bool.false_eq_true, if_false,
      true_or, true_and]
    exact scope_category_iff scopes item categories currentWindow
  · have hemp : filter.isEmpty = false := by
      cases filter with
      | nil => exact absurd rfl hf
      | cons c cs => rfl
    rw [matched, hnote hf, hemp]
    by_cases hs : containsCI fold item.source filter = true
    · simp only [hs, Bool.not_false, Bool.true_and, Bool.true_or, Bool.not_true,
        Bool.false_eq_true, if_false, or_true, true_or, true_and]
      exact scope_category_iff scopes item categories currentWindow
    · have hs' : containsCI fold item.source filter = false := by simpa using hs
      by_cases hn : containsCI fold item.note filter = true
      · simp only [hs', hn, Bool.false_or, Bool.not_true, Bool.not_false, Bool.true_and,
          Bool.false_eq_true, if_false, or_true, true_and]
        exact scope_category_iff scopes item categories currentWindow
      · have hn' : containsCI fold item.note filter = false := by simpa using hn
        simp [hs', hn', hf]

/-- Visibility after `applyFilters`, spelled out (shared helper). -/
theorem visible_after_filter_iff (fold : Char → Char) (w : ErrorConsoleWidget)
    (rows : List Row) (i : Nat) (row : Row) (filter : QString)
    (categories : List MessageCategory) (currentWindow : Nat)
    (hmodel : w.m_model = some rows) (hrow : rows.get? i = some row) :
    rowVisible (applyFilters fold w (some i) filter categories currentWindow) i = true ↔
      ((filter = [] ∨ containsCI fold row.item.source filter = true ∨
          containsCI fold row.item.note filter = true) ∧
        row.item.category ∈ categories ∧
        ((0 < row.item.window ∧
            (w.m_messageScopes.allTabs = true ∨
              (w.m_messageScopes.currentTab = true ∧ row.item.window = currentWindow))) ∨
          (row.item.window = 0 ∧ w.m_messageScopes.otherSources = true))) := by
  rw [rowVisible_applyFilters fold w rows i row filter categories currentWindow hmodel hrow]
  exact matched_iff fold w.m_messageScopes row.item filter categories currentWindow

/-- C1: `applyFilters` leaves an existing row visible exactly when (1) the
filter text is empty or the item's source or note contains it
case-insensitively, (2) the item's category is among the enabled ones, and
(3) the scope rule holds: a tab id above 0 passes with AllTabs, or with
CurrentTab when it equals the active tab id; tab id 0 passes iff OtherSources
is set. -/
theorem applyFilters_visible_iff (fold : Char → Char) (w : ErrorConsoleWidget)
    (rows : List Row) (i : Nat) (row : Row) (filter : QString)
    (categories : List MessageCategory) (currentWindow : Nat)
    (hmodel : w.m_model = some rows) (hrow : rows.get? i = some row) :
    rowVisible (applyFilters fold w (some i) filter categories currentWindow) i = true ↔
      ((filter = [] ∨ containsCI fold row.item.source filter = true ∨
          containsCI fold row.item.note filter = true) ∧
        row.item.category ∈ categories ∧
        ((0 < row.item.window ∧
            (w.m_messageScopes.allTabs = true ∨
              (w.m_messageScopes.currentTab = true ∧ row.item.window = currentWindow))) ∨
          (row.item.window = 0 ∧ w.m_messageScopes.otherSources = true))) := by
  rw [rowVisible_applyFilters fold w rows i row filter categories currentWindow hmodel hrow]
  exact matched_iff fold w.m_messageScopes row.item filter categories currentWindow

/-- C1, the scenario of the claim: categories = {Network}, only the CurrentTab
scope, active tab 7, empty filter. The Network message of tab 7 is visible,
the same message of tab 9 is hidden. -/
theorem applyFilters_visible_iff_witness :
    (rowVisible (applyFilters Char.toLower (sampleConsole 7 ⟨false, true, false⟩) (some 0) []
        [MessageCategory.NetworkCategory] 7) 0 = true ↔
      ((([] : QString) = [] ∨ containsCI Char.toLower (networkItem 7).source [] = true ∨
          containsCI Char.toLower (networkItem 7).note [] = true) ∧
        (networkItem 7).category ∈ [MessageCategory.NetworkCategory] ∧
        ((0 < (networkItem 7).window ∧
            ((sampleConsole 7 ⟨false, true, false⟩).m_messageScopes.allTabs = true ∨
              ((sampleConsole 7 ⟨false, true, false⟩).m_messageScopes.currentTab = true ∧
                (networkItem 7).window = 7))) ∨
          ((networkItem 7).window = 0 ∧
            (sampleConsole 7 ⟨false, true, false⟩).m_messageScopes.otherSources = true)))) ∧
    rowVisible (applyFilters Char.toLower (sampleConsole 7 ⟨false, true, false⟩) (some 0) []
        [MessageCategory.NetworkCategory] 7) 0 = true ∧
    rowVisible (applyFilters Char.toLower (sampleConsole 9 ⟨false, true, false⟩) (some 0) []
        [MessageCategory.NetworkCategory] 7) 0 = false :=
  ⟨applyFilters_visible_iff Char.toLower (sampleConsole 7 ⟨false, true, false⟩)
      [{ item := networkItem 7, hidden := false }] 0 { item := networkItem 7, hidden := false }
      [] [MessageCategory.NetworkCategory] 7 rfl rfl,
    by decide, by decide⟩

/-- C7 as stated fails: a Network message of tab 9 (not the active tab 7), with
the CurrentTab and OtherSources scopes set, AllTabs unset, an empty filter and
its category enabled, is hidden although OtherSources is enabled. -/
theorem stale_tab_not_other_sources_gated :
    (sampleConsole 9 ⟨false, true, true⟩).m_messageScopes.otherSources = true ∧
    (networkItem 9).category ∈ getCategories (sampleConsole 9 ⟨false, true, true⟩) ∧
    rowVisible (applyFilters Char.toLower (sampleConsole 9 ⟨false, true, true⟩) (some 0) []
        (getCategories (sampleConsole 9 ⟨false, true, true⟩))
        (getCurrentWindow (sampleConsole 9 ⟨false, true, true⟩))) 0 = false := by
  decide

/-- C7, amended: a message whose tab id is above 0 and differs from the active
tab id never passes through the CurrentTab scope, and the OtherSources scope
does not apply to it: it is visible exactly when AllTabs is set, the text
filter passes and its category is enabled; with AllTabs unset it is hidden
whatever OtherSources is. The function is total, no fault is raised. -/
theorem stale_tab_visible_iff (fold : Char → Char) (w : ErrorConsoleWidget)
    (rows : List Row) (i : Nat) (row : Row) (filter : QString)
    (categories : List MessageCategory) (currentWindow : Nat)
    (hmodel : w.m_model = some rows) (hrow : rows.get? i = some row)
    (hpos : 0 < row.item.window) (hne : row.item.window ≠ currentWindow) :
    (rowVisible (applyFilters fold w (some i) filter categories currentWindow) i = true ↔
      (w.m_messageScopes.allTabs = true ∧
        (filter = [] ∨ containsCI fold row.item.source filter = true ∨
          containsCI fold row.item.note filter = true) ∧
        row.item.category ∈ categories)) ∧
    (w.m_messageScopes.allTabs = false →
      rowVisible (applyFilters fold w (some i) filter categories currentWindow) i = false) := by
  have hiff := visible_after_filter_iff fold w rows i row filter categories currentWindow
    hmodel hrow
  have h0 : row.item.window ≠ 0 := Nat.pos_iff_ne_zero.mp hpos
  have hmain : rowVisible (applyFilters fold w (some i) filter categories currentWindow) i = true ↔
      (w.m_messageScopes.allTabs = true ∧
        (filter = [] ∨ containsCI fold row.item.source filter = true ∨
          containsCI fold row.item.note filter = true) ∧
        row.item.category ∈ categories) := by
    rw [hiff]
    constructor
    · rintro ⟨ht, hc, hs⟩
      rcases hs with ⟨_, hall | ⟨_, he⟩⟩ | ⟨hz, _⟩
      · exact ⟨hall, ht, hc⟩
      · exact absurd he hne
      · exact absurd hz h0
    · rintro ⟨hall, ht, hc⟩
      exact ⟨ht, hc, Or.inl ⟨hpos, Or.inl hall⟩⟩
  refine ⟨hmain, ?_⟩
  intro hall
  cases hv : rowVisible (applyFilters fold w (some i) filter categories currentWindow) i with
  | false => rfl
  | true =>
    have := (hmain.mp hv).1
    rw [hall] at this
    exact absurd this (by decide)

/-- C7, amended, at a concrete console: the message of tab 9 with active tab 7. -/
theorem stale_tab_visible_iff_witness :
    (rowVisible (applyFilters Char.toLower (sampleConsole 9 ⟨false, true, true⟩) (some 0) []
        [MessageCategory.NetworkCategory] 7) 0 = true ↔
      ((sampleConsole 9 ⟨false, true, true⟩).m_messageScopes.allTabs = true ∧
        (([] : QString) = [] ∨ containsCI Char.toLower (networkItem 9).source [] = true ∨
          containsCI Char.toLower (networkItem 9).note [] = true) ∧
        (networkItem 9).category ∈ [MessageCategory.NetworkCategory])) ∧
    ((sampleConsole 9 ⟨false, true, true⟩).m_messageScopes.allTabs = false →
      rowVisible (applyFilters Char.toLower (sampleConsole 9 ⟨false, true, true⟩) (some 0) []
        [MessageCategory.NetworkCategory] 7) 0 = false) :=
  stale_tab_visible_iff Char.toLower (sampleConsole 9 ⟨false, true, true⟩)
    [{ item := networkItem 9, hidden := false }] 0 { item := networkItem 9, hidden := false }
    [] [MessageCategory.NetworkCategory] 7 rfl rfl (by decide) (by decide)

/-- C8: a message with tab id 0 is hidden by `applyFilters` whenever the
OtherSources scope is not set, whatever the AllTabs and CurrentTab flags, the
filter text, the categories and the active tab id (0 included) are. -/
theorem untabbed_hidden_without_other_sources (fold : Char → Char) (w : ErrorConsoleWidget)
    (rows : List Row) (i : Nat) (row : Row) (filter : QString)
    (categories : List MessageCategory) (currentWindow : Nat)
    (hmodel : w.m_model = some rows) (hrow : rows.get? i = some row)
    (hzero : row.item.window = 0) (hother : w.m_messageScopes.otherSources = false) :
    rowVisible (applyFilters fold w (some i) filter categories currentWindow) i = false := by
  cases hv : rowVisible (applyFilters fold w (some i) filter categories currentWindow) i with
  | false => rfl
  | true =>
    have h := (visible_after_filter_iff fold w rows i row filter categories currentWindow
      hmodel hrow).mp hv
    rcases h.2.2 with ⟨hpos, _⟩ | ⟨_, ho⟩
    · rw [hzero] at hpos
      exact absurd hpos (by decide)
    · rw [hother] at ho
      exact absurd ho (by decide)

/-- C8 at a concrete console: a message without tab, AllTabs and CurrentTab
set, OtherSources unset, no active tab. -/
theorem untabbed_hidden_without_other_sources_witness :
    rowVisible (applyFilters Char.toLower (sampleConsole 0 ⟨true, true, false⟩) (some 0) []
        [MessageCategory.NetworkCategory] 0) 0 = false :=
  untabbed_hidden_without_other_sources Char.toLower (sampleConsole 0 ⟨true, true, false⟩)
    [{ item := networkItem 0, hidden := false }] 0 { item := networkItem 0, hidden := false }
    [] [MessageCategory.NetworkCategory] 0 rfl rfl rfl rfl

/-- C9: with none of the five category toggles checked, `getCategories`
returns the empty list and `applyFilters` hides the row of every message, for
every filter text, scope flags and active tab id. -/
theorem no_category_hides_all (fold : Char → Char) (w : ErrorConsoleWidget)
    (rows : List Row) (i : Nat) (row : Row) (filter : QString)
    (hmodel : w.m_model = some rows) (hrow : rows.get? i = some row)
    (hn : w.networkButton = false) (hs : w.securityButton = false) (hc : w.cssButton = false)
    (hj : w.javaScriptButton = false) (ho : w.otherButton = false) :
    getCategories w = [] ∧
    rowVisible (applyFilters fold w (some i) filter (getCategories w) (getCurrentWindow w)) i
      = false ∧
    (applyFilters fold w (some i) filter (getCategories w) (getCurrentWindow w)).m_model =
      some (setRowHidden rows i true) := by
  have hcat : getCategories w = [] := by simp [getCategories, hn, hs, hc, hj, ho]
  have hm : matched fold w.m_messageScopes row.item filter [] (getCurrentWindow w) = false := by
    cases hv : matched fold w.m_messageScopes row.item filter [] (getCurrentWindow w) with
    | false => rfl
    | true =>
      have h := ((matched_iff fold w.m_messageScopes row.item filter []
        (getCurrentWindow w)).mp hv).2.1
      simp at h
  refine ⟨hcat, ?_, ?_⟩
  · rw [rowVisible_applyFilters fold w rows i row filter _ _ hmodel hrow, hcat]
    exact hm
  · rw [hcat]
    simp only [applyFilters, hmodel, hrow, hm, Bool.not_false]

/-- C9 at a concrete console: a Network message of the active tab, every scope
set, a filter text that matches its source, no category checked. -/
theorem no_category_hides_all_witness :
    getCategories { sampleConsole 7 ⟨true, true, true⟩ with networkButton := false } = [] ∧
    rowVisible (applyFilters Char.toLower
        { sampleConsole 7 ⟨true, true, true⟩ with networkButton := false } (some 0) ['x']
        (getCategories { sampleConsole 7 ⟨true, true, true⟩ with networkButton := false })
        (getCurrentWindow { sampleConsole 7 ⟨true, true, true⟩ with networkButton := false })) 0
      = false ∧
    (applyFilters Char.toLower
        { sampleConsole 7 ⟨true, true, true⟩ with networkButton := false } (some 0) ['x']
        (getCategories { sampleConsole 7 ⟨true, true, true⟩ with networkButton := false })
        (getCurrentWindow { sampleConsole 7 ⟨true, true, true⟩ with networkButton := false })
      ).m_model = some (setRowHidden [{ item := networkItem 7, hidden := false }] 0 true) :=
  no_category_hides_all Char.toLower
    { sampleConsole 7 ⟨true, true, true⟩ with networkButton := false }
    [{ item := networkItem 7, hidden := false }] 0 { item := networkItem 7, hidden := false }
    ['x'] rfl rfl rfl rfl rfl rfl rfl

/-! ## Theorems: the order of the console rows -/

theorem insertDescending_perm (a : Row) (l : List Row) :
    (insertDescending a l).Perm (a :: l) := by
  induction l with
  | nil => simp [insertDescending]
  | cons b l ih =>
    by_cases h : b.item.time ≤ a.item.time
    · simp [insertDescending, h]
    · simp only [insertDescending, h, if_false]
      exact (List.Perm.cons b ih).trans (List.Perm.swap a b l)

theorem sortDescending_perm (l : List Row) : (sortDescending l).Perm l := by
  induction l with
  | nil => simp [sortDescending]
  | cons a l ih =>
    simp only [sortDescending]
    exact (insertDescending_perm a _).trans (List.Perm.cons a ih)

theorem insertDescending_sorted (a : Row) (l : List Row)
    (h : l.Pairwise (fun x y => y.item.time ≤ x.item.time)) :
    (insertDescending a l).Pairwise (fun x y => y.item.time ≤ x.item.time) := by
  induction l with
  | nil => simp [insertDescending]
  | cons b l ih =>
    rw [List.pairwise_cons] at h
    by_cases hba : b.item.time ≤ a.item.time
    · simp only [insertDescending, hba, if_true]
      refine List.Pairwise.cons ?_ (List.Pairwise.cons h.1 h.2)
      intro y hy
      rcases List.mem_cons.mp hy with rfl | hy
      · exact hba
      · exact le_trans (h.1 y hy) hba
    · simp only [insertDescending, hba, if_false]
      refine List.Pairwise.cons ?_ (ih h.2)
      intro y hy
      rcases List.mem_cons.mp ((insertDescending_perm a l).subset hy) with rfl | hy
      · exact le_of_lt (lt_of_not_ge hba)
      · exact h.1 y hy

theorem sortDescending_sorted (l : List Row) :
    (sortDescending l).Pairwise (fun x y => y.item.time ≤ x.item.time) := by
  induction l with
  | nil => simp [sortDescending]
  | cons a l ih => exact insertDescending_sorted a _ ih

/-- Insertion keeps a row ahead of the rows with the same time: among the rows
of time `t` the inserted row comes first and the others keep their order. -/
theorem insertDescending_filter_time (t : Int) (a : Row) (l : List Row) :
    (insertDescending a l).filter (fun r => r.item.time == t) =
      (a :: l).filter (fun r => r.item.time == t) := by
  induction l with
  | nil => simp [insertDescending]
  | cons b l ih =>
    by_cases hba : b.item.time ≤ a.item.time
    · simp [insertDescending, hba]
    · simp only [insertDescending, hba, if_false]
      by_cases hat : a.item.time = t
      · have hbt : ¬ b.item.time = t := by
          intro hbt
          exact hba (by rw [hbt, hat])
        have hbt' : (b.item.time == t) = false := by simpa using hbt
        rw [List.filter_cons_of_neg (by simpa using hbt), ih]
        simp [List.filter_cons, hat, hbt']
      · have hat' : (a.item.time == t) = false := by simpa using hat
        have ih' : (insertDescending a l).filter (fun r => r.item.time == t) =
            l.filter (fun r => r.item.time == t) := by
          rw [ih]
          simp [List.filter_cons, hat']
        simp [List.filter_cons, hat', ih']

/-- The sort is stable: the rows of any one time keep their relative order. -/
theorem sortDescending_filter_time (t : Int) (l : List Row) :
    (sortDescending l).filter (fun r => r.item.time == t) =
      l.filter (fun r => r.item.time == t) := by
  induction l with
  | nil => simp [sortDescending]
  | cons a l ih =>
    rw [sortDescending, insertDescending_filter_time]
    simp [List.filter_cons, ih]

/-- `applyFilters` changes no item and keeps the model in place. -/
theorem applyFilters_model (fold : Char → Char) (w : ErrorConsoleWidget) (item : Option Nat)
    (filter : QString) (categories : List MessageCategory) (currentWindow : Nat)
    (rows : List Row) (hmodel : w.m_model = some rows) :
    ∃ rows', (applyFilters fold w item filter categories currentWindow).m_model = some rows' ∧
      rows'.map Row.item = rows.map Row.item := by
  cases item with
  | none => exact ⟨rows, by simp [applyFilters, hmodel], rfl⟩
  | some i =>
    cases hr : rows.get? i with
    | none => exact ⟨rows, by simp only [applyFilters, hmodel, hr], rfl⟩
    | some r =>
      exact ⟨setRowHidden rows i
          (!matched fold w.m_messageScopes r.item filter categories currentWindow),
        by simp only [applyFilters, hmodel, hr], map_item_setRowHidden rows i _⟩

/-- One `addMessage` on a created model: the new rows carry the items of the
stable descending sort of the old rows followed by the new item. -/
theorem addMessage_model (fold : Char → Char) (w : ErrorConsoleWidget) (message : Message)
    (rows : List Row) (hmodel : w.m_model = some rows) :
    ∃ rows', (addMessage fold w message).m_model = some rows' ∧
      rows'.map Row.item =
        (sortDescending (rows ++ [{ item := messageItem message, hidden := false }])).map
          Row.item := by
  simp only [addMessage, hmodel]
  exact applyFilters_model fold _ _ _ _ _ _ rfl

theorem sortDescending_items_filter (t : Int) (l : List Row) :
    ((sortDescending l).map Row.item).filter (fun a => a.time == t) =
      (l.map Row.item).filter (fun a => a.time == t) := by
  have h := congrArg (List.map Row.item) (sortDescending_filter_time t l)
  simpa [List.filter_map, Function.comp_def] using h

theorem sortDescending_items_sorted (l : List Row) :
    ((sortDescending l).map Row.item).Pairwise (fun a b => b.time ≤ a.time) := by
  rw [List.pairwise_map]
  exact sortDescending_sorted l

/-- The model after a run of `addMessage` calls, from any present model. -/
theorem foldl_addMessage_model (fold : Char → Char) (messages : List Message) :
    ∀ (w : ErrorConsoleWidget) (rows0 : List Row), w.m_model = some rows0 →
      ∃ rows, (messages.foldl (addMessage fold) w).m_model = some rows ∧
        (rows.map Row.item).Perm (rows0.map Row.item ++ messages.map messageItem) ∧
        (∀ t : Int, (rows.map Row.item).filter (fun a => a.time == t) =
          (rows0.map Row.item ++ messages.map messageItem).filter (fun a => a.time == t)) ∧
        ((rows0.map Row.item).Pairwise (fun a b => b.time ≤ a.time) →
          (rows.map Row.item).Pairwise (fun a b => b.time ≤ a.time)) := by
  induction messages with
  | nil =>
    intro w rows0 hmodel
    exact ⟨rows0, by simpa using hmodel, by simp, by simp, fun h => h⟩
  | cons m ms ih =>
    intro w rows0 hmodel
    obtain ⟨rows1, hmodel1, hitems1⟩ := addMessage_model fold w m rows0 hmodel
    obtain ⟨rows, hfinal, hperm, hfilter, hsorted⟩ := ih (addMessage fold w m) rows1 hmodel1
    have hperm1 : (rows1.map Row.item).Perm (rows0.map Row.item ++ [messageItem m]) := by
      rw [hitems1]
      have := (sortDescending_perm (rows0 ++ [{ item := messageItem m, hidden := false }])).map
        Row.item
      simpa using this
    have hsorted1 : (rows1.map Row.item).Pairwise (fun a b => b.time ≤ a.time) := by
      rw [hitems1]
      exact sortDescending_items_sorted _
    refine ⟨rows, by simpa [List.foldl_cons] using hfinal, ?_, ?_, fun _ => hsorted hsorted1⟩
    · have h2 : (rows1.map Row.item ++ ms.map messageItem).Perm
          ((rows0.map Row.item ++ [messageItem m]) ++ ms.map messageItem) :=
        List.Perm.append_right _ hperm1
      have h3 := hperm.trans h2
      simpa using h3
    · intro t
      rw [hfilter t, List.filter_append, hitems1, sortDescending_items_filter]
      simp only [List.map_append, List.map_cons, List.map_nil, List.filter_append,
        List.append_assoc]
      rw [← List.filter_append, List.singleton_append]

/-- C5: after any sequence of `addMessage` calls on a freshly created (empty)
model, the rows hold exactly the added messages, every row is at least as
late as the rows after it (so of two messages with different timestamps the
later one comes first), and for every timestamp the messages with that
timestamp appear in the order in which they were added. -/
theorem addMessage_rows_ordered (fold : Char → Char) (w : ErrorConsoleWidget)
    (messages : List Message) (hmodel : w.m_model = some []) :
    ∃ rows, (messages.foldl (addMessage fold) w).m_model = some rows ∧
      (rows.map Row.item).Perm (messages.map messageItem) ∧
      (rows.map Row.item).Pairwise (fun a b => b.time ≤ a.time) ∧
      (rows.map Row.item).Pairwise (fun a b => a.time ≠ b.time → b.time < a.time) ∧
      (∀ t : Int, (rows.map Row.item).filter (fun a => a.time == t) =
        (messages.map messageItem).filter (fun a => a.time == t)) := by
  obtain ⟨rows, hfinal, hperm, hfilter, hsorted⟩ :=
    foldl_addMessage_model fold messages w [] hmodel
  have hs : (rows.map Row.item).Pairwise (fun a b => b.time ≤ a.time) :=
    hsorted (by simp)
  refine ⟨rows, hfinal, by simpa using hperm, hs, ?_, ?_⟩
  · refine hs.imp ?_
    intro a b hle hne
    exact lt_of_le_of_ne hle (fun e => hne e.symm)
  · intro t
    simpa using hfilter t

/-- C5 at a concrete run: three messages with times 5, 9, 5 added to an empty
model end up in the order 9, first 5, second 5. -/
theorem addMessage_rows_ordered_witness :
    (∃ rows, ([sampleMessage 5 ['a'], sampleMessage 9 ['b'], sampleMessage 5 ['c']].foldl
          (addMessage Char.toLower) (clear (sampleConsole 7 ⟨true, false, true⟩))).m_model =
        some rows ∧
      (rows.map Row.item).Perm
        ([sampleMessage 5 ['a'], sampleMessage 9 ['b'], sampleMessage 5 ['c']].map messageItem) ∧
      (rows.map Row.item).Pairwise (fun a b => b.time ≤ a.time) ∧
      (rows.map Row.item).Pairwise (fun a b => a.time ≠ b.time → b.time < a.time) ∧
      (∀ t : Int, (rows.map Row.item).filter (fun a => a.time == t) =
        ([sampleMessage 5 ['a'], sampleMessage 9 ['b'], sampleMessage 5 ['c']].map
          messageItem).filter (fun a => a.time == t))) ∧
    itemsOf ([sampleMessage 5 ['a'], sampleMessage 9 ['b'], sampleMessage 5 ['c']].foldl
        (addMessage Char.toLower) (clear (sampleConsole 7 ⟨true, false, true⟩))) =
      [messageItem (sampleMessage 9 ['b']), messageItem (sampleMessage 5 ['a']),
        messageItem (sampleMessage 5 ['c'])] :=
  ⟨addMessage_rows_ordered Char.toLower (clear (sampleConsole 7 ⟨true, false, true⟩))
      [sampleMessage 5 ['a'], sampleMessage 9 ['b'], sampleMessage 5 ['c']] rfl,
    by decide⟩

theorem insertDescending_of_head (a : Row) (l : List Row)
    (h : ∀ b ∈ l.head?, b.item.time ≤ a.item.time) : insertDescending a l = a :: l := by
  cases l with
  | nil => rfl
  | cons b l =>
    have hb : b.item.time ≤ a.item.time := h b (by simp)
    simp [insertDescending, hb]

/-- On a model that is already in order, appending a row and sorting puts the
new row right behind the rows that are not earlier than it. -/
theorem sortDescending_append_sorted (rows : List Row) (x : Row)
    (h : rows.Pairwise (fun a b => b.item.time ≤ a.item.time)) :
    sortDescending (rows ++ [x]) =
      rows.filter (fun r => decide (x.item.time ≤ r.item.time)) ++
        x :: rows.filter (fun r => decide (r.item.time < x.item.time)) := by
  induction rows with
  | nil => simp [sortDescending, insertDescending]
  | cons r rest ih =>
    rw [List.pairwise_cons] at h
    rw [List.cons_append, sortDescending, ih h.2]
    by_cases hx : x.item.time ≤ r.item.time
    · have hnot : ¬ r.item.time < x.item.time := not_lt.mpr hx
      rw [List.filter_cons_of_pos (by simpa using hx),
        List.filter_cons_of_neg (by simpa using hnot), List.cons_append]
      apply insertDescending_of_head
      intro b hb
      cases hf : rest.filter (fun r => decide (x.item.time ≤ r.item.time)) with
      | nil =>
        rw [hf] at hb
        simp only [List.nil_append, List.head?_cons, Option.mem_def, Option.some.injEq] at hb
        rw [← hb]
        exact hx
      | cons c cs =>
        rw [hf] at hb
        simp only [List.cons_append, List.head?_cons, Option.mem_def, Option.some.injEq] at hb
        have hc : c ∈ rest.filter (fun r => decide (x.item.time ≤ r.item.time)) := by
          rw [hf]
          exact List.mem_cons_self c cs
        rw [← hb]
        exact h.1 c (List.mem_filter.mp hc).1
    · have hlt : r.item.time < x.item.time := lt_of_not_ge hx
      have hall : ∀ b ∈ rest, b.item.time < x.item.time :=
        fun b hb => lt_of_le_of_lt (h.1 b hb) hlt
      have hge : rest.filter (fun r => decide (x.item.time ≤ r.item.time)) = [] := by
        rw [List.filter_eq_nil_iff]
        intro b hb
        simpa using hall b hb
      have hless : rest.filter (fun r => decide (r.item.time < x.item.time)) = rest := by
        rw [List.filter_eq_self]
        intro b hb
        simpa using hall b hb
      rw [List.filter_cons_of_neg (by simpa using hx),
        List.filter_cons_of_pos (by simpa using hlt), hge, hless, List.nil_append]
      have hins : insertDescending r rest = r :: rest := by
        apply insertDescending_of_head
        intro b hb
        exact h.1 b (List.mem_of_mem_head? hb)
      simp [insertDescending, hx, hins]

/-- The row index that `addMessage` hands to `applyFilters` is the row of the
item it has just appended, when the model was in order. -/
theorem get?_sortedRowOf (rows : List Row) (x : Row)
    (h : rows.Pairwise (fun a b => b.item.time ≤ a.item.time)) :
    (sortDescending (rows ++ [x])).get? (sortedRowOf rows x.item) = some x := by
  rw [sortDescending_append_sorted rows x h, sortedRowOf, List.countP_eq_length_filter,
    List.get?_eq_getElem?, List.getElem?_append_right (le_refl _)]
  simp

/-! ## Theorems: the drop index -/

theorem count_eq_zero_iff (t : TabBarWidget) : t.count = 0 ↔ t.windows = [] := by
  simp [TabBarWidget.count]

/-- The loop of `tabAt` finds the tab `i` when it is the first tab from `k` on
that contains the point. -/
theorem tabAtFrom_eq (t : TabBarWidget) (p : QPoint) (i : Nat) :
    ∀ (n k : Nat), k ≤ i → i < k + n → (t.tabRect i).contains p = true →
      (∀ j : Nat, k ≤ j → j < i → (t.tabRect j).contains p = false) →
      tabAtFrom t p n k = (i : Int) := by
  intro n
  induction n with
  | zero =>
    intro k hk hi
    omega
  | succ n ih =>
    intro k hk hi hin hfirst
    by_cases hki : k = i
    · subst hki
      simp [tabAtFrom, hin]
    · have hlt : k < i := lt_of_le_of_ne hk hki
      have hnot : (t.tabRect k).contains p = false := hfirst k (le_refl k) hlt
      simp only [tabAtFrom, hnot, Bool.false_eq_true, if_false]
      exact ih (k + 1) hlt (by omega) hin (fun j hkj hji => hfirst j (by omega) hji)

/-- The loop of `tabAt` returns -1 when no tab of its range contains the point. -/
theorem tabAtFrom_none (t : TabBarWidget) (p : QPoint) :
    ∀ (n k : Nat), (∀ j : Nat, k ≤ j → j < k + n → (t.tabRect j).contains p = false) →
      tabAtFrom t p n k = -1 := by
  intro n
  induction n with
  | zero => intro k _; rfl
  | succ n ih =>
    intro k hnone
    have hk : (t.tabRect k).contains p = false := hnone k (le_refl k) (by omega)
    simp only [tabAtFrom, hk, Bool.false_eq_true, if_false]
    exact ih (k + 1) (fun j hkj hj => hnone j (by omega) (by omega))

/-- `tabAt` returns the one tab whose rectangle contains the point. -/
theorem tabAt_eq_of_unique (t : TabBarWidget) (p : QPoint) (i : Nat)
    (hi : i < t.windows.length) (hin : (t.tabRect i).contains p = true)
    (huniq : ∀ j : Nat, j < t.windows.length → (t.tabRect j).contains p = true → j = i) :
    t.tabAt p = (i : Int) := by
  unfold TabBarWidget.tabAt
  split
  · rename_i h
    obtain ⟨⟨h0, hlt⟩, hc⟩ := h
    have hlt' : t.currentIndex.toNat < t.windows.length := by
      simp only [TabBarWidget.count] at hlt
      omega
    have hcast : ((t.currentIndex.toNat : Nat) : Int) = t.currentIndex := Int.toNat_of_nonneg h0
    have := huniq t.currentIndex.toNat hlt' (by rw [hcast]; exact hc)
    rw [← hcast, this]
  · apply tabAtFrom_eq t p i t.windows.length 0 (Nat.zero_le i) (by omega) hin
    intro j _ hji
    cases hc : (t.tabRect j).contains p with
    | false => rfl
    | true =>
      have := huniq j (by omega) hc
      omega

/-- C10: with no tabs (`count = 0`), `getDropIndex` returns 0 for every drag
position, null or not, and every shape of the bar. -/
theorem getDropIndex_no_tabs (t : TabBarWidget) (hcount : t.count = 0) :
    t.getDropIndex = 0 := by
  have hw : t.windows = [] := (count_eq_zero_iff t).mp hcount
  have htab : t.tabAt t.m_dragMovePosition = -1 := by
    unfold TabBarWidget.tabAt
    rw [hcount, hw]
    have : ¬ ((0 ≤ t.currentIndex ∧ t.currentIndex < 0) ∧
        (t.tabRect t.currentIndex).contains t.m_dragMovePosition = true) := by
      rintro ⟨⟨h0, h1⟩, _⟩
      omega
    rw [if_neg this]
    rfl
  unfold TabBarWidget.getDropIndex
  simp only [htab, hcount]
  split
  · simp
  · rw [if_neg (by decide)]
    split <;> rfl

/-- C10 at concrete bars: no tabs, a null and a non-null drag position, a
horizontal and a vertical bar. -/
theorem getDropIndex_no_tabs_witness :
    (sampleBar [] ⟨0, 0⟩).getDropIndex = 0 ∧
    (sampleBar [] ⟨120, 10⟩).getDropIndex = 0 ∧
    ({ sampleBar [] ⟨-4, -7⟩ with shape := Shape.RoundedWest }).getDropIndex = 0 :=
  ⟨getDropIndex_no_tabs (sampleBar [] ⟨0, 0⟩) rfl,
    getDropIndex_no_tabs (sampleBar [] ⟨120, 10⟩) rfl,
    getDropIndex_no_tabs { sampleBar [] ⟨-4, -7⟩ with shape := Shape.RoundedWest } rfl⟩

/-- C2 as stated fails: on the horizontal bar with tabs spanning [0,50),
[50,100), [100,150), the pointer at x = 125 lies inside tab 2 and is not past
(100 + 150) / 2 = 125, yet `getDropIndex` returns 3, not 2. -/
theorem getDropIndex_at_half_span :
    (sampleBar threeWindows ⟨125, 10⟩).tabRect 2 = QRect.ofSize 100 0 50 30 ∧
    ((sampleBar threeWindows ⟨125, 10⟩).tabRect 2).contains ⟨125, 10⟩ = true ∧
    (sampleBar threeWindows ⟨125, 10⟩).m_dragMovePosition.isNull = false ∧
    ¬ ((125 : Int) > (100 + 150) / 2) ∧
    (sampleBar threeWindows ⟨125, 10⟩).getDropIndex ≠ 2 ∧
    (sampleBar threeWindows ⟨125, 10⟩).getDropIndex = 3 := by
  decide

/-- C2, amended: for a non-null drag position inside the rectangle of tab `i`
(and of no other tab), `getDropIndex` returns `i + 1` when the pointer's
coordinate along the primary axis (x on a horizontal bar, y on a vertical
one) is greater than that of `QRect::center` of the tab, and `i` otherwise.
The centre of a tab spanning `[a, b)` is `(a + (b - 1)) / 2` with the
truncating division of C++: 124, not 125, for a tab spanning 100-150. -/
theorem getDropIndex_inside_tab (t : TabBarWidget) (i : Nat)
    (hi : i < t.windows.length)
    (hnull : t.m_dragMovePosition.isNull = false)
    (hin : (t.tabRect i).contains t.m_dragMovePosition = true)
    (huniq : ∀ j : Nat, j < t.windows.length →
      (t.tabRect j).contains t.m_dragMovePosition = true → j = i) :
    t.getDropIndex =
      (if t.isHorizontal = true then
        (if t.m_dragMovePosition.x >
            Int.tdiv ((t.tabRect i).left + ((t.tabRect i).left + (t.tabRect i).width - 1)) 2
          then (i : Int) + 1 else (i : Int))
      else
        (if t.m_dragMovePosition.y >
            Int.tdiv ((t.tabRect i).top + ((t.tabRect i).top + (t.tabRect i).height - 1)) 2
          then (i : Int) + 1 else (i : Int))) := by
  have htab := tabAt_eq_of_unique t t.m_dragMovePosition i hi hin huniq
  have hx : (t.tabRect i).left + ((t.tabRect i).left + (t.tabRect i).width - 1) =
      (t.tabRect i).x1 + (t.tabRect i).x2 := by
    simp only [QRect.left, QRect.width]
    ring
  have hy : (t.tabRect i).top + ((t.tabRect i).top + (t.tabRect i).height - 1) =
      (t.tabRect i).y1 + (t.tabRect i).y2 := by
    simp only [QRect.top, QRect.height]
    ring
  have hge : (i : Int) ≥ 0 := Int.natCast_nonneg i
  unfold TabBarWidget.getDropIndex
  simp only [hnull, htab, hx, hy, QRect.center, Bool.false_eq_true, if_false, hge, if_true]
  cases hh : t.isHorizontal <;> simp

/-- C2, amended, on the bar with tabs [0,50), [50,100), [100,150): inside tab 2
the pointer at x = 124 is not past the centre 124, the pointer at x = 125 is. -/
theorem getDropIndex_inside_tab_witness :
    (sampleBar threeWindows ⟨124, 10⟩).getDropIndex =
      (if (sampleBar threeWindows ⟨124, 10⟩).isHorizontal = true then
        (if (sampleBar threeWindows ⟨124, 10⟩).m_dragMovePosition.x >
            Int.tdiv (((sampleBar threeWindows ⟨124, 10⟩).tabRect (2 : Nat)).left +
              (((sampleBar threeWindows ⟨124, 10⟩).tabRect (2 : Nat)).left +
                ((sampleBar threeWindows ⟨124, 10⟩).tabRect (2 : Nat)).width - 1)) 2
          then ((2 : Nat) : Int) + 1 else ((2 : Nat) : Int))
      else
        (if (sampleBar threeWindows ⟨124, 10⟩).m_dragMovePosition.y >
            Int.tdiv (((sampleBar threeWindows ⟨124, 10⟩).tabRect (2 : Nat)).top +
              (((sampleBar threeWindows ⟨124, 10⟩).tabRect (2 : Nat)).top +
                ((sampleBar threeWindows ⟨124, 10⟩).tabRect (2 : Nat)).height - 1)) 2
          then ((2 : Nat) : Int) + 1 else ((2 : Nat) : Int))) ∧
    (sampleBar threeWindows ⟨124, 10⟩).getDropIndex = 2 ∧
    (sampleBar threeWindows ⟨125, 10⟩).getDropIndex = 3 :=
  ⟨getDropIndex_inside_tab (sampleBar threeWindows ⟨124, 10⟩) 2 (by decide) (by decide)
      (by decide) (by
        intro j hj hc
        have hj3 : j < 3 := hj
        interval_cases j
        · exact absurd hc (by decide)
        · exact absurd hc (by decide)
        · rfl),
    by decide, by decide⟩

/-- C3, the code at the failing input: three tabs spanning [0,50), [50,100),
[100,150) in a bar 300 wide; the pointer at x = 200 is outside every tab and
past the trailing edge of the last one, and `getDropIndex` returns 0, not the
count 3; at x = -5, before the first tab, it returns 3, not 0. -/
theorem getDropIndex_outside_tabs_swapped :
    (sampleBar threeWindows ⟨200, 10⟩).count = 3 ∧
    (sampleBar threeWindows ⟨200, 10⟩).tabAt ⟨200, 10⟩ = -1 ∧
    (sampleBar threeWindows ⟨200, 10⟩).getDropIndex = 0 ∧
    (sampleBar threeWindows ⟨-5, 10⟩).tabAt ⟨-5, 10⟩ = -1 ∧
    (sampleBar threeWindows ⟨-5, 10⟩).getDropIndex = 3 := by
  decide

/-! ## Theorems: the preview position -/

/-- The two far-edge tests of `showPreview`, applied to any anchored point. -/
theorem far_edge_tests (anchored : QPoint) (screen : QRect) (width height : Int) :
    ((if (if anchored.x + width > screen.right then
            ({ anchored with x := screen.right - width } : QPoint) else anchored).y + height >
          screen.bottom then
        ({ (if anchored.x + width > screen.right then
            ({ anchored with x := screen.right - width } : QPoint) else anchored) with
          y := screen.bottom - height } : QPoint)
      else
        (if anchored.x + width > screen.right then
          ({ anchored with x := screen.right - width } : QPoint) else anchored)).x + width ≤
      screen.right) ∧
    ((if (if anchored.x + width > screen.right then
            ({ anchored with x := screen.right - width } : QPoint) else anchored).y + height >
          screen.bottom then
        ({ (if anchored.x + width > screen.right then
            ({ anchored with x := screen.right - width } : QPoint) else anchored) with
          y := screen.bottom - height } : QPoint)
      else
        (if anchored.x + width > screen.right then
          ({ anchored with x := screen.right - width } : QPoint) else anchored)).y + height ≤
      screen.bottom) := by
  by_cases h1 : anchored.x + width > screen.right
  · by_cases h2 : anchored.y + height > screen.bottom
    · simp only [h1, h2, if_true]
      constructor <;> omega
    · simp only [h1, h2, if_true, if_false]
      constructor <;> omega
  · by_cases h2 : anchored.y + height > screen.bottom
    · simp only [h1, h2, if_true, if_false]
      constructor <;> omega
    · simp only [h1, h2, if_false]
      constructor <;> omega

/-- The two far-edge tests of `showPreview` leave the preview's right and
bottom edges within the screen's, for every shape and every rectangle. -/
theorem previewPosition_far_edges (shape : Shape) (screen rectangle : QRect)
    (width height : Int) :
    (previewPosition shape screen rectangle width height).x + width ≤ screen.right ∧
    (previewPosition shape screen rectangle width height).y + height ≤ screen.bottom := by
  exact far_edge_tests (previewAnchor shape screen rectangle width height) screen width height

/-- C4: when `showPreview` places the preview (no delay, previews enabled,
active window, a window at the index, no tab clicked), the preview ends at a
position with `x + width <= screen.right()` and `y + height <= screen.bottom()`
for every tab rectangle, preview size, screen rectangle and shape; the
position is the only thing the placement changes: the width and height are
the ones the preview had when its position was computed. -/
theorem showPreview_within_screen (t : TabBarWidget) (context : PreviewContext)
    (index delay : Int) (window : Window)
    (hdelay : delay ≤ 0) (henabled : t.m_arePreviewsEnabled = true)
    (hactive : t.isActiveWindow = true) (hwindow : t.getWindow index = some window)
    (hclicked : t.m_clickedTab < 0) :
    ∃ preview, (t.showPreview context index delay).m_previewWidget = some preview ∧
      preview.position =
        previewPosition t.shape context.screen
          ((t.tabRect index).moveTo
            ⟨(t.tabRect index).topLeft.x + context.origin.x,
              (t.tabRect index).topLeft.y + context.origin.y⟩)
          context.previewWidth context.previewHeight ∧
      preview.position.x + preview.width ≤ context.screen.right ∧
      preview.position.y + preview.height ≤ context.screen.bottom ∧
      preview.position.x + preview.width ≤ context.screen.left + context.screen.width ∧
      preview.position.y + preview.height ≤ context.screen.top + context.screen.height ∧
      preview.width = context.previewWidth ∧ preview.height = context.previewHeight ∧
      preview.isVisible = true := by
  have hd : ¬ delay > 0 := not_lt.mpr hdelay
  have hedges := previewPosition_far_edges t.shape context.screen
    ((t.tabRect index).moveTo
      ⟨(t.tabRect index).topLeft.x + context.origin.x,
        (t.tabRect index).topLeft.y + context.origin.y⟩)
    context.previewWidth context.previewHeight
  refine ⟨⟨true,
      previewPosition t.shape context.screen
        ((t.tabRect index).moveTo
          ⟨(t.tabRect index).topLeft.x + context.origin.x,
            (t.tabRect index).topLeft.y + context.origin.y⟩)
        context.previewWidth context.previewHeight,
      context.previewWidth, context.previewHeight⟩,
    ?_, rfl, hedges.1, hedges.2, ?_, ?_, rfl, rfl, rfl⟩
  · simp only [TabBarWidget.showPreview, hd, if_false, henabled, hactive, Bool.not_true,
      Bool.or_self, Bool.false_eq_true, hwindow, hclicked, if_true]
  · have := hedges.1
    simp only [QRect.right, QRect.left, QRect.width] at this ⊢
    omega
  · have := hedges.2
    simp only [QRect.bottom, QRect.top, QRect.height] at this ⊢
    omega

/-- C4 at a concrete bar: the preview of 200 by 100 for the tab spanning
[100,150) of a bar at the right end of a screen 1024 wide is shifted to
x = 1023 - 200, its size unchanged. -/
theorem showPreview_within_screen_witness :
    (∃ preview,
      ((sampleBar threeWindows ⟨0, 0⟩).showPreview { sampleContext with origin := ⟨900, 0⟩ } 2
          0).m_previewWidget = some preview ∧
      preview.position =
        previewPosition (sampleBar threeWindows ⟨0, 0⟩).shape
          ({ sampleContext with origin := ⟨900, 0⟩ } : PreviewContext).screen
          (((sampleBar threeWindows ⟨0, 0⟩).tabRect 2).moveTo
            ⟨((sampleBar threeWindows ⟨0, 0⟩).tabRect 2).topLeft.x +
                ({ sampleContext with origin := ⟨900, 0⟩ } : PreviewContext).origin.x,
              ((sampleBar threeWindows ⟨0, 0⟩).tabRect 2).topLeft.y +
                ({ sampleContext with origin := ⟨900, 0⟩ } : PreviewContext).origin.y⟩)
          ({ sampleContext with origin := ⟨900, 0⟩ } : PreviewContext).previewWidth
          ({ sampleContext with origin := ⟨900, 0⟩ } : PreviewContext).previewHeight ∧
      preview.position.x + preview.width ≤
        ({ sampleContext with origin := ⟨900, 0⟩ } : PreviewContext).screen.right ∧
      preview.position.y + preview.height ≤
        ({ sampleContext with origin := ⟨900, 0⟩ } : PreviewContext).screen.bottom ∧
      preview.position.x + preview.width ≤
        ({ sampleContext with origin := ⟨900, 0⟩ } : PreviewContext).screen.left +
          ({ sampleContext with origin := ⟨900, 0⟩ } : PreviewContext).screen.width ∧
      preview.position.y + preview.height ≤
        ({ sampleContext with origin := ⟨900, 0⟩ } : PreviewContext).screen.top +
          ({ sampleContext with origin := ⟨900, 0⟩ } : PreviewContext).screen.height ∧
      preview.width = ({ sampleContext with origin := ⟨900, 0⟩ } : PreviewContext).previewWidth ∧
      preview.height =
        ({ sampleContext with origin := ⟨900, 0⟩ } : PreviewContext).previewHeight ∧
      preview.isVisible = true) ∧
    ((sampleBar threeWindows ⟨0, 0⟩).showPreview { sampleContext with origin := ⟨900, 0⟩ } 2
        0).m_previewWidget = some ⟨true, ⟨823, 29⟩, 200, 100⟩ :=
  ⟨showPreview_within_screen (sampleBar threeWindows ⟨0, 0⟩)
      { sampleContext with origin := ⟨900, 0⟩ } 2 0 ⟨3, false⟩ (by decide) rfl rfl (by decide)
      (by decide),
    by decide⟩

/-! ## Theorems: pinned tabs and drag-and-drop reordering -/

/-- C6 as stated fails. The bar with a pinned tab followed by two unpinned
ones is reached by three `addTab` calls and has its pinned tab first.
Dropping the unpinned tab 2 on the left half of tab 0 moves it in front of
the pinned tab; dragging the pinned tab 1 to the right half of the last tab
moves it behind the unpinned ones; `addTab` at index 0 puts an unpinned tab
in front of the pinned one. Each time the pinned tab leaves index 0 and the
pinned tabs are no longer at the lowest indices. -/
theorem drop_moves_pinned_tab :
    ((((sampleBar [] ⟨10, 10⟩).addTab 0 ⟨1, true⟩).addTab 1 ⟨2, false⟩).addTab 2
        ⟨3, false⟩).windows = (sampleBar pinnedThenTwo ⟨10, 10⟩).windows ∧
    PinnedFirst (sampleBar pinnedThenTwo ⟨10, 10⟩).windows ∧
    ((sampleBar pinnedThenTwo ⟨10, 10⟩).dropEvent (sameBarDrop 2) plainContext).bar.windows =
      [some ⟨2, false⟩, some ⟨1, true⟩, some ⟨3, false⟩] ∧
    ¬ PinnedFirst
      ((sampleBar pinnedThenTwo ⟨10, 10⟩).dropEvent (sameBarDrop 2) plainContext).bar.windows ∧
    ((sampleBar pinnedThenTwo ⟨140, 10⟩).dropEvent (sameBarDrop 1) plainContext).bar.windows =
      [some ⟨2, false⟩, some ⟨3, false⟩, some ⟨1, true⟩] ∧
    ¬ PinnedFirst
      ((sampleBar pinnedThenTwo ⟨140, 10⟩).dropEvent (sameBarDrop 1) plainContext).bar.windows ∧
    ((sampleBar pinnedThenTwo ⟨10, 10⟩).addTab 0 ⟨4, false⟩).windows =
      [some ⟨4, false⟩, some ⟨1, true⟩, some ⟨2, false⟩, some ⟨3, false⟩] ∧
    ¬ PinnedFirst ((sampleBar pinnedThenTwo ⟨10, 10⟩).addTab 0 ⟨4, false⟩).windows := by
  decide

/-- A list with its pinned tabs first splits into a pinned block and an
unpinned rest. -/
theorem pinnedFirst_split (l : List (Option Window)) (h : PinnedFirst l) :
    ∃ P U, l = P ++ U ∧ (∀ a ∈ P, pinnedOf a = true) ∧ (∀ a ∈ U, pinnedOf a = false) := by
  induction l with
  | nil => exact ⟨[], [], rfl, by simp, by simp⟩
  | cons a l ih =>
    unfold PinnedFirst at h
    rw [List.pairwise_cons] at h
    cases ha : pinnedOf a with
    | true =>
      obtain ⟨P, U, hl, hP, hU⟩ := ih h.2
      refine ⟨a :: P, U, by rw [hl, List.cons_append], ?_, hU⟩
      intro b hb
      rcases List.mem_cons.mp hb with rfl | hb
      · exact ha
      · exact hP b hb
    | false =>
      refine ⟨[], a :: l, rfl, by simp, ?_⟩
      intro b hb
      rcases List.mem_cons.mp hb with rfl | hb
      · exact ha
      · cases hpb : pinnedOf b with
        | false => rfl
        | true =>
          have := h.1 b hb hpb
          rw [ha] at this
          exact absurd this (by decide)

theorem pinnedFirst_of_split (P U : List (Option Window))
    (hP : ∀ a ∈ P, pinnedOf a = true) (hU : ∀ a ∈ U, pinnedOf a = false) :
    PinnedFirst (P ++ U) := by
  unfold PinnedFirst
  rw [List.pairwise_append]
  refine ⟨?_, ?_, ?_⟩
  · rw [List.pairwise_iff_forall_sublist]
    intro a b hab _
    exact hP a (hab.subset (List.mem_cons_self a [b]))
  · rw [List.pairwise_iff_forall_sublist]
    intro a b hab hpb
    have hb : b ∈ U := hab.subset (by simp)
    rw [hU b hb] at hpb
    exact absurd hpb (by decide)
  · intro a ha b _ _
    exact hP a ha

theorem pinnedCount_split (P U : List (Option Window))
    (hP : ∀ a ∈ P, pinnedOf a = true) (hU : ∀ a ∈ U, pinnedOf a = false) :
    pinnedCount (P ++ U) = P.length := by
  unfold pinnedCount
  rw [List.countP_append, List.countP_eq_length.mpr hP]
  have : List.countP pinnedOf U = 0 := by
    rw [List.countP_eq_zero]
    intro a ha
    simp [hU a ha]
  omega

theorem insertIdx_append_right (P U : List (Option Window)) (n : Nat) (x : Option Window) :
    List.insertIdx (P.length + n) x (P ++ U) = P ++ List.insertIdx n x U := by
  induction P with
  | nil => simp
  | cons a P ih =>
    have : (a :: P).length + n = (P.length + n) + 1 := by simp; omega
    rw [this, List.cons_append, List.insertIdx_succ_cons, ih, List.cons_append]

theorem mem_insertIdx_imp (l : List (Option Window)) (n : Nat) (x a : Option Window)
    (h : a ∈ List.insertIdx n x l) : a = x ∨ a ∈ l := by
  by_cases hn : n ≤ l.length
  · exact (List.mem_insertIdx hn).mp h
  · rw [List.insertIdx_of_length_lt l x n (by omega)] at h
    exact Or.inr h

/-- In a list that splits into a pinned block `P` and an unpinned rest, taking
out an unpinned entry and putting it back at a position not before the end of
`P` leaves `P` in place, followed by unpinned entries only. -/
theorem move_unpinned_split (P U : List (Option Window)) (source target : Nat)
    (hP : ∀ a ∈ P, pinnedOf a = true) (hU : ∀ a ∈ U, pinnedOf a = false)
    (hsource : source < (P ++ U).length)
    (hunpinned : pinnedOf ((P ++ U).getD source none) = false)
    (htarget : P.length ≤ target) :
    ∃ U', ((P ++ U).eraseIdx source).insertIdx target ((P ++ U).getD source none) = P ++ U' ∧
      ∀ a ∈ U', pinnedOf a = false := by
  have hge : P.length ≤ source := by
    by_contra hlt
    have hlt' : source < P.length := by omega
    have hget : (P ++ U).getD source none = P[source] := by
      rw [List.getD_eq_getD_get?, List.get?_eq_getElem?, List.getElem?_append_left hlt',
        List.getElem?_eq_getElem hlt']
      rfl
    rw [hget, hP _ (List.getElem_mem hlt')] at hunpinned
    exact absurd hunpinned (by decide)
  have hx : (P ++ U).getD source none ∈ U := by
    have hlt : source - P.length < U.length := by
      rw [List.length_append] at hsource
      omega
    rw [List.getD_eq_getD_get?, List.get?_eq_getElem?, List.getElem?_append_right hge,
      List.getElem?_eq_getElem hlt]
    exact List.getElem_mem hlt
  refine ⟨List.insertIdx (target - P.length) ((P ++ U).getD source none)
    (U.eraseIdx (source - P.length)), ?_, ?_⟩
  · rw [List.eraseIdx_append_of_length_le hge]
    have ht : target = P.length + (target - P.length) := by omega
    conv_lhs => rw [ht]
    exact insertIdx_append_right P _ _ _
  · intro a ha
    rcases mem_insertIdx_imp _ _ _ _ ha with rfl | ha
    · exact hunpinned
    · exact hU a (List.eraseIdx_subset U _ ha)

/-- The index of an unpinned entry is not inside the pinned block. -/
theorem unpinned_index_ge (l : List (Option Window)) (h : PinnedFirst l) (source : Nat)
    (hsource : source < l.length) (hunpinned : pinnedOf (l.getD source none) = false) :
    pinnedCount l ≤ source := by
  obtain ⟨P, U, hl, hP, hU⟩ := pinnedFirst_split l h
  subst hl
  rw [pinnedCount_split P U hP hU]
  by_contra hlt
  have hlt' : source < P.length := by omega
  have hget : (P ++ U).getD source none = P[source] := by
    rw [List.getD_eq_getD_get?, List.get?_eq_getElem?, List.getElem?_append_left hlt',
      List.getElem?_eq_getElem hlt']
    rfl
  rw [hget, hP _ (List.getElem_mem hlt')] at hunpinned
  exact absurd hunpinned (by decide)

/-- Moving an unpinned tab to a position behind the pinned block keeps the
pinned tabs first, each at its index, and keeps their number. -/
theorem move_unpinned_keeps (l : List (Option Window)) (h : PinnedFirst l)
    (source target : Nat) (hsource : source < l.length)
    (hunpinned : pinnedOf (l.getD source none) = false)
    (htarget : pinnedCount l ≤ target) :
    PinnedFirst ((l.eraseIdx source).insertIdx target (l.getD source none)) ∧
    (∀ i : Nat, i < pinnedCount l →
      ((l.eraseIdx source).insertIdx target (l.getD source none)).get? i = l.get? i) ∧
    pinnedCount ((l.eraseIdx source).insertIdx target (l.getD source none)) =
      pinnedCount l := by
  obtain ⟨P, U, hl, hP, hU⟩ := pinnedFirst_split l h
  subst hl
  have hk := pinnedCount_split P U hP hU
  rw [hk] at htarget
  obtain ⟨U', hmove, hU'⟩ := move_unpinned_split P U source target hP hU hsource hunpinned htarget
  rw [hmove, hk]
  refine ⟨pinnedFirst_of_split P U' hP hU', ?_, pinnedCount_split P U' hP hU'⟩
  intro i hi
  rw [List.get?_eq_getElem?, List.get?_eq_getElem?, List.getElem?_append_left hi,
    List.getElem?_append_left hi]

/-- The tabs after `moveTab`. -/
theorem moveTab_windows (t : TabBarWidget) (source target : Int) :
    (t.moveTab source target).windows =
      if source = target ∨ ¬ (0 ≤ source ∧ source < t.count) ∨
          ¬ (0 ≤ target ∧ target < t.count) then t.windows
      else
        (t.windows.eraseIdx source.toNat).insertIdx target.toNat
          (t.windows.getD source.toNat none) := by
  unfold TabBarWidget.moveTab
  split <;> rfl

/-- The tabs after a drop of a tab dragged within the same bar. -/
theorem dropEvent_same_bar_windows (t : TabBarWidget) (event : DropEvent)
    (context : DropContext) (identifier : Nat)
    (hsource : event.hasSource = true) (hthis : event.sourceIsThis = true)
    (hid : event.windowIdentifier = some identifier)
    (hfound : 0 ≤ findWindowFrom identifier t.windows 0) :
    (t.dropEvent event context).bar.windows =
      if findWindowFrom identifier t.windows 0 ≠ t.getDropIndex ∧
          findWindowFrom identifier t.windows 0 + 1 ≠ t.getDropIndex then
        (t.moveTab (findWindowFrom identifier t.windows 0)
          (t.getDropIndex -
            (if t.getDropIndex > findWindowFrom identifier t.windows 0 then 1 else 0))).windows
      else t.windows := by
  have hnot : ¬ findWindowFrom identifier t.windows 0 < 0 := not_lt.mpr hfound
  simp only [TabBarWidget.dropEvent, hsource, hid, hthis, if_true, hnot, if_false]
  split <;> rfl

/-- C6, amended: `TabBarWidget` does not itself keep pinned tabs in place
(`addTab` inserts at the index it is given, `dropEvent` moves the dragged tab
to the drop index whether or not a pinned tab is involved). What holds is: on
a bar whose pinned tabs form a block at the lowest indices, a drag-and-drop
reorder within the bar of an unpinned tab to a drop index that is not below
the number of pinned tabs leaves the pinned tabs a contiguous block at the
lowest indices, every pinned tab at its index, and their number unchanged. -/
theorem dropEvent_unpinned_keeps_pinned_first (t : TabBarWidget) (event : DropEvent)
    (context : DropContext) (identifier : Nat)
    (hinv : PinnedFirst t.windows)
    (hsource : event.hasSource = true) (hthis : event.sourceIsThis = true)
    (hid : event.windowIdentifier = some identifier)
    (hfound : 0 ≤ findWindowFrom identifier t.windows 0)
    (hunpinned : t.isPinnedTab (findWindowFrom identifier t.windows 0) = false)
    (hdrop : (pinnedCount t.windows : Int) ≤ t.getDropIndex) :
    PinnedFirst (t.dropEvent event context).bar.windows ∧
    (∀ i : Nat, i < pinnedCount t.windows →
      (t.dropEvent event context).bar.windows.get? i = t.windows.get? i) ∧
    pinnedCount (t.dropEvent event context).bar.windows = pinnedCount t.windows := by
  rw [dropEvent_same_bar_windows t event context identifier hsource hthis hid hfound]
  generalize hq : findWindowFrom identifier t.windows 0 = q at hfound hunpinned
  generalize hd : t.getDropIndex = d at hdrop
  generalize htg : d - (if d > q then 1 else 0) = target
  by_cases hmove : q ≠ d ∧ q + 1 ≠ d
  · rw [if_pos hmove, moveTab_windows]
    by_cases hskip : q = target ∨ ¬ (0 ≤ q ∧ q < t.count) ∨ ¬ (0 ≤ target ∧ target < t.count)
    · rw [if_pos hskip]
      exact ⟨hinv, fun _ _ => rfl, rfl⟩
    · rw [if_neg hskip]
      simp only [not_or, not_not] at hskip
      obtain ⟨_, ⟨hq0, hqc⟩, ⟨ht0, htc⟩⟩ := hskip
      simp only [TabBarWidget.count] at hqc htc
      have hsrc : q.toNat < t.windows.length := by omega
      have hunp : pinnedOf (t.windows.getD q.toNat none) = false := by
        have hvalidq : ¬ (q < 0 ∨ q ≥ t.count) := by
          simp only [TabBarWidget.count]
          omega
        simpa [TabBarWidget.isPinnedTab, TabBarWidget.getWindow, hvalidq] using hunpinned
      have hkq := unpinned_index_ge t.windows hinv q.toNat hsrc hunp
      have htgt : pinnedCount t.windows ≤ target.toNat := by
        rw [← htg]
        split <;> omega
      exact move_unpinned_keeps t.windows hinv q.toNat target.toNat hsrc hunp htgt
  · rw [if_neg hmove]
    exact ⟨hinv, fun _ _ => rfl, rfl⟩

/-- C6, amended, at a concrete bar: a pinned tab followed by two unpinned ones;
the unpinned tab 2 is dropped on the right half of the last tab and moves
behind tab 3, the pinned tab stays at index 0. -/
theorem dropEvent_unpinned_keeps_pinned_first_witness :
    (PinnedFirst
        ((sampleBar pinnedThenTwo ⟨140, 10⟩).dropEvent (sameBarDrop 2) plainContext).bar.windows ∧
      (∀ i : Nat, i < pinnedCount (sampleBar pinnedThenTwo ⟨140, 10⟩).windows →
        ((sampleBar pinnedThenTwo ⟨140, 10⟩).dropEvent (sameBarDrop 2)
            plainContext).bar.windows.get? i =
          (sampleBar pinnedThenTwo ⟨140, 10⟩).windows.get? i) ∧
      pinnedCount
          ((sampleBar pinnedThenTwo ⟨140, 10⟩).dropEvent (sameBarDrop 2)
            plainContext).bar.windows =
        pinnedCount (sampleBar pinnedThenTwo ⟨140, 10⟩).windows) ∧
    ((sampleBar pinnedThenTwo ⟨140, 10⟩).dropEvent (sameBarDrop 2) plainContext).bar.windows =
      [some ⟨1, true⟩, some ⟨3, false⟩, some ⟨2, false⟩] :=
  ⟨dropEvent_unpinned_keeps_pinned_first (sampleBar pinnedThenTwo ⟨140, 10⟩) (sameBarDrop 2)
      plainContext 2 (by decide) rfl rfl rfl (by decide) (by decide) (by decide),
    by decide⟩

/-- Removing a tab keeps the pinned tabs first. -/
theorem removeTab_keeps_pinned_first (t : TabBarWidget) (index nextCurrent cursorTab : Int)
    (hinv : PinnedFirst t.windows) :
    PinnedFirst (t.removeTab index nextCurrent cursorTab).windows := by
  have herase : ∀ u : TabBarWidget, u.windows = t.windows →
      PinnedFirst (u.qRemoveTab index nextCurrent).windows := by
    intro u hu
    unfold TabBarWidget.qRemoveTab
    split
    · simp only [hu]
      exact List.Pairwise.sublist (List.eraseIdx_sublist _ _) hinv
    · rw [hu]
      exact hinv
  have hupd : ∀ u : TabBarWidget, u.updatePinnedTabsAmount.windows = u.windows := by
    intro u
    unfold TabBarWidget.updatePinnedTabsAmount
    simp only
    split <;> rfl
  unfold TabBarWidget.removeTab
  simp only
  repeat' split
  all_goals first
    | exact herase _ rfl
    | (rw [hupd]; exact herase _ rfl)

/-! ## Theorems: the three-tab scenario -/

/-- The drop index for a non-null position at which `tabAt` finds tab `i`. -/
theorem getDropIndex_of_tabAt (t : TabBarWidget) (i : Nat)
    (hnull : t.m_dragMovePosition.isNull = false)
    (htab : t.tabAt t.m_dragMovePosition = (i : Int)) :
    t.getDropIndex =
      if (t.isHorizontal && decide (t.m_dragMovePosition.x > (t.tabRect i).center.x)) ||
          (!t.isHorizontal && decide (t.m_dragMovePosition.y > (t.tabRect i).center.y)) then
        (i : Int) + 1
      else (i : Int) := by
  have hge : (i : Int) ≥ 0 := Int.natCast_nonneg i
  unfold TabBarWidget.getDropIndex
  simp only [hnull, htab, Bool.false_eq_true, if_false, hge, if_true]

/-- The rectangles of three tabs 50 wide laid out from x = 0. -/
theorem three_tabs_rect (t : TabBarWidget) (top height : Int)
    (hw : t.windows.length = 3)
    (hr : t.tabRects = [QRect.ofSize 0 top 50 height, QRect.ofSize 50 top 50 height,
      QRect.ofSize 100 top 50 height]) (j : Nat) (hj : j < 3) :
    t.tabRect j = QRect.ofSize (50 * (j : Int)) top 50 height := by
  have hc : (0 : Int) ≤ (j : Int) ∧ (j : Int) < t.count := by
    simp only [TabBarWidget.count, hw]
    omega
  simp only [TabBarWidget.tabRect, hc, and_self, if_true, hr, Int.toNat_ofNat]
  interval_cases j <;> rfl

/-- On a bar with three tabs 50 wide, laid out from x = 0 at any height, the
third tab is the one `tabAt` finds for a point with x in [100, 150). -/
theorem third_tab_contains (t : TabBarWidget) (top height x y : Int)
    (hw : t.windows.length = 3)
    (hr : t.tabRects = [QRect.ofSize 0 top 50 height, QRect.ofSize 50 top 50 height,
      QRect.ofSize 100 top 50 height])
    (hx : 100 ≤ x ∧ x < 150) (hy : top ≤ y ∧ y < top + height) :
    t.tabAt ⟨x, y⟩ = ((2 : Nat) : Int) := by
  apply tabAt_eq_of_unique t ⟨x, y⟩ 2 (by omega)
  · rw [three_tabs_rect t top height hw hr 2 (by omega)]
    simp only [QRect.contains, QRect.ofSize]
    split_ifs <;> first | rfl | omega
  · intro j hj hc
    rw [hw] at hj
    rw [three_tabs_rect t top height hw hr j hj] at hc
    simp only [QRect.contains, QRect.ofSize] at hc
    interval_cases j
    · split_ifs at hc <;> omega
    · split_ifs at hc <;> omega
    · rfl

/-- C11: on a horizontal bar with three tabs occupying the x-ranges [0,50),
[50,100), [100,150), a pointer inside the third tab gives drop index 2 at
x = 120 and 3 at x = 130; the centre of the third tab, `QRect::center` of a
rectangle with left 100 and width 50, has x = 124. -/
theorem getDropIndex_three_tabs (t : TabBarWidget) (top height x y : Int)
    (hh : t.isHorizontal = true) (hw : t.windows.length = 3)
    (hr : t.tabRects = [QRect.ofSize 0 top 50 height, QRect.ofSize 50 top 50 height,
      QRect.ofSize 100 top 50 height])
    (hp : t.m_dragMovePosition = ⟨x, y⟩)
    (hy : top ≤ y ∧ y < top + height) :
    (QRect.ofSize 100 top 50 height).center.x = 124 ∧
    (x = 120 → t.getDropIndex = 2) ∧
    (x = 130 → t.getDropIndex = 3) := by
  have hcenter : (QRect.ofSize 100 top 50 height).center.x = 124 := by
    simp only [QRect.center, QRect.ofSize]
    decide
  have hrect := three_tabs_rect t top height hw hr 2 (by omega)
  have hdrop : 100 ≤ x ∧ x < 150 → t.getDropIndex = if x > 124 then 3 else 2 := by
    intro hx
    have htab : t.tabAt t.m_dragMovePosition = ((2 : Nat) : Int) := by
      rw [hp]
      exact third_tab_contains t top height x y hw hr hx hy
    have hnull : t.m_dragMovePosition.isNull = false := by
      rw [hp]
      have : x ≠ 0 := by omega
      simp [QPoint.isNull, this]
    rw [getDropIndex_of_tabAt t 2 hnull htab, hrect]
    have h50 : (50 : Int) * ((2 : Nat) : Int) = 100 := by decide
    rw [h50, hcenter, hh, hp]
    by_cases hgt : x > 124
    · simp [hgt]
    · simp [hgt]
  refine ⟨hcenter, ?_, ?_⟩
  · intro hx
    rw [hdrop (by omega), hx]
    decide
  · intro hx
    rw [hdrop (by omega), hx]
    decide

/-- C11 on the sample bar: three tabs 50 wide and 30 high, pointer at
(120, 10) and at (130, 10). -/
theorem getDropIndex_three_tabs_witness :
    ((QRect.ofSize 100 0 50 30).center.x = 124 ∧
      ((120 : Int) = 120 → (sampleBar threeWindows ⟨120, 10⟩).getDropIndex = 2) ∧
      ((120 : Int) = 130 → (sampleBar threeWindows ⟨120, 10⟩).getDropIndex = 3)) ∧
    ((QRect.ofSize 100 0 50 30).center.x = 124 ∧
      ((130 : Int) = 120 → (sampleBar threeWindows ⟨130, 10⟩).getDropIndex = 2) ∧
      ((130 : Int) = 130 → (sampleBar threeWindows ⟨130, 10⟩).getDropIndex = 3)) ∧
    (sampleBar threeWindows ⟨120, 10⟩).getDropIndex = 2 ∧
    (sampleBar threeWindows ⟨130, 10⟩).getDropIndex = 3 :=
  ⟨getDropIndex_three_tabs (sampleBar threeWindows ⟨120, 10⟩) 0 30 120 10 rfl rfl rfl rfl
      (by decide),
    getDropIndex_three_tabs (sampleBar threeWindows ⟨130, 10⟩) 0 30 130 10 rfl rfl rfl rfl
      (by decide),
    by decide, by decide⟩

/-! ## Theorems: where the preview is anchored and shifted -/

/-- The position after the far-edge tests, when the anchored preview would
pass the right edge of the screen. -/
theorem previewPosition_x_shifted (shape : Shape) (screen rectangle : QRect)
    (width height : Int)
    (h : (previewAnchor shape screen rectangle width height).x + width > screen.right) :
    (previewPosition shape screen rectangle width height).x = screen.right - width := by
  simp only [previewPosition, h, if_true]
  split <;> rfl

/-- C12 as stated fails: for the tab spanning [100,150) of a bar whose origin
is at x = 900 on a screen 1024 wide with left edge 0, the centred anchor of
the 200 by 100 preview passes the right edge of the screen, and `showPreview`
puts the preview at x = 823, not at 1024 - 200 = 824. -/
theorem preview_shifted_to_823 :
    sampleContext.screen.left = 0 ∧ sampleContext.screen.width = 1024 ∧
    (previewAnchor Shape.RoundedNorth sampleContext.screen (QRect.ofSize 1000 0 50 30) 200
        100).x + 200 > sampleContext.screen.right ∧
    ((sampleBar threeWindows ⟨0, 0⟩).showPreview { sampleContext with origin := ⟨900, 0⟩ } 2
        0).m_previewWidget = some ⟨true, ⟨823, 29⟩, 200, 100⟩ ∧
    (previewPosition Shape.RoundedNorth sampleContext.screen (QRect.ofSize 1000 0 50 30) 200
        100).x ≠ 1024 - 200 := by
  decide

/-- C12, amended: when the anchored preview would pass the right edge of the
screen, `showPreview` puts it at `x = screen.right() - previewWidth`, and
`screen.right()` is `left + width - 1`: on a screen with left edge 0 that is
`screenWidth - 1 - previewWidth`, 823 for a preview 200 wide on a screen 1024
wide. -/
theorem showPreview_x_at_right_edge (t : TabBarWidget) (context : PreviewContext)
    (index delay : Int) (window : Window)
    (hdelay : delay ≤ 0) (henabled : t.m_arePreviewsEnabled = true)
    (hactive : t.isActiveWindow = true) (hwindow : t.getWindow index = some window)
    (hclicked : t.m_clickedTab < 0)
    (hleft : context.screen.left = 0)
    (hpast : (previewAnchor t.shape context.screen
        ((t.tabRect index).moveTo
          ⟨(t.tabRect index).topLeft.x + context.origin.x,
            (t.tabRect index).topLeft.y + context.origin.y⟩)
        context.previewWidth context.previewHeight).x + context.previewWidth >
      context.screen.right) :
    ∃ preview, (t.showPreview context index delay).m_previewWidget = some preview ∧
      preview.position.x = context.screen.right - context.previewWidth ∧
      preview.position.x = context.screen.width - 1 - context.previewWidth := by
  have hd : ¬ delay > 0 := not_lt.mpr hdelay
  have hx := previewPosition_x_shifted t.shape context.screen _ context.previewWidth
    context.previewHeight hpast
  refine ⟨⟨true,
      previewPosition t.shape context.screen
        ((t.tabRect index).moveTo
          ⟨(t.tabRect index).topLeft.x + context.origin.x,
            (t.tabRect index).topLeft.y + context.origin.y⟩)
        context.previewWidth context.previewHeight,
      context.previewWidth, context.previewHeight⟩, ?_, hx, ?_⟩
  · simp only [TabBarWidget.showPreview, hd, if_false, henabled, hactive, Bool.not_true,
      Bool.or_self, Bool.false_eq_true, hwindow, hclicked, if_true]
  · rw [hx]
    simp only [QRect.left, QRect.right, QRect.width] at hleft ⊢
    omega

/-- C12, amended, in the scenario: preview 200 by 100, screen 1024 wide, the
returned x is 1023 - 200 = 823. -/
theorem showPreview_x_at_right_edge_witness :
    ∃ preview,
      ((sampleBar threeWindows ⟨0, 0⟩).showPreview { sampleContext with origin := ⟨900, 0⟩ } 2
          0).m_previewWidget = some preview ∧
      preview.position.x =
        ({ sampleContext with origin := ⟨900, 0⟩ } : PreviewContext).screen.right -
          ({ sampleContext with origin := ⟨900, 0⟩ } : PreviewContext).previewWidth ∧
      preview.position.x =
        ({ sampleContext with origin := ⟨900, 0⟩ } : PreviewContext).screen.width - 1 -
          ({ sampleContext with origin := ⟨900, 0⟩ } : PreviewContext).previewWidth :=
  showPreview_x_at_right_edge (sampleBar threeWindows ⟨0, 0⟩)
    { sampleContext with origin := ⟨900, 0⟩ } 2 0 ⟨3, false⟩ (by decide) rfl rfl (by decide)
    (by decide) (by decide) (by decide)

/-- The point `right() - width() / 2` that the code centres on is the
`QRect::center` coordinate, up to one pixel of rounding. -/
theorem right_minus_half_near_center (lo hi : Int) (h : 0 ≤ hi - lo + 1) :
    Int.tdiv (lo + hi) 2 - 1 ≤ hi - Int.tdiv (hi - lo + 1) 2 ∧
    hi - Int.tdiv (hi - lo + 1) 2 ≤ Int.tdiv (lo + hi) 2 + 1 := by
  have h1 : Int.tdiv (hi - lo + 1) 2 = (hi - lo + 1) / 2 := Int.tdiv_eq_ediv h (by decide)
  rcases le_or_lt 0 (lo + hi) with hs | hs
  · have h2 : Int.tdiv (lo + hi) 2 = (lo + hi) / 2 := Int.tdiv_eq_ediv hs (by decide)
    rw [h1, h2]
    omega
  · have h2 : Int.tdiv (lo + hi) 2 = -((-(lo + hi)) / 2) := by
      have hn : 0 ≤ -(lo + hi) := by omega
      have : Int.tdiv (-(lo + hi)) 2 = (-(lo + hi)) / 2 := Int.tdiv_eq_ediv hn (by decide)
      rw [← this, Int.neg_tdiv, neg_neg]
    rw [h1, h2]
    omega

/-- C13: before the far-edge tests `showPreview` anchors the preview on the
side of the tab opposite the dock edge: for a top bar (North) y is the tab's
`bottom()`, for a bottom bar (South) y is the tab's top minus the preview
height, for a left bar (West) x is the tab's `right()`, for a right bar
(East) x is the tab's left minus the preview width. Along the other axis,
whenever the centred position does not start before the screen's left (top)
edge, the preview starts half its width (height) before the point
`right() - width() / 2` (`bottom() - height() / 2`) of the tab, which is the
tab's `QRect::center` coordinate up to one pixel of integer rounding. -/
theorem previewAnchor_opposite_side (screen rectangle : QRect) (width height : Int) :
    (previewAnchor Shape.RoundedNorth screen rectangle width height).y = rectangle.bottom ∧
    (previewAnchor Shape.RoundedSouth screen rectangle width height).y =
      rectangle.top - height ∧
    (previewAnchor Shape.RoundedWest screen rectangle width height).x = rectangle.right ∧
    (previewAnchor Shape.RoundedEast screen rectangle width height).x =
      rectangle.left - width ∧
    (screen.left ≤ (rectangle.right - Int.tdiv rectangle.width 2) - Int.tdiv width 2 →
      (previewAnchor Shape.RoundedNorth screen rectangle width height).x + Int.tdiv width 2 =
        rectangle.right - Int.tdiv rectangle.width 2 ∧
      (previewAnchor Shape.RoundedSouth screen rectangle width height).x + Int.tdiv width 2 =
        rectangle.right - Int.tdiv rectangle.width 2) ∧
    (screen.top ≤ (rectangle.bottom - Int.tdiv rectangle.height 2) - Int.tdiv height 2 →
      (previewAnchor Shape.RoundedWest screen rectangle width height).y + Int.tdiv height 2 =
        rectangle.bottom - Int.tdiv rectangle.height 2 ∧
      (previewAnchor Shape.RoundedEast screen rectangle width height).y + Int.tdiv height 2 =
        rectangle.bottom - Int.tdiv rectangle.height 2) ∧
    (0 ≤ rectangle.width →
      rectangle.center.x - 1 ≤ rectangle.right - Int.tdiv rectangle.width 2 ∧
      rectangle.right - Int.tdiv rectangle.width 2 ≤ rectangle.center.x + 1) ∧
    (0 ≤ rectangle.height →
      rectangle.center.y - 1 ≤ rectangle.bottom - Int.tdiv rectangle.height 2 ∧
      rectangle.bottom - Int.tdiv rectangle.height 2 ≤ rectangle.center.y + 1) := by
  refine ⟨rfl, rfl, rfl, rfl, ?_, ?_, ?_, ?_⟩
  · intro h
    simp only [previewAnchor, max_eq_right h]
    constructor <;> omega
  · intro h
    simp only [previewAnchor, max_eq_right h]
    constructor <;> omega
  · intro h
    exact right_minus_half_near_center rectangle.x1 rectangle.x2 h
  · intro h
    exact right_minus_half_near_center rectangle.y1 rectangle.y2 h

/-- C13 at a concrete tab: the tab spanning [100,150) by [0,30) on the sample
screen with a preview of 200 by 100. The centred x would be 124 - 100 = 24;
the preview of a top bar is anchored at (24, 29). -/
theorem previewAnchor_opposite_side_witness :
    previewAnchor Shape.RoundedNorth sampleContext.screen (QRect.ofSize 100 0 50 30) 200 100 =
      ⟨24, 29⟩ ∧
    (previewAnchor Shape.RoundedNorth sampleContext.screen (QRect.ofSize 100 0 50 30) 200
        100).x + Int.tdiv 200 2 =
      (QRect.ofSize 100 0 50 30).right - Int.tdiv (QRect.ofSize 100 0 50 30).width 2 ∧
    (QRect.ofSize 100 0 50 30).center.x - 1 ≤
      (QRect.ofSize 100 0 50 30).right - Int.tdiv (QRect.ofSize 100 0 50 30).width 2 :=
  ⟨by decide,
    ((previewAnchor_opposite_side sampleContext.screen (QRect.ofSize 100 0 50 30) 200
      100).2.2.2.2.1 (by decide)).1,
    ((previewAnchor_opposite_side sampleContext.screen (QRect.ofSize 100 0 50 30) 200
      100).2.2.2.2.2.2.1 (by decide)).1⟩

/-! ## Theorems: hiding the preview and the pending delay -/

/-- `hidePreview` leaves no preview on screen and, timer identifiers being
non-negative, no pending timer. -/
theorem hidePreview_hides (t : TabBarWidget) (h : 0 ≤ t.m_previewTimer) :
    t.hidePreview.m_previewTimer = 0 ∧ t.hidePreview.previewHidden = true := by
  unfold TabBarWidget.hidePreview
  cases hp : t.m_previewWidget with
  | none =>
    simp only
    split
    · exact ⟨rfl, by simp [TabBarWidget.previewHidden, hp]⟩
    · rename_i hn
      exact ⟨by omega, by simp [TabBarWidget.previewHidden, hp]⟩
  | some preview =>
    simp only
    split
    · exact ⟨rfl, by simp [TabBarWidget.previewHidden]⟩
    · rename_i hn
      exact ⟨by simp only at hn ⊢; omega, by simp [TabBarWidget.previewHidden]⟩

/-- `showPreview` without delay never starts a timer: the timer member stays
as it was or becomes 0. -/
theorem showPreview_timer (t : TabBarWidget) (context : PreviewContext) (index : Int) :
    (t.showPreview context index 0).m_previewTimer = t.m_previewTimer ∨
    (t.showPreview context index 0).m_previewTimer = 0 := by
  unfold TabBarWidget.showPreview
  rw [if_neg (by decide)]
  split
  · unfold TabBarWidget.hidePreview
    cases t.m_previewWidget <;> simp only <;> split <;> simp
  · split
    · split
      · exact Or.inl rfl
      · cases t.m_previewWidget <;> exact Or.inl rfl
    · cases t.m_previewWidget <;> exact Or.inl rfl

theorem updatePreviewPosition_timer (t : TabBarWidget) (context : PreviewContext)
    (cursorTab : Int) :
    (t.updatePreviewPosition context cursorTab).m_previewTimer = t.m_previewTimer ∨
    (t.updatePreviewPosition context cursorTab).m_previewTimer = 0 := by
  unfold TabBarWidget.updatePreviewPosition
  cases t.m_previewWidget with
  | none => exact Or.inl rfl
  | some preview =>
    simp only
    split
    · exact showPreview_timer t context cursorTab
    · exact Or.inl rfl

/-- `mousePressEvent` ends with `hidePreview` on a state whose timer member
is the original one or 0. -/
theorem mousePressEvent_eq_hidePreview (t : TabBarWidget) (context : PreviewContext)
    (leftButton : Bool) (position : QPoint) (selected cursorTab : Int) :
    ∃ pressed : TabBarWidget,
      t.mousePressEvent context leftButton position selected cursorTab = pressed.hidePreview ∧
      (pressed.m_previewTimer = t.m_previewTimer ∨ pressed.m_previewTimer = 0) := by
  unfold TabBarWidget.mousePressEvent
  refine ⟨_, rfl, ?_⟩
  have hbase : ∀ base : TabBarWidget,
      (if leftButton = true then
          match ({ base with m_isIgnoringTabDrag := decide (base.count = 1) } :
              TabBarWidget).getWindow
            (({ base with m_isIgnoringTabDrag := decide (base.count = 1) } :
              TabBarWidget).tabAt position) with
          | some window =>
            ({ ({ base with m_isIgnoringTabDrag := decide (base.count = 1) } : TabBarWidget) with
              m_dragStartPosition := position, m_draggedWindow := window.identifier } :
              TabBarWidget)
          | none => { base with m_isIgnoringTabDrag := decide (base.count = 1) }
        else base).m_previewTimer = base.m_previewTimer := by
    intro base
    split
    · split <;> rfl
    · rfl
  simp only
  rw [hbase]
  split
  · exact updatePreviewPosition_timer _ context cursorTab
  · exact Or.inl rfl

/-- C14: each of the leaving transitions hides the preview at once. From every
state of the bar (timer identifiers are never negative), after `leaveEvent`,
after `mousePressEvent`, and after `showPreview` with delay 0 while previews
are disabled or the window is not active, the preview widget is hidden and
`m_previewTimer` is 0. -/
theorem leaving_hides_preview (t : TabBarWidget) (context : PreviewContext)
    (leftButton : Bool) (position : QPoint) (selected cursorTab index : Int)
    (htimer : 0 ≤ t.m_previewTimer) :
    (t.leaveEvent.m_previewTimer = 0 ∧ t.leaveEvent.previewHidden = true) ∧
    ((t.mousePressEvent context leftButton position selected cursorTab).m_previewTimer = 0 ∧
      (t.mousePressEvent context leftButton position selected cursorTab).previewHidden
        = true) ∧
    (t.m_arePreviewsEnabled = false ∨ t.isActiveWindow = false →
      (t.showPreview context index 0).m_previewTimer = 0 ∧
      (t.showPreview context index 0).previewHidden = true) := by
  have hhide := hidePreview_hides t htimer
  refine ⟨?_, ?_, ?_⟩
  · exact ⟨hhide.1, hhide.2⟩
  · obtain ⟨pressed, heq, htm⟩ :=
      mousePressEvent_eq_hidePreview t context leftButton position selected cursorTab
    rw [heq]
    exact hidePreview_hides pressed (by rcases htm with h | h <;> omega)
  · intro hoff
    have hcond : (!t.m_arePreviewsEnabled || !t.isActiveWindow) = true := by
      rcases hoff with h | h <;> simp [h]
    have hshow : t.showPreview context index 0 = t.hidePreview := by
      unfold TabBarWidget.showPreview
      rw [if_neg (by decide), if_pos hcond]
    rw [hshow]
    exact hhide

/-- C14 at a concrete bar: a visible preview and a pending timer 5. -/
theorem leaving_hides_preview_witness :
    ((previewBar true 5).leaveEvent.m_previewTimer = 0 ∧
      (previewBar true 5).leaveEvent.previewHidden = true) ∧
    (((previewBar true 5).mousePressEvent sampleContext true ⟨60, 10⟩ 1 1).m_previewTimer = 0 ∧
      ((previewBar true 5).mousePressEvent sampleContext true ⟨60, 10⟩ 1 1).previewHidden
        = true) ∧
    ((previewBar true 5).m_arePreviewsEnabled = false ∨
        (previewBar true 5).isActiveWindow = false →
      ((previewBar true 5).showPreview sampleContext 1 0).m_previewTimer = 0 ∧
      ((previewBar true 5).showPreview sampleContext 1 0).previewHidden = true) ∧
    (({ previewBar true 5 with isActiveWindow := false } : TabBarWidget).showPreview
        sampleContext 1 0).m_previewTimer = 0 ∧
    (({ previewBar true 5 with isActiveWindow := false } : TabBarWidget).showPreview
        sampleContext 1 0).previewHidden = true :=
  ⟨(leaving_hides_preview (previewBar true 5) sampleContext true ⟨60, 10⟩ 1 1 1 (by decide)).1,
    (leaving_hides_preview (previewBar true 5) sampleContext true ⟨60, 10⟩ 1 1 1
      (by decide)).2.1,
    (leaving_hides_preview (previewBar true 5) sampleContext true ⟨60, 10⟩ 1 1 1
      (by decide)).2.2,
    ((leaving_hides_preview ({ previewBar true 5 with isActiveWindow := false } : TabBarWidget)
      sampleContext true ⟨60, 10⟩ 1 1 1 (by decide)).2.2 (Or.inr rfl)).1,
    ((leaving_hides_preview ({ previewBar true 5 with isActiveWindow := false } : TabBarWidget)
      sampleContext true ⟨60, 10⟩ 1 1 1 (by decide)).2.2 (Or.inr rfl)).2⟩

/-- C15 as stated fails for a change of the hover target: with the preview
hidden, a pending timer 1 and tab 0 hovered, `tabHovered(1)` leaves
`m_previewTimer` at 1, and when that timer fires `timerEvent` shows the
preview. -/
theorem hover_change_keeps_timer :
    (previewBar false 1).m_previewTimer ≠ 0 ∧
    (1 : Int) ≠ (previewBar false 1).m_hoveredTab ∧
    ((previewBar false 1).tabHovered sampleContext 1).m_previewTimer = 1 ∧
    ((previewBar false 1).tabHovered sampleContext 1).previewHidden = true ∧
    (((previewBar false 1).tabHovered sampleContext 1).timerEvent sampleContext 1
        1).previewHidden = false := by
  decide

/-- C15, amended: whenever a preview show-timer is pending and the pointer
leaves the bar (`leaveEvent`), the delay is cancelled: afterwards
`m_previewTimer` is 0 and no preview is shown. A change of the hover target
does not cancel it: while no preview is on screen, `tabHovered` with an index
other than `m_hoveredTab` changes `m_hoveredTab` only, the timer stays
pending, and when it fires `timerEvent` clears `m_previewTimer` and calls
`showPreview` for the tab then under the cursor. -/
theorem pending_delay_on_leave_and_hover (t : TabBarWidget) (context : PreviewContext)
    (index cursorTab : Int) (htimer : 0 < t.m_previewTimer) :
    (t.leaveEvent.m_previewTimer = 0 ∧ t.leaveEvent.previewHidden = true) ∧
    (index ≠ t.m_hoveredTab → t.previewHidden = true →
      t.tabHovered context index = { t with m_hoveredTab := index }) ∧
    (t.timerEvent context t.m_previewTimer cursorTab =
        ({ t with m_previewTimer := 0 } : TabBarWidget).showPreview context cursorTab 0 ∧
      (t.timerEvent context t.m_previewTimer cursorTab).m_previewTimer = 0) := by
  have hhide := hidePreview_hides t (le_of_lt htimer)
  refine ⟨⟨hhide.1, hhide.2⟩, ?_, ?_⟩
  · intro hne hhidden
    have hbeq : (t.m_previewTimer == 0) = false := by
      have : t.m_previewTimer ≠ 0 := by omega
      simpa using this
    unfold TabBarWidget.tabHovered
    rw [if_neg hne]
    cases hp : t.m_previewWidget with
    | none => simp only [hp]
    | some preview =>
      have hv : preview.isVisible = false := by
        simpa [TabBarWidget.previewHidden, hp] using hhidden
      simp only [hp, hv, hbeq, Bool.not_false, Bool.and_false, Bool.false_eq_true, if_false]
  · have heq : t.timerEvent context t.m_previewTimer cursorTab =
        ({ t with m_previewTimer := 0 } : TabBarWidget).showPreview context cursorTab 0 := by
      unfold TabBarWidget.timerEvent
      rw [if_pos rfl]
    refine ⟨heq, ?_⟩
    rw [heq]
    rcases showPreview_timer ({ t with m_previewTimer := 0 } : TabBarWidget) context cursorTab
      with h | h
    · rw [h]
    · exact h

/-- C15, amended, at a concrete bar: hidden preview, pending timer 1, tab 0
hovered, the hover moves to tab 1. -/
theorem pending_delay_on_leave_and_hover_witness :
    ((previewBar false 1).leaveEvent.m_previewTimer = 0 ∧
      (previewBar false 1).leaveEvent.previewHidden = true) ∧
    (previewBar false 1).tabHovered sampleContext 1 =
      { previewBar false 1 with m_hoveredTab := 1 } ∧
    ((previewBar false 1).timerEvent sampleContext (previewBar false 1).m_previewTimer 1 =
        ({ previewBar false 1 with m_previewTimer := 0 } : TabBarWidget).showPreview
          sampleContext 1 0 ∧
      ((previewBar false 1).timerEvent sampleContext (previewBar false 1).m_previewTimer
        1).m_previewTimer = 0) :=
  ⟨(pending_delay_on_leave_and_hover (previewBar false 1) sampleContext 1 1 (by decide)).1,
    (pending_delay_on_leave_and_hover (previewBar false 1) sampleContext 1 1 (by decide)).2.1
      (by decide) (by decide),
    (pending_delay_on_leave_and_hover (previewBar false 1) sampleContext 1 1 (by decide)).2.2⟩

/-! ## Theorems: re-filtering the console -/

/-- C16: the visibility `applyFilters` assigns depends only on the item's
source, note, tab id and category, the filter text, the enabled categories,
the scope flags and the active tab id. Two runs that agree on these give the
same visibility, whatever the models, the row positions, the previous hidden
flags, the other data of the items (time, icon, label) and the rest of the
widget state are. -/
theorem visibility_depends_only_on_inputs (fold : Char → Char)
    (w1 w2 : ErrorConsoleWidget) (rows1 rows2 : List Row) (i1 i2 : Nat) (row1 row2 : Row)
    (filter : QString) (categories : List MessageCategory) (currentWindow : Nat)
    (hmodel1 : w1.m_model = some rows1) (hrow1 : rows1.get? i1 = some row1)
    (hmodel2 : w2.m_model = some rows2) (hrow2 : rows2.get? i2 = some row2)
    (hsource : row1.item.source = row2.item.source)
    (hnote : row1.item.note = row2.item.note)
    (hwindow : row1.item.window = row2.item.window)
    (hcategory : row1.item.category = row2.item.category)
    (hscopes : w1.m_messageScopes = w2.m_messageScopes) :
    rowVisible (applyFilters fold w1 (some i1) filter categories currentWindow) i1 =
      rowVisible (applyFilters fold w2 (some i2) filter categories currentWindow) i2 := by
  rw [Bool.eq_iff_iff,
    visible_after_filter_iff fold w1 rows1 i1 row1 filter categories currentWindow hmodel1 hrow1,
    visible_after_filter_iff fold w2 rows2 i2 row2 filter categories currentWindow hmodel2 hrow2,
    hsource, hnote, hwindow, hcategory, hscopes]

/-- C16 at two concrete consoles: a visible error of time 1000 and a hidden
information message of time 5 with the same source, no note, tab and
category get the same visibility. -/
theorem visibility_depends_only_on_inputs_witness :
    rowVisible (applyFilters Char.toLower (sampleConsole 7 ⟨false, true, false⟩) (some 0) ['x']
        [MessageCategory.NetworkCategory] 7) 0 =
      rowVisible (applyFilters Char.toLower
        { sampleConsole 9 ⟨false, true, false⟩ with
          m_model := some [{ item := networkItem 3, hidden := false },
            { item := { networkItem 7 with time := 5, icon := [], label := ['N'] },
              hidden := true }] }
        (some 1) ['x'] [MessageCategory.NetworkCategory] 7) 1 :=
  visibility_depends_only_on_inputs Char.toLower (sampleConsole 7 ⟨false, true, false⟩)
    { sampleConsole 9 ⟨false, true, false⟩ with
      m_model := some [{ item := networkItem 3, hidden := false },
        { item := { networkItem 7 with time := 5, icon := [], label := ['N'] },
          hidden := true }] }
    [{ item := networkItem 7, hidden := false }]
    [{ item := networkItem 3, hidden := false },
      { item := { networkItem 7 with time := 5, icon := [], label := ['N'] }, hidden := true }]
    0 1 { item := networkItem 7, hidden := false }
    { item := { networkItem 7 with time := 5, icon := [], label := ['N'] }, hidden := true }
    ['x'] [MessageCategory.NetworkCategory] 7 rfl rfl rfl rfl rfl rfl rfl rfl rfl

/-- `applyFilters` on row `i` of a present model: the other members of the
widget stay, the row, when it exists, is refiltered. -/
theorem applyFilters_eq (fold : Char → Char) (w : ErrorConsoleWidget) (rows : List Row)
    (i : Nat) (filter : QString) (categories : List MessageCategory) (currentWindow : Nat)
    (hmodel : w.m_model = some rows) :
    ∃ rows', applyFilters fold w (some i) filter categories currentWindow =
        { w with m_model := some rows' } ∧
      ∀ j, rows'.get? j =
        if j = i then
          (rows.get? j).map (refilter fold w.m_messageScopes filter categories currentWindow)
        else rows.get? j := by
  cases hr : rows.get? i with
  | none =>
    refine ⟨rows, ?_, ?_⟩
    · simp only [applyFilters, hmodel, hr]
      cases w
      simp_all
    · intro j
      by_cases hj : j = i
      · rw [if_pos hj, hj, hr]
        rfl
      · rw [if_neg hj]
  | some r =>
    refine ⟨setRowHidden rows i
      (!matched fold w.m_messageScopes r.item filter categories currentWindow), ?_, ?_⟩
    · simp only [applyFilters, hmodel, hr]
    · intro j
      by_cases hj : j = i
      · rw [if_pos hj, hj, get?_setRowHidden_self rows i _ r hr, hr]
        rfl
      · rw [if_neg hj, get?_setRowHidden_other rows i j _ hj]

/-- The loop over the rows `i, ..., i + n - 1` refilters exactly these rows. -/
theorem filterRows_eq (fold : Char → Char) (filter : QString)
    (categories : List MessageCategory) (currentWindow : Nat) :
    ∀ (n i : Nat) (w : ErrorConsoleWidget) (rows : List Row), w.m_model = some rows →
      ∃ rows', filterRows fold filter categories currentWindow n i w =
          { w with m_model := some rows' } ∧
        ∀ j, rows'.get? j =
          if i ≤ j ∧ j < i + n then
            (rows.get? j).map (refilter fold w.m_messageScopes filter categories currentWindow)
          else rows.get? j := by
  intro n
  induction n with
  | zero =>
    intro i w rows hmodel
    refine ⟨rows, ?_, ?_⟩
    · simp only [filterRows]
      cases w
      simp_all
    · intro j
      rw [if_neg (by omega)]
  | succ n ih =>
    intro i w rows hmodel
    obtain ⟨rows1, hw1, hget1⟩ :=
      applyFilters_eq fold w rows i filter categories currentWindow hmodel
    obtain ⟨rows2, hw2, hget2⟩ := ih (i + 1) { w with m_model := some rows1 } rows1 rfl
    refine ⟨rows2, ?_, ?_⟩
    · simp only [filterRows, hw1]
      rw [hw2]
    · intro j
      rw [hget2 j, hget1 j]
      by_cases hji : j = i
      · subst hji
        rw [if_neg (by omega), if_pos rfl, if_pos (by omega)]
      · by_cases hin : i + 1 ≤ j ∧ j < i + 1 + n
        · rw [if_pos hin, if_neg hji, if_pos (by omega)]
        · rw [if_neg hin, if_neg hji, if_neg (by omega)]

/-- `filterMessages` on a present model refilters every row and changes
nothing else. -/
theorem filterMessages_eq (fold : Char → Char) (w : ErrorConsoleWidget) (rows : List Row)
    (filter : QString) (hmodel : w.m_model = some rows) :
    filterMessages fold w filter =
      { w with
        m_model :=
          some
            (rows.map
              (refilter fold w.m_messageScopes filter (getCategories w)
                (getCurrentWindow w))) } := by
  obtain ⟨rows', hw', hget⟩ :=
    filterRows_eq fold filter (getCategories w) (getCurrentWindow w) rows.length 0 w rows hmodel
  simp only [filterMessages, hmodel]
  rw [hw']
  have hrows : rows' = rows.map
      (refilter fold w.m_messageScopes filter (getCategories w) (getCurrentWindow w)) := by
    apply List.ext_get?
    intro j
    rw [hget j]
    simp only [List.get?_eq_getElem?, List.getElem?_map]
    by_cases hj : j < rows.length
    · rw [if_pos ⟨Nat.zero_le j, by omega⟩]
    · rw [if_neg (by omega), List.getElem?_eq_none (by omega)]
      rfl
  rw [hrows]

theorem refilter_refilter (fold : Char → Char) (scopes : MessagesScopes) (filter : QString)
    (categories : List MessageCategory) (currentWindow : Nat) (rows : List Row) :
    (rows.map (refilter fold scopes filter categories currentWindow)).map
        (refilter fold scopes filter categories currentWindow) =
      rows.map (refilter fold scopes filter categories currentWindow) := by
  rw [List.map_map]
  apply List.map_congr_left
  intro r _
  rfl

/-- The state `filterCategories` starts its loop from: the scopes of the menu
when the menu sent the signal. -/
theorem filterCategories_eq (fold : Char → Char) (w : ErrorConsoleWidget) (rows : List Row)
    (menu : Option (List ScopeAction)) (hmodel : w.m_model = some rows) :
    filterCategories fold w menu =
      some { w with
        m_messageScopes :=
          (match menu with
            | some actions => checkedScopes actions
            | none => w.m_messageScopes)
        m_model :=
          some
            (rows.map
              (refilter fold
                (match menu with
                  | some actions => checkedScopes actions
                  | none => w.m_messageScopes)
                w.filterText (getCategories w) (getCurrentWindow w))) } := by
  cases menu with
  | none =>
    simp only [filterCategories, hmodel]
    rw [← filterMessages_eq fold w rows w.filterText hmodel]
    simp only [filterMessages, hmodel]
  | some actions =>
    have h := filterMessages_eq fold { w with m_messageScopes := checkedScopes actions } rows
      w.filterText hmodel
    simp only [filterMessages, hmodel] at h
    simp only [filterCategories, hmodel]
    exact congrArg some h

/-- Without a model `filterCategories` does not complete. -/
theorem filterCategories_absent (fold : Char → Char) (w : ErrorConsoleWidget)
    (menu : Option (List ScopeAction)) (hmodel : w.m_model = none) :
    filterCategories fold w menu = none := by
  cases menu with
  | none => simp only [filterCategories, hmodel]
  | some actions => simp only [filterCategories, hmodel]

/-- C17: re-filtering is idempotent. Running `filterMessages` twice in a row
with the same text gives the state, hence the hidden rows, of running it
once; and when `filterCategories` (sent by a category button, or by the scope
menu in the same state) has completed, running it again changes nothing. -/
theorem refiltering_idempotent (fold : Char → Char) (w : ErrorConsoleWidget)
    (filter : QString) (menu : Option (List ScopeAction)) :
    filterMessages fold (filterMessages fold w filter) filter = filterMessages fold w filter ∧
    hiddenRows (filterMessages fold (filterMessages fold w filter) filter) =
      hiddenRows (filterMessages fold w filter) ∧
    (∀ w1, filterCategories fold w menu = some w1 →
      filterCategories fold w1 menu = some w1 ∧
      (∀ w2, filterCategories fold w1 menu = some w2 → hiddenRows w2 = hiddenRows w1)) := by
  have hfirst : filterMessages fold (filterMessages fold w filter) filter =
      filterMessages fold w filter := by
    cases hm : w.m_model with
    | none =>
      have h1 : filterMessages fold w filter = w := by simp only [filterMessages, hm]
      rw [h1, h1]
    | some rows =>
      rw [filterMessages_eq fold w rows filter hm]
      rw [filterMessages_eq fold _ _ filter rfl]
      simp only [getCategories, getCurrentWindow]
      rw [refilter_refilter]
  refine ⟨hfirst, by rw [hfirst], ?_⟩
  intro w1 h1
  have hagain : filterCategories fold w1 menu = some w1 := by
    cases hm : w.m_model with
    | none =>
      rw [filterCategories_absent fold w menu hm] at h1
      exact absurd h1 (by simp)
    | some rows =>
      rw [filterCategories_eq fold w rows menu hm] at h1
      have hw1 := (Option.some.inj h1).symm
      rw [hw1, filterCategories_eq fold _ _ menu rfl]
      cases menu with
      | none =>
        simp only [getCategories, getCurrentWindow]
        rw [refilter_refilter]
      | some actions =>
        simp only [getCategories, getCurrentWindow]
        rw [refilter_refilter]
  refine ⟨hagain, ?_⟩
  intro w2 h2
  rw [hagain] at h2
  rw [← Option.some.inj h2]

/-- C17 at a concrete console: one row, a filter text that does not match it. -/
theorem refiltering_idempotent_witness :
    hiddenRows (filterMessages Char.toLower
        (filterMessages Char.toLower (sampleConsole 7 ⟨true, false, true⟩) ['q']) ['q']) =
      hiddenRows (filterMessages Char.toLower (sampleConsole 7 ⟨true, false, true⟩) ['q']) ∧
    hiddenRows (filterMessages Char.toLower (sampleConsole 7 ⟨true, false, true⟩) ['q']) =
      [true] :=
  ⟨(refiltering_idempotent Char.toLower (sampleConsole 7 ⟨true, false, true⟩) ['q'] none).2.1,
    by decide⟩

theorem itemsOf_refiltered (fold : Char → Char) (scopes : MessagesScopes) (filter : QString)
    (categories : List MessageCategory) (currentWindow : Nat) (rows : List Row) :
    (rows.map (refilter fold scopes filter categories currentWindow)).map Row.item =
      rows.map Row.item := by
  rw [List.map_map]
  apply List.map_congr_left
  intro r _
  rfl

/-- C18: the stored message log is append-only until cleared. On a created
model `addMessage` adds exactly one row, and the items of the new model are
the items of the old one, unchanged, plus the item of the new message (in a
model that is in order the earlier items also keep their order, the new item
standing behind those that are not earlier than it); `filterMessages` and
`filterCategories` leave every stored item as it is; `clear` leaves no item. -/
theorem message_log_append_only (fold : Char → Char) (w : ErrorConsoleWidget)
    (rows : List Row) (message : Message) (filter : QString)
    (menu : Option (List ScopeAction)) (hmodel : w.m_model = some rows) :
    (∃ rows', (addMessage fold w message).m_model = some rows' ∧
      rows'.length = rows.length + 1 ∧
      (rows'.map Row.item).Perm (rows.map Row.item ++ [messageItem message]) ∧
      (rows.Pairwise (fun a b => b.item.time ≤ a.item.time) →
        rows'.map Row.item =
          (rows.filter (fun r => decide (message.time ≤ r.item.time))).map Row.item ++
            messageItem message ::
              (rows.filter (fun r => decide (r.item.time < message.time))).map Row.item)) ∧
    itemsOf (filterMessages fold w filter) = itemsOf w ∧
    (∃ w1, filterCategories fold w menu = some w1 ∧ itemsOf w1 = itemsOf w) ∧
    itemsOf (clear w) = [] := by
  refine ⟨?_, ?_, ?_, ?_⟩
  · obtain ⟨rows', hrows', hitems⟩ := addMessage_model fold w message rows hmodel
    have hperm : (rows'.map Row.item).Perm (rows.map Row.item ++ [messageItem message]) := by
      rw [hitems]
      have := (sortDescending_perm (rows ++ [{ item := messageItem message, hidden := false }])).map
        Row.item
      simpa using this
    refine ⟨rows', hrows', ?_, hperm, ?_⟩
    · have := hperm.length_eq
      simpa using this
    · intro hsorted
      rw [hitems, sortDescending_append_sorted rows _ hsorted]
      simp [messageItem]
  · rw [filterMessages_eq fold w rows filter hmodel]
    simp only [itemsOf, hmodel]
    exact itemsOf_refiltered fold _ _ _ _ rows
  · refine ⟨_, filterCategories_eq fold w rows menu hmodel, ?_⟩
    simp only [itemsOf, hmodel]
    exact itemsOf_refiltered fold _ _ _ _ rows
  · simp only [clear, hmodel, itemsOf, List.map_nil]

/-- C18 at a concrete console: one stored Network item, a message of time 5
is added. -/
theorem message_log_append_only_witness :
    (∃ rows', (addMessage Char.toLower (sampleConsole 7 ⟨true, false, true⟩)
          (sampleMessage 5 ['a'])).m_model = some rows' ∧
      rows'.length = [({ item := networkItem 7, hidden := false } : Row)].length + 1 ∧
      (rows'.map Row.item).Perm
        ([({ item := networkItem 7, hidden := false } : Row)].map Row.item ++
          [messageItem (sampleMessage 5 ['a'])]) ∧
      ([({ item := networkItem 7, hidden := false } : Row)].Pairwise
          (fun a b => b.item.time ≤ a.item.time) →
        rows'.map Row.item =
          ([({ item := networkItem 7, hidden := false } : Row)].filter
              (fun r => decide ((sampleMessage 5 ['a']).time ≤ r.item.time))).map Row.item ++
            messageItem (sampleMessage 5 ['a']) ::
              ([({ item := networkItem 7, hidden := false } : Row)].filter
                (fun r => decide (r.item.time < (sampleMessage 5 ['a']).time))).map
                Row.item)) ∧
    itemsOf (filterMessages Char.toLower (sampleConsole 7 ⟨true, false, true⟩) ['q']) =
      itemsOf (sampleConsole 7 ⟨true, false, true⟩) ∧
    (∃ w1, filterCategories Char.toLower (sampleConsole 7 ⟨true, false, true⟩) none = some w1 ∧
      itemsOf w1 = itemsOf (sampleConsole 7 ⟨true, false, true⟩)) ∧
    itemsOf (clear (sampleConsole 7 ⟨true, false, true⟩)) = [] :=
  message_log_append_only Char.toLower (sampleConsole 7 ⟨true, false, true⟩)
    [{ item := networkItem 7, hidden := false }] (sampleMessage 5 ['a']) ['q'] none rfl

/-- C19, the code before the first show: on a console without model
`applyFilters` with no item and `filterMessages` return with the state
unchanged, while `filterCategories`, whether a category button or the scope
menu sent the signal, reaches `m_model->rowCount()` with `m_model` null and
does not complete. -/
theorem filterCategories_without_model :
    freshConsole.m_model = none ∧
    applyFilters Char.toLower freshConsole none ['x'] (getCategories freshConsole)
        (getCurrentWindow freshConsole) = freshConsole ∧
    filterMessages Char.toLower freshConsole ['x'] = freshConsole ∧
    filterCategories Char.toLower freshConsole none = none ∧
    filterCategories Char.toLower freshConsole
        (some [⟨false, ⟨true, false, false⟩⟩, ⟨true, ⟨false, true, false⟩⟩,
          ⟨false, NoScope⟩, ⟨true, ⟨false, false, true⟩⟩]) = none := by
  decide

/-! ## Theorems: the drop indicator and the drop action -/

theorem getDropIndex_nonneg (t : TabBarWidget) : 0 ≤ t.getDropIndex := by
  have hc : 0 ≤ t.count := by simp [TabBarWidget.count]
  unfold TabBarWidget.getDropIndex
  simp only
  split
  · split <;> omega
  · split
    · split <;> omega
    · split <;> omega

/-- The `i`-th request of the loop over the dropped URLs. -/
theorem openRequests_get? (dropIndex : Int) :
    ∀ (urls : List QString) (k i : Nat),
      (openRequests dropIndex urls k).get? i =
        (urls.get? i).map (fun url => DropRequest.openUrl url (dropIndex + ((k + i : Nat) : Int)))
  | [], _, _ => by simp [openRequests]
  | url :: rest, k, 0 => by simp [openRequests]
  | url :: rest, k, i + 1 => by
    simp only [openRequests, List.get?_cons_succ]
    rw [openRequests_get? dropIndex rest (k + 1) i]
    have : k + 1 + i = k + (i + 1) := by omega
    rw [this]

theorem openRequests_mem (dropIndex : Int) (urls : List QString) (k : Nat) (r : DropRequest)
    (h : r ∈ openRequests dropIndex urls k) : ∃ url index, r = DropRequest.openUrl url index := by
  obtain ⟨i, hi⟩ := List.mem_iff_get?.mp h
  rw [openRequests_get?] at hi
  cases hu : urls.get? i with
  | none => rw [hu] at hi; exact absurd hi (by simp)
  | some url =>
    rw [hu] at hi
    exact ⟨url, _, (Option.some.inj hi).symm⟩

/-- The calls `dropEvent` makes, case by case. -/
theorem dropEvent_requests (t : TabBarWidget) (event : DropEvent) (context : DropContext) :
    (∃ identifier, (t.dropEvent event context).requests =
        [DropRequest.moveWindow identifier t.getDropIndex]) ∨
    (∃ source, source ≠ t.getDropIndex ∧ source + 1 ≠ t.getDropIndex ∧
      (t.dropEvent event context).requests =
        [DropRequest.moveTab source
          (t.getDropIndex - (if t.getDropIndex > source then 1 else 0))]) ∨
    (t.dropEvent event context).requests = openRequests t.getDropIndex event.urls 0 ∨
    (t.dropEvent event context).requests = [] := by
  unfold TabBarWidget.dropEvent
  simp only
  cases event.hasSource <;> cases event.windowIdentifier <;> simp only
  · by_cases hu : event.hasUrls = true
    · rw [if_pos hu]
      split
      · exact Or.inr (Or.inr (Or.inl rfl))
      · exact Or.inr (Or.inr (Or.inr rfl))
    · rw [if_neg hu]
      exact Or.inr (Or.inr (Or.inr rfl))
  · by_cases hu : event.hasUrls = true
    · rw [if_pos hu]
      split
      · exact Or.inr (Or.inr (Or.inl rfl))
      · exact Or.inr (Or.inr (Or.inr rfl))
    · rw [if_neg hu]
      exact Or.inr (Or.inr (Or.inr rfl))
  · by_cases hu : event.hasUrls = true
    · rw [if_pos hu]
      split
      · exact Or.inr (Or.inr (Or.inl rfl))
      · exact Or.inr (Or.inr (Or.inr rfl))
    · rw [if_neg hu]
      exact Or.inr (Or.inr (Or.inr rfl))
  · rename_i identifier
    generalize (if event.sourceIsThis = true then findWindowFrom identifier t.windows 0
      else -1) = previousIndex
    by_cases hprev : previousIndex < 0
    · rw [if_pos hprev]
      by_cases hmain : context.hasMainWindow = true ∧ context.windowFound = true
      · rw [if_pos hmain]
        exact Or.inl ⟨identifier, rfl⟩
      · rw [if_neg hmain]
        exact Or.inr (Or.inr (Or.inr rfl))
    · rw [if_neg hprev]
      by_cases hmove : previousIndex ≠ t.getDropIndex ∧ previousIndex + 1 ≠ t.getDropIndex
      · rw [if_pos hmove]
        exact Or.inr (Or.inl ⟨previousIndex, hmove.1, hmove.2, rfl⟩)
      · rw [if_neg hmove]
        exact Or.inr (Or.inr (Or.inr rfl))

/-- C20 as stated fails for `moveTab`: on the bar with three tabs and the
pointer on the right half of the last tab the drop index is 3 and the
indicator is drawn at the right edge of the last tab, but for the dragged
tab 0 `dropEvent` calls `moveTab(0, 2)`, not `moveTab(0, 3)`. -/
theorem drop_passes_index_minus_one :
    (sampleBar threeWindows ⟨140, 10⟩).getDropIndex = 3 ∧
    (sampleBar threeWindows ⟨140, 10⟩).dropIndicatorOffset = some 149 ∧
    ((sampleBar threeWindows ⟨140, 10⟩).dropEvent (sameBarDrop 1) plainContext).requests =
      [DropRequest.moveTab 0 2] ∧
    ((sampleBar threeWindows ⟨140, 10⟩).dropEvent (sameBarDrop 1) plainContext).requests ≠
      [DropRequest.moveTab 0 (sampleBar threeWindows ⟨140, 10⟩).getDropIndex] := by
  decide

/-- C20, amended: the drop indicator and the drop action use the same
`getDropIndex()`. While a drag position is set, `paintEvent` draws the
indicator at offset 0 when there are no tabs, at the right edge of the last
tab when the index is at least the count, and else at the left edge of the
tab at that index. `dropEvent` passes the index unchanged to `moveWindow`,
gives the `i`-th dropped URL the index plus `i`, and calls `moveTab` (only
for a dragged tab whose index is neither the drop index nor one below it)
with the drop index reduced by one when it is greater than the index of the
dragged tab. -/
theorem drop_uses_indicator_index (t : TabBarWidget) (event : DropEvent)
    (context : DropContext) :
    (t.m_dragMovePosition.isNull = false →
      t.dropIndicatorOffset =
        some (if t.count = 0 then 0
          else if t.getDropIndex ≥ t.count then (t.tabRect (t.count - 1)).right
          else (t.tabRect t.getDropIndex).left)) ∧
    (∀ identifier index,
      DropRequest.moveWindow identifier index ∈ (t.dropEvent event context).requests →
        index = t.getDropIndex) ∧
    (∀ source target,
      DropRequest.moveTab source target ∈ (t.dropEvent event context).requests →
        target = t.getDropIndex - (if t.getDropIndex > source then 1 else 0) ∧
        source ≠ t.getDropIndex ∧ source + 1 ≠ t.getDropIndex) ∧
    (∀ (i : Nat) url index,
      (t.dropEvent event context).requests.get? i = some (DropRequest.openUrl url index) →
        index = t.getDropIndex + (i : Int)) := by
  have hreq := dropEvent_requests t event context
  refine ⟨?_, ?_, ?_, ?_⟩
  · intro hnull
    have hge : t.getDropIndex ≥ 0 := getDropIndex_nonneg t
    simp only [TabBarWidget.dropIndicatorOffset, hnull, Bool.not_false, if_true, hge]
  · intro identifier index hmem
    rcases hreq with ⟨id, h⟩ | ⟨source, _, _, h⟩ | h | h
    · rw [h] at hmem
      simp only [List.mem_singleton, DropRequest.moveWindow.injEq] at hmem
      exact hmem.2
    · rw [h] at hmem
      simp at hmem
    · rw [h] at hmem
      obtain ⟨url, idx, he⟩ := openRequests_mem _ _ _ _ hmem
      exact absurd he (by simp)
    · rw [h] at hmem
      simp at hmem
  · intro source target hmem
    rcases hreq with ⟨id, h⟩ | ⟨src, h1, h2, h⟩ | h | h
    · rw [h] at hmem
      simp at hmem
    · rw [h] at hmem
      simp only [List.mem_singleton, DropRequest.moveTab.injEq] at hmem
      obtain ⟨hs, ht⟩ := hmem
      subst hs
      exact ⟨ht, h1, h2⟩
    · rw [h] at hmem
      obtain ⟨url, idx, he⟩ := openRequests_mem _ _ _ _ hmem
      exact absurd he (by simp)
    · rw [h] at hmem
      simp at hmem
  · intro i url index hget
    rcases hreq with ⟨id, h⟩ | ⟨src, _, _, h⟩ | h | h
    · rw [h] at hget
      cases i <;> simp at hget
    · rw [h] at hget
      cases i <;> simp at hget
    · rw [h, openRequests_get?] at hget
      cases hu : event.urls.get? i with
      | none => rw [hu] at hget; exact absurd hget (by simp)
      | some u =>
        rw [hu] at hget
        simp only [Option.map_some', Option.some.injEq, DropRequest.openUrl.injEq] at hget
        rw [← hget.2]
        simp
    · rw [h] at hget
      simp at hget

/-- C20, amended, at a concrete drop: two URLs dropped on the right half of
the last of three tabs get the indices 3 and 4, and the indicator stands at
the right edge of that tab. -/
theorem drop_uses_indicator_index_witness :
    (sampleBar threeWindows ⟨140, 10⟩).dropIndicatorOffset =
      some (if (sampleBar threeWindows ⟨140, 10⟩).count = 0 then 0
        else if (sampleBar threeWindows ⟨140, 10⟩).getDropIndex ≥
            (sampleBar threeWindows ⟨140, 10⟩).count then
          ((sampleBar threeWindows ⟨140, 10⟩).tabRect
            ((sampleBar threeWindows ⟨140, 10⟩).count - 1)).right
        else ((sampleBar threeWindows ⟨140, 10⟩).tabRect
          (sampleBar threeWindows ⟨140, 10⟩).getDropIndex).left) ∧
    ((sampleBar threeWindows ⟨140, 10⟩).dropEvent
        { hasSource := false, sourceIsThis := false, windowIdentifier := none, hasUrls := true,
          urls := [['u'], ['v']] } plainContext).requests =
      [DropRequest.openUrl ['u'] 3, DropRequest.openUrl ['v'] 4] :=
  ⟨(drop_uses_indicator_index (sampleBar threeWindows ⟨140, 10⟩) (sameBarDrop 1)
      plainContext).1 (by decide),
    by decide⟩

/-! ## Theorems: the range of the drop index -/

/-- The loop of `tabAt` returns -1 or one of the indices it scans. -/
theorem tabAtFrom_range (t : TabBarWidget) (p : QPoint) :
    ∀ (n k : Nat), tabAtFrom t p n k = -1 ∨
      ((k : Int) ≤ tabAtFrom t p n k ∧ tabAtFrom t p n k < (k : Int) + (n : Int)) := by
  intro n
  induction n with
  | zero => intro k; exact Or.inl rfl
  | succ n ih =>
    intro k
    simp only [tabAtFrom]
    split
    · refine Or.inr ⟨le_refl _, ?_⟩
      push_cast
      omega
    · rcases ih (k + 1) with h | ⟨h1, h2⟩
      · exact Or.inl h
      · refine Or.inr ⟨?_, ?_⟩
        · push_cast at h1
          omega
        · push_cast at h2 ⊢
          omega

/-- `tabAt` returns -1 or the index of a tab. -/
theorem tabAt_range (t : TabBarWidget) (p : QPoint) :
    t.tabAt p = -1 ∨ (0 ≤ t.tabAt p ∧ t.tabAt p < t.count) := by
  unfold TabBarWidget.tabAt
  split
  · rename_i h
    exact Or.inr h.1
  · rcases tabAtFrom_range t p t.windows.length 0 with h | ⟨h1, h2⟩
    · exact Or.inl h
    · refine Or.inr ⟨?_, ?_⟩
      · simpa using h1
      · simpa [TabBarWidget.count] using h2

/-- For a drag position that is not null the drop index is an insertion
position of the tab sequence. -/
theorem getDropIndex_le_count (t : TabBarWidget) (hnull : t.m_dragMovePosition.isNull = false) :
    t.getDropIndex ≤ t.count := by
  have hc : 0 ≤ t.count := by simp [TabBarWidget.count]
  unfold TabBarWidget.getDropIndex
  simp only [hnull, Bool.false_eq_true, if_false]
  rcases tabAt_range t t.m_dragMovePosition with h | ⟨h0, h1⟩
  · rw [h]
    rw [if_neg (by decide)]
    split <;> omega
  · rw [if_pos h0]
    split <;> omega

/-- C21 as stated fails: on the bar with three tabs and the stored drag
position (0,0), which the code takes for "no drag position", `getDropIndex`
returns 4, which is above the count 3. -/
theorem getDropIndex_null_position_above_count :
    (sampleBar threeWindows ⟨0, 0⟩).m_dragMovePosition.isNull = true ∧
    (sampleBar threeWindows ⟨0, 0⟩).count = 3 ∧
    (sampleBar threeWindows ⟨0, 0⟩).getDropIndex = 4 ∧
    ¬ (sampleBar threeWindows ⟨0, 0⟩).getDropIndex ≤ (sampleBar threeWindows ⟨0, 0⟩).count := by
  decide

/-- C21, amended: for every tab layout and shape of the bar `getDropIndex`
returns an index `i` with `0 <= i <= count` whenever the stored drag position
is not null or there are no tabs. For the null position (0,0) on a bar with
tabs it returns `count + 1`; so in every case `0 <= i <= count + 1`. -/
theorem getDropIndex_bounds (t : TabBarWidget) :
    0 ≤ t.getDropIndex ∧ t.getDropIndex ≤ t.count + 1 ∧
    (t.m_dragMovePosition.isNull = false ∨ t.count = 0 → t.getDropIndex ≤ t.count) ∧
    (t.m_dragMovePosition.isNull = true → t.count > 0 → t.getDropIndex = t.count + 1) := by
  have hc : 0 ≤ t.count := by simp [TabBarWidget.count]
  have hnullcase : t.m_dragMovePosition.isNull = true →
      t.getDropIndex = if t.count > 0 then t.count + 1 else 0 := by
    intro h
    unfold TabBarWidget.getDropIndex
    simp only [h, if_true]
  refine ⟨getDropIndex_nonneg t, ?_, ?_, ?_⟩
  · cases hn : t.m_dragMovePosition.isNull with
    | false =>
      have := getDropIndex_le_count t hn
      omega
    | true =>
      rw [hnullcase hn]
      split <;> omega
  · intro h
    cases hn : t.m_dragMovePosition.isNull with
    | false => exact getDropIndex_le_count t hn
    | true =>
      rcases h with h | h
      · rw [hn] at h
        exact absurd h (by decide)
      · rw [hnullcase hn, h]
        decide
  · intro hn hpos
    rw [hnullcase hn, if_pos hpos]

/-- C21, amended, on the bar with three tabs: a pointer on the last tab gives
an index within the count, the null position gives count + 1. -/
theorem getDropIndex_bounds_witness :
    (sampleBar threeWindows ⟨140, 10⟩).getDropIndex ≤ (sampleBar threeWindows ⟨140, 10⟩).count ∧
    (sampleBar threeWindows ⟨0, 0⟩).getDropIndex = (sampleBar threeWindows ⟨0, 0⟩).count + 1 :=
  ⟨(getDropIndex_bounds (sampleBar threeWindows ⟨140, 10⟩)).2.2.1 (Or.inl (by decide)),
    (getDropIndex_bounds (sampleBar threeWindows ⟨0, 0⟩)).2.2.2 (by decide) (by decide)⟩

/-! ## Theorems: reordering a tab within the bar -/

theorem getElem?_insertIdx_self (x : Option Window) :
    ∀ (l : List (Option Window)) (n : Nat), n ≤ l.length → (List.insertIdx n x l)[n]? = some x
  | _, 0, _ => by simp
  | [], n + 1, h => by simp at h
  | a :: l, n + 1, h => by
    rw [List.insertIdx_succ_cons, List.getElem?_cons_succ]
    exact getElem?_insertIdx_self x l n (by simpa using h)

theorem getElem?_insertIdx_succ (x : Option Window) :
    ∀ (l : List (Option Window)) (n : Nat), n ≤ l.length →
      (List.insertIdx n x l)[n + 1]? = l[n]?
  | _, 0, _ => by simp
  | [], n + 1, h => by simp at h
  | a :: l, n + 1, h => by
    rw [List.insertIdx_succ_cons, List.getElem?_cons_succ, List.getElem?_cons_succ]
    exact getElem?_insertIdx_succ x l n (by simpa using h)

/-- The search loop of `dropEvent` returns -1 or the index of a tab. -/
theorem findWindowFrom_range (identifier : Nat) :
    ∀ (l : List (Option Window)) (k : Nat), findWindowFrom identifier l k = -1 ∨
      ((k : Int) ≤ findWindowFrom identifier l k ∧
        findWindowFrom identifier l k < (k : Int) + (l.length : Int))
  | [], _ => Or.inl rfl
  | w :: rest, k => by
    have ih := findWindowFrom_range identifier rest (k + 1)
    have hnext : findWindowFrom identifier rest (k + 1) = -1 ∨
        ((k : Int) ≤ findWindowFrom identifier rest (k + 1) ∧
          findWindowFrom identifier rest (k + 1) < (k : Int) + ((w :: rest).length : Int)) := by
      rcases ih with h | ⟨h1, h2⟩
      · exact Or.inl h
      · refine Or.inr ⟨?_, ?_⟩
        · push_cast at h1
          omega
        · simp only [List.length_cons]
          push_cast at h2 ⊢
          omega
    cases w with
    | none => simpa only [findWindowFrom] using hnext
    | some window =>
      simp only [findWindowFrom]
      split
      · refine Or.inr ⟨le_refl _, ?_⟩
        simp only [List.length_cons]
        push_cast
        omega
      · exact hnext

/-- Taking the entry at `source` out of a list and putting it back at the
target that `dropEvent` computes from the drop index `d`. -/
theorem reorder_list (l : List (Option Window)) (source d : Nat)
    (hsource : source < l.length) (hd : d ≤ l.length) (h1 : d ≠ source) (h2 : d ≠ source + 1) :
    (if d > source then d - 1 else d) < l.length ∧
    (if d > source then d - 1 else d) ≠ source ∧
    (d = l.length → (if d > source then d - 1 else d) = l.length - 1) ∧
    ((l.eraseIdx source).insertIdx (if d > source then d - 1 else d) (l.getD source none)
      ).length = l.length ∧
    ((l.eraseIdx source).insertIdx (if d > source then d - 1 else d) (l.getD source none)
      )[if d > source then d - 1 else d]? = l[source]? ∧
    ((l.eraseIdx source).insertIdx (if d > source then d - 1 else d) (l.getD source none)
      )[(if d > source then d - 1 else d) + 1]? = l[d]? ∧
    ((l.eraseIdx source).insertIdx (if d > source then d - 1 else d) (l.getD source none)
      ).eraseIdx (if d > source then d - 1 else d) = l.eraseIdx source := by
  have hlen : (l.eraseIdx source).length = l.length - 1 := by
    rw [List.length_eraseIdx, if_pos hsource]
  have hx : l[source]? = some (l.getD source none) := by
    rw [List.getD_eq_getD_get?, List.get?_eq_getElem?, List.getElem?_eq_getElem hsource]
    rfl
  by_cases hgt : d > source
  · simp only [hgt, if_true]
    have hle : d - 1 ≤ (l.eraseIdx source).length := by omega
    refine ⟨by omega, by omega, fun _ => by omega, ?_, ?_, ?_, List.eraseIdx_insertIdx _ _⟩
    · rw [List.length_insertIdx _ _ hle, hlen]
      omega
    · rw [getElem?_insertIdx_self _ _ _ hle, hx]
    · rw [getElem?_insertIdx_succ _ _ _ hle,
        List.getElem?_eraseIdx_of_ge l source (d - 1) (by omega)]
      have : d - 1 + 1 = d := by omega
      rw [this]
  · simp only [hgt, if_false]
    have hlt : d < source := by omega
    have hle : d ≤ (l.eraseIdx source).length := by omega
    refine ⟨by omega, by omega, fun h => by omega, ?_, ?_, ?_, List.eraseIdx_insertIdx _ _⟩
    · rw [List.length_insertIdx _ _ hle, hlen]
      omega
    · rw [getElem?_insertIdx_self _ _ _ hle, hx]
    · rw [getElem?_insertIdx_succ _ _ _ hle, List.getElem?_eraseIdx_of_lt l source d hlt]

/-- The outcome of `dropEvent` for a tab dragged within the same bar. -/
theorem dropEvent_same_bar (t : TabBarWidget) (event : DropEvent) (context : DropContext)
    (identifier : Nat)
    (hsource : event.hasSource = true) (hthis : event.sourceIsThis = true)
    (hid : event.windowIdentifier = some identifier)
    (hfound : 0 ≤ findWindowFrom identifier t.windows 0) :
    t.dropEvent event context =
      if findWindowFrom identifier t.windows 0 ≠ t.getDropIndex ∧
          findWindowFrom identifier t.windows 0 + 1 ≠ t.getDropIndex then
        ⟨{ t.moveTab (findWindowFrom identifier t.windows 0)
              (t.getDropIndex -
                (if t.getDropIndex > findWindowFrom identifier t.windows 0 then 1 else 0)) with
            m_dragMovePosition := ⟨0, 0⟩ },
          true,
          [DropRequest.moveTab (findWindowFrom identifier t.windows 0)
            (t.getDropIndex -
              (if t.getDropIndex > findWindowFrom identifier t.windows 0 then 1 else 0))]⟩
      else ⟨{ t with m_dragMovePosition := ⟨0, 0⟩ }, true, []⟩ := by
  have hnot : ¬ findWindowFrom identifier t.windows 0 < 0 := not_lt.mpr hfound
  simp only [TabBarWidget.dropEvent, hsource, hid, hthis, if_true, hnot, if_false]

/-- C22: the reorder `dropEvent` performs for a tab dragged within the bar,
found at index `p`, with a drop index `d` between 0 and the count. If `d = p`
or `d = p + 1` the order stays and `moveTab` is not called. Otherwise
`moveTab` is called with source `p` and target `d - 1` when `d > p`, `d`
otherwise; the target lies in `[0, count - 1]`; afterwards the dragged tab
stands at the target, immediately before the tab that was at index `d` (last
when `d = count`), and the other tabs keep their relative order. -/
theorem dropEvent_reorder (t : TabBarWidget) (event : DropEvent) (context : DropContext)
    (identifier p d : Nat)
    (hsource : event.hasSource = true) (hthis : event.sourceIsThis = true)
    (hid : event.windowIdentifier = some identifier)
    (hfound : findWindowFrom identifier t.windows 0 = (p : Int))
    (hdrop : t.getDropIndex = (d : Int)) (hcount : d ≤ t.windows.length) :
    (d = p ∨ d = p + 1 →
      (t.dropEvent event context).bar.windows = t.windows ∧
      (t.dropEvent event context).requests = []) ∧
    (d ≠ p → d ≠ p + 1 →
      (t.dropEvent event context).requests =
        [DropRequest.moveTab (p : Int) ((if d > p then d - 1 else d : Nat) : Int)] ∧
      (0 : Int) ≤ ((if d > p then d - 1 else d : Nat) : Int) ∧
      ((if d > p then d - 1 else d : Nat) : Int) ≤ t.count - 1 ∧
      (t.dropEvent event context).bar.windows.length = t.windows.length ∧
      (t.dropEvent event context).bar.windows[if d > p then d - 1 else d]? = t.windows[p]? ∧
      (t.dropEvent event context).bar.windows[(if d > p then d - 1 else d) + 1]? =
        t.windows[d]? ∧
      (d = t.windows.length → (if d > p then d - 1 else d) = t.windows.length - 1) ∧
      (t.dropEvent event context).bar.windows.eraseIdx (if d > p then d - 1 else d) =
        t.windows.eraseIdx p) := by
  have hfound0 : 0 ≤ findWindowFrom identifier t.windows 0 := by
    rw [hfound]
    exact Int.natCast_nonneg p
  have hp : p < t.windows.length := by
    rcases findWindowFrom_range identifier t.windows 0 with h | ⟨_, h⟩
    · rw [hfound] at h
      omega
    · rw [hfound] at h
      simp only [Nat.cast_zero, zero_add] at h
      omega
  rw [dropEvent_same_bar t event context identifier hsource hthis hid hfound0, hfound, hdrop]
  refine ⟨?_, ?_⟩
  · intro h
    have hno : ¬ ((p : Int) ≠ (d : Int) ∧ (p : Int) + 1 ≠ (d : Int)) := by
      rcases h with h | h <;> omega
    rw [if_neg hno]
    exact ⟨rfl, rfl⟩
  · intro h1 h2
    have hyes : (p : Int) ≠ (d : Int) ∧ (p : Int) + 1 ≠ (d : Int) := by
      constructor <;> omega
    obtain ⟨htl, htne, hlast, hlen, hself, hnext, herase⟩ :=
      reorder_list t.windows p d hp hcount h1 h2
    have htarget : (d : Int) - (if (d : Int) > (p : Int) then 1 else 0) =
        ((if d > p then d - 1 else d : Nat) : Int) := by
      by_cases hgt : d > p
      · have hgt' : (d : Int) > (p : Int) := by omega
        rw [if_pos hgt, if_pos hgt']
        omega
      · have hgt' : ¬ (d : Int) > (p : Int) := by omega
        rw [if_neg hgt, if_neg hgt']
        omega
    rw [if_pos hyes, htarget]
    have hmoved : (t.moveTab (p : Int) ((if d > p then d - 1 else d : Nat) : Int)).windows =
        (t.windows.eraseIdx p).insertIdx (if d > p then d - 1 else d) (t.windows.getD p none) := by
      rw [moveTab_windows]
      have hvalid : ¬ ((p : Int) = ((if d > p then d - 1 else d : Nat) : Int) ∨
          ¬ (0 ≤ (p : Int) ∧ (p : Int) < t.count) ∨
          ¬ (0 ≤ ((if d > p then d - 1 else d : Nat) : Int) ∧
            ((if d > p then d - 1 else d : Nat) : Int) < t.count)) := by
        simp only [TabBarWidget.count]
        omega
      rw [if_neg hvalid]
      simp only [Int.toNat_ofNat]
    refine ⟨rfl, Int.natCast_nonneg _, ?_, ?_, ?_, ?_, hlast, ?_⟩
    · simp only [TabBarWidget.count]
      omega
    · simp only [hmoved]
      exact hlen
    · simp only [hmoved]
      exact hself
    · simp only [hmoved]
      exact hnext
    · simp only [hmoved]
      exact herase

/-- C22 on the bar with three tabs: tab 0 dragged to the right half of the
last tab (drop index 3) goes to position 2, behind the two others. -/
theorem dropEvent_reorder_witness :
    ((sampleBar threeWindows ⟨140, 10⟩).dropEvent (sameBarDrop 1) plainContext).requests =
      [DropRequest.moveTab ((0 : Nat) : Int) ((if 3 > 0 then 3 - 1 else 3 : Nat) : Int)] ∧
    ((sampleBar threeWindows ⟨140, 10⟩).dropEvent (sameBarDrop 1) plainContext).bar.windows =
      [some ⟨2, false⟩, some ⟨3, false⟩, some ⟨1, false⟩] :=
  ⟨((dropEvent_reorder (sampleBar threeWindows ⟨140, 10⟩) (sameBarDrop 1) plainContext 1 0 3
      rfl rfl rfl (by decide) (by decide) (by decide)).2 (by decide) (by decide)).1,
    by decide⟩

/-! ## Theorems: the width hint of a tab -/

theorem qBound_range (lo value hi : Int) (h : lo ≤ hi) :
    lo ≤ qBound lo value hi ∧ qBound lo value hi ≤ hi := by
  unfold qBound
  constructor
  · exact le_max_left _ _
  · exact max_le h (min_le_left _ _)

/-- C23: on a horizontal bar `tabSizeHint` never divides by zero, its divisor
`max(1, count - pinnedAmount)` being at least 1 for every count and pinned
amount; a pinned tab's width hint is the minimum width; and when the minimum
width is not above the maximum width and no width is frozen (`m_tabWidth` is
0) the width hint of an unpinned tab is `qBound` of the quotient and lies
between the minimum and the maximum width. -/
theorem tabSizeHint_width (t : TabBarWidget) (index : Int) (hh : t.isHorizontal = true) :
    1 ≤ max 1 (t.count - t.m_pinnedTabsAmount) ∧
    (t.isPinnedTab index = true → t.tabSizeHintWidth index = t.m_minimumTabSize.width) ∧
    (t.isPinnedTab index = false → t.m_tabWidth = 0 →
      t.tabSizeHintWidth index =
        qBound t.m_minimumTabSize.width
          (Int.tdiv (t.rect.width - t.m_pinnedTabsAmount * t.m_minimumTabSize.width)
            (max 1 (t.count - t.m_pinnedTabsAmount)))
          t.m_maximumTabSize.width ∧
      (t.m_minimumTabSize.width ≤ t.m_maximumTabSize.width →
        t.m_minimumTabSize.width ≤ t.tabSizeHintWidth index ∧
        t.tabSizeHintWidth index ≤ t.m_maximumTabSize.width)) := by
  refine ⟨le_max_left _ _, ?_, ?_⟩
  · intro hp
    simp only [TabBarWidget.tabSizeHintWidth, hh, hp, if_true]
  · intro hp hw
    have hnot : ¬ t.m_tabWidth > 0 := by omega
    have heq : t.tabSizeHintWidth index =
        qBound t.m_minimumTabSize.width
          (Int.tdiv (t.rect.width - t.m_pinnedTabsAmount * t.m_minimumTabSize.width)
            (max 1 (t.count - t.m_pinnedTabsAmount)))
          t.m_maximumTabSize.width := by
      simp only [TabBarWidget.tabSizeHintWidth, hh, hp, if_true, Bool.false_eq_true, if_false,
        hnot]
    refine ⟨heq, ?_⟩
    intro hle
    rw [heq]
    exact qBound_range _ _ _ hle

/-- C23 on the sample bar (300 wide, minimum width 40, maximum 250): with one
pinned tab and two unpinned ones the pinned tab gets 40 and an unpinned one
(300 - 40) / 2 = 130; with all three pinned the divisor is 1. -/
theorem tabSizeHint_width_witness :
    (1 ≤ max 1 ((({ sampleBar pinnedThenTwo ⟨0, 0⟩ with m_pinnedTabsAmount := 1 } :
        TabBarWidget).count) - 1)) ∧
    ({ sampleBar pinnedThenTwo ⟨0, 0⟩ with m_pinnedTabsAmount := 1 } :
      TabBarWidget).tabSizeHintWidth 0 = 40 ∧
    ({ sampleBar pinnedThenTwo ⟨0, 0⟩ with m_pinnedTabsAmount := 1 } :
      TabBarWidget).tabSizeHintWidth 1 = 130 ∧
    max 1 (({ sampleBar [some ⟨1, true⟩, some ⟨2, true⟩, some ⟨3, true⟩] ⟨0, 0⟩ with
        m_pinnedTabsAmount := 3 } : TabBarWidget).count - 3) = 1 :=
  ⟨(tabSizeHint_width ({ sampleBar pinnedThenTwo ⟨0, 0⟩ with m_pinnedTabsAmount := 1 } :
      TabBarWidget) 0 rfl).1,
    by decide, by decide, by decide⟩

/-! ## Theorems: the number of pinned tabs -/

/-- The loop of `updatePinnedTabsAmount` counts the pinned entries of the
rest of the tab list. -/
theorem pinnedLoop_eq_countP (t : TabBarWidget) :
    ∀ (n i : Nat), i + n = t.windows.length →
      t.pinnedLoop n i = (t.windows.drop i).countP pinnedOf := by
  intro n
  induction n with
  | zero =>
    intro i hi
    have : t.windows.drop i = [] := List.drop_eq_nil_of_le (by omega)
    simp [TabBarWidget.pinnedLoop, this]
  | succ n ih =>
    intro i hi
    have hlt : i < t.windows.length := by omega
    have hvalid : ¬ ((i : Int) < 0 ∨ (i : Int) ≥ t.count) := by
      simp only [TabBarWidget.count]
      omega
    have hget : t.isPinnedTab (i : Int) = pinnedOf t.windows[i] := by
      simp only [TabBarWidget.isPinnedTab, TabBarWidget.getWindow, hvalid, if_false,
        Int.toNat_ofNat]
      rw [List.getD_eq_getD_get?, List.get?_eq_getElem?, List.getElem?_eq_getElem hlt]
      rfl
    rw [TabBarWidget.pinnedLoop, ih (i + 1) (by omega), List.drop_eq_getElem_cons hlt,
      List.countP_cons, hget]
    omega

/-- The loop of `updatePinnedTabsAmount` counts the indices of the tabs with a
pinned window. -/
theorem pinnedLoop_eq_filter (t : TabBarWidget) :
    ∀ (n i : Nat),
      t.pinnedLoop n i =
        ((List.range' i n).filter (fun j : Nat => t.isPinnedTab (j : Int))).length := by
  intro n
  induction n with
  | zero => intro i; rfl
  | succ n ih =>
    intro i
    rw [TabBarWidget.pinnedLoop, ih (i + 1), List.range'_succ, List.filter_cons]
    split
    · rw [List.length_cons]
      omega
    · omega

theorem updatePinnedTabsAmountCalls_fst (t : TabBarWidget) :
    t.updatePinnedTabsAmountCalls.1 = t.updatePinnedTabsAmount := by
  have h : t.pinnedLoop t.windows.length 0 = t.windows.countP pinnedOf := by
    rw [pinnedLoop_eq_countP t t.windows.length 0 (by omega)]
    rfl
  unfold TabBarWidget.updatePinnedTabsAmountCalls TabBarWidget.updatePinnedTabsAmount
  simp only [h]
  split <;> rfl

/-- C25: after `updatePinnedTabsAmount` the member `m_pinnedTabsAmount` is the
number of indices `i` in `[0, count)` whose tab has a window that is pinned,
hence between 0 and the count; and `updateSize` is called (once) exactly when
that number differs from the amount stored before. -/
theorem updatePinnedTabsAmount_counts (t : TabBarWidget) :
    t.updatePinnedTabsAmount.m_pinnedTabsAmount =
      (((List.range t.windows.length).filter (fun j : Nat => t.isPinnedTab (j : Int))).length : Int) ∧
    t.updatePinnedTabsAmount.m_pinnedTabsAmount = (pinnedCount t.windows : Int) ∧
    0 ≤ t.updatePinnedTabsAmount.m_pinnedTabsAmount ∧
    t.updatePinnedTabsAmount.m_pinnedTabsAmount ≤ t.count ∧
    t.updatePinnedTabsAmountCalls.1 = t.updatePinnedTabsAmount ∧
    (t.updatePinnedTabsAmountCalls.2 = 1 ↔
      (pinnedCount t.windows : Int) ≠ t.m_pinnedTabsAmount) ∧
    (t.updatePinnedTabsAmountCalls.2 = 0 ↔
      (pinnedCount t.windows : Int) = t.m_pinnedTabsAmount) := by
  have hloop : t.pinnedLoop t.windows.length 0 = t.windows.countP pinnedOf := by
    rw [pinnedLoop_eq_countP t t.windows.length 0 (by omega)]
    rfl
  have hfilter : t.windows.countP pinnedOf =
      ((List.range t.windows.length).filter (fun j : Nat => t.isPinnedTab (j : Int))).length := by
    rw [← hloop, pinnedLoop_eq_filter, List.range_eq_range']
  have hamount : t.updatePinnedTabsAmount.m_pinnedTabsAmount = (pinnedCount t.windows : Int) := by
    unfold TabBarWidget.updatePinnedTabsAmount pinnedCount
    simp only
    split
    · rfl
    · rename_i h
      simp only [ne_eq, not_not] at h
      exact h.symm
  have hle : pinnedCount t.windows ≤ t.windows.length := List.countP_le_length _
  refine ⟨?_, hamount, ?_, ?_, updatePinnedTabsAmountCalls_fst t, ?_, ?_⟩
  · rw [hamount, pinnedCount, hfilter]
  · rw [hamount]
    exact Int.natCast_nonneg _
  · rw [hamount]
    simp only [TabBarWidget.count]
    omega
  · unfold TabBarWidget.updatePinnedTabsAmountCalls
    simp only [hloop, pinnedCount]
    split <;> simp_all
  · unfold TabBarWidget.updatePinnedTabsAmountCalls
    simp only [hloop, pinnedCount]
    split <;> simp_all

/-- C25 on two sample bars: a stored amount of 0 with one pinned tab is
corrected to 1 with one call of `updateSize`; a stored amount that is already
right stays, without call. -/
theorem updatePinnedTabsAmount_counts_witness :
    (sampleBar pinnedThenTwo ⟨0, 0⟩).updatePinnedTabsAmount.m_pinnedTabsAmount = 1 ∧
    (sampleBar pinnedThenTwo ⟨0, 0⟩).updatePinnedTabsAmountCalls.2 = 1 ∧
    (sampleBar threeWindows ⟨0, 0⟩).updatePinnedTabsAmountCalls.2 = 0 ∧
    ((sampleBar pinnedThenTwo ⟨0, 0⟩).updatePinnedTabsAmountCalls.2 = 1 ↔
      (pinnedCount (sampleBar pinnedThenTwo ⟨0, 0⟩).windows : Int) ≠
        (sampleBar pinnedThenTwo ⟨0, 0⟩).m_pinnedTabsAmount) :=
  ⟨by decide, by decide, by decide,
    (updatePinnedTabsAmount_counts (sampleBar pinnedThenTwo ⟨0, 0⟩)).2.2.2.2.2.1⟩

/-! ## Theorems: the tab context menu -/

theorem countP_eraseIdx (l : List (Option Window)) :
    ∀ (c : Nat) (hc : c < l.length),
      l.countP pinnedOf = (l.eraseIdx c).countP pinnedOf + (if pinnedOf l[c] then 1 else 0) := by
  induction l with
  | nil => intro c hc; simp at hc
  | cons a l ih =>
    intro c hc
    cases c with
    | zero => simp [List.countP_cons]
    | succ c =>
      have hc' : c < l.length := by simpa using hc
      simp only [List.eraseIdx_cons_succ, List.countP_cons, List.getElem_cons_succ]
      rw [ih c hc']
      omega

/-- A list has an unpinned entry exactly when not all its entries count as
pinned. -/
theorem exists_unpinned_iff (m : List (Option Window)) :
    (∃ a ∈ m, pinnedOf a = false) ↔ m.countP pinnedOf < m.length := by
  have hle : m.countP pinnedOf ≤ m.length := List.countP_le_length _
  constructor
  · rintro ⟨a, ha, hp⟩
    by_contra hnot
    have heq : m.countP pinnedOf = m.length := by omega
    have := List.countP_eq_length.mp heq a ha
    rw [hp] at this
    exact absurd this (by decide)
  · intro hlt
    by_contra hnone
    have hall : ∀ a ∈ m, pinnedOf a = true := by
      intro a ha
      cases hp : pinnedOf a with
      | true => rfl
      | false => exact absurd ⟨a, ha, hp⟩ hnone
    have := List.countP_eq_length.mpr hall
    omega

/-- C24: in the context menu of the tab `clicked`, with `m_pinnedTabsAmount`
equal to the number of pinned tabs, "Close Other Tabs" is enabled exactly
when some tab other than the clicked one is unpinned; "Close Tab" is enabled
iff the clicked tab is not pinned, and "Detach Tab" iff there is more than
one tab. -/
theorem tabMenuActions_enabled (t : TabBarWidget) (clicked : Nat) (window : Window)
    (hamount : t.m_pinnedTabsAmount = (pinnedCount t.windows : Int))
    (hclicked : clicked < t.windows.length)
    (hwindow : t.windows[clicked]? = some (some window)) :
    ∃ actions, t.tabMenuActions (clicked : Int) = some actions ∧
      (actions.closeOtherTabs = true ↔
        ∃ other ∈ t.windows.eraseIdx clicked, pinnedOf other = false) ∧
      actions.closeOtherTabs =
        (decide (t.count - t.m_pinnedTabsAmount > 0) &&
          !(decide (t.count - t.m_pinnedTabsAmount = 1) && !window.isPinned)) ∧
      (actions.closeTab = true ↔ window.isPinned = false) ∧
      (actions.detachTab = true ↔ t.count > 1) := by
  have hget : t.windows[clicked] = some window := by
    have := List.getElem?_eq_getElem hclicked
    rw [this] at hwindow
    exact Option.some.inj hwindow
  have hvalid : ¬ ((clicked : Int) < 0 ∨ (clicked : Int) ≥ t.count) := by
    simp only [TabBarWidget.count]
    omega
  have hgw : t.getWindow (clicked : Int) = some window := by
    simp only [TabBarWidget.getWindow, hvalid, if_false, Int.toNat_ofNat]
    rw [List.getD_eq_getD_get?, List.get?_eq_getElem?, hwindow]
    rfl
  have hge : (clicked : Int) ≥ 0 := Int.natCast_nonneg _
  refine ⟨(⟨decide (t.count > 1), !window.isPinned,
      decide (t.count - t.m_pinnedTabsAmount > 0) &&
        !(decide (t.count - t.m_pinnedTabsAmount = 1) && !window.isPinned)⟩ : TabMenuActions),
    by simp only [TabBarWidget.tabMenuActions, hge, if_true, hgw], ?_, rfl, ?_, ?_⟩
  · rw [exists_unpinned_iff]
    have hcount := countP_eraseIdx t.windows clicked hclicked
    have hlen : (t.windows.eraseIdx clicked).length = t.windows.length - 1 := by
      rw [List.length_eraseIdx, if_pos hclicked]
    have hle : (t.windows.eraseIdx clicked).countP pinnedOf ≤
        (t.windows.eraseIdx clicked).length := List.countP_le_length _
    rw [hget] at hcount
    simp only [pinnedOf] at hcount
    simp only [hamount, pinnedCount, TabBarWidget.count, Bool.and_eq_true, decide_eq_true_eq,
      Bool.not_eq_true', Bool.and_eq_false_iff, decide_eq_false_iff_not, Bool.not_eq_false']
    cases hp : window.isPinned with
    | true =>
      simp only [hp, if_true] at hcount
      constructor
      · rintro ⟨h1, _⟩
        omega
      · intro h
        exact ⟨by omega, Or.inr rfl⟩
    | false =>
      simp only [hp, Bool.false_eq_true, if_false] at hcount
      constructor
      · rintro ⟨h1, h2⟩
        rcases h2 with h2 | h2
        · omega
        · exact absurd h2 (by decide)
      · intro h
        exact ⟨by omega, Or.inl (by omega)⟩
  · simp
  · simp

/-- C24 on two sample bars: with a pinned tab and two unpinned ones, "Close
Other Tabs" is enabled for the unpinned tab 1; with a pinned tab and a single
unpinned one it is not, and "Close Tab" is off for the pinned tab. -/
theorem tabMenuActions_enabled_witness :
    (∃ actions,
      ({ sampleBar pinnedThenTwo ⟨0, 0⟩ with m_pinnedTabsAmount := 1 } :
        TabBarWidget).tabMenuActions ((1 : Nat) : Int) = some actions ∧
      (actions.closeOtherTabs = true ↔
        ∃ other ∈ ({ sampleBar pinnedThenTwo ⟨0, 0⟩ with m_pinnedTabsAmount := 1 } :
          TabBarWidget).windows.eraseIdx 1, pinnedOf other = false) ∧
      actions.closeOtherTabs =
        (decide (({ sampleBar pinnedThenTwo ⟨0, 0⟩ with m_pinnedTabsAmount := 1 } :
            TabBarWidget).count -
          ({ sampleBar pinnedThenTwo ⟨0, 0⟩ with m_pinnedTabsAmount := 1 } :
            TabBarWidget).m_pinnedTabsAmount > 0) &&
          !(decide (({ sampleBar pinnedThenTwo ⟨0, 0⟩ with m_pinnedTabsAmount := 1 } :
              TabBarWidget).count -
            ({ sampleBar pinnedThenTwo ⟨0, 0⟩ with m_pinnedTabsAmount := 1 } :
              TabBarWidget).m_pinnedTabsAmount = 1) && !(⟨2, false⟩ : Window).isPinned)) ∧
      (actions.closeTab = true ↔ (⟨2, false⟩ : Window).isPinned = false) ∧
      (actions.detachTab = true ↔
        ({ sampleBar pinnedThenTwo ⟨0, 0⟩ with m_pinnedTabsAmount := 1 } :
          TabBarWidget).count > 1)) ∧
    ({ sampleBar pinnedThenTwo ⟨0, 0⟩ with m_pinnedTabsAmount := 1 } :
      TabBarWidget).tabMenuActions 1 = some ⟨true, true, true⟩ ∧
    ({ sampleBar [some ⟨1, true⟩, some ⟨2, false⟩] ⟨0, 0⟩ with m_pinnedTabsAmount := 1 } :
      TabBarWidget).tabMenuActions 1 = some ⟨true, true, false⟩ ∧
    ({ sampleBar [some ⟨1, true⟩, some ⟨2, false⟩] ⟨0, 0⟩ with m_pinnedTabsAmount := 1 } :
      TabBarWidget).tabMenuActions 0 = some ⟨true, false, true⟩ :=
  ⟨tabMenuActions_enabled
      ({ sampleBar pinnedThenTwo ⟨0, 0⟩ with m_pinnedTabsAmount := 1 } : TabBarWidget) 1
      ⟨2, false⟩ (by decide) (by decide) (by decide),
    by decide, by decide, by decide⟩

/-! ## Theorems: closing a tab from its handle -/

/-- C26: `TabHandleWidget::mouseReleaseEvent` requests closing the window
exactly when the window is not pinned, the released button is the left one,
the preceding press was inside the close-button rectangle and the release
position is inside the close-button rectangle as it is then (whatever the
geometry update between press and release has made of it). A pinned tab is
never closed this way, and nothing is requested without a window. -/
theorem handle_close_request (h : TabHandleWidget) (pressPosition releasePosition : QPoint)
    (rectangle : QRect) (window : Window) (underMouse leftButton : Bool) :
    (({ h.mousePressEvent pressPosition with
          m_closeButtonRectangle := rectangle, m_window := some window,
          m_isCloseButtonUnderMouse := underMouse } : TabHandleWidget).mouseReleaseEvent
        leftButton releasePosition = true ↔
      (window.isPinned = false ∧ leftButton = true ∧
        h.m_closeButtonRectangle.contains pressPosition = true ∧
        rectangle.contains releasePosition = true)) ∧
    (window.isPinned = true →
      ({ h.mousePressEvent pressPosition with
          m_closeButtonRectangle := rectangle, m_window := some window,
          m_isCloseButtonUnderMouse := underMouse } : TabHandleWidget).mouseReleaseEvent
        leftButton releasePosition = false) ∧
    ({ h.mousePressEvent pressPosition with
        m_closeButtonRectangle := rectangle, m_window := none,
        m_isCloseButtonUnderMouse := underMouse } : TabHandleWidget).mouseReleaseEvent
      leftButton releasePosition = false := by
  refine ⟨?_, ?_, rfl⟩
  · simp only [TabHandleWidget.mouseReleaseEvent, TabHandleWidget.mousePressEvent,
      Bool.and_eq_true, Bool.not_eq_true']
    tauto
  · intro hp
    simp only [TabHandleWidget.mouseReleaseEvent, TabHandleWidget.mousePressEvent, hp,
      Bool.not_true, Bool.false_and]

/-- C26 on a sample handle: press and release on the close button close an
unpinned tab and do not close a pinned one; a release outside does not close. -/
theorem handle_close_request_witness :
    ((sampleHandle (some ⟨1, false⟩)).mousePressEvent ⟨35, 10⟩).mouseReleaseEvent true
        ⟨36, 11⟩ = true ∧
    ((sampleHandle (some ⟨1, true⟩)).mousePressEvent ⟨35, 10⟩).mouseReleaseEvent true
        ⟨36, 11⟩ = false ∧
    ((sampleHandle (some ⟨1, false⟩)).mousePressEvent ⟨35, 10⟩).mouseReleaseEvent true
        ⟨5, 11⟩ = false ∧
    ((sampleHandle (some ⟨1, false⟩)).mousePressEvent ⟨5, 10⟩).mouseReleaseEvent true
        ⟨36, 11⟩ = false ∧
    (({ (sampleHandle (some ⟨1, false⟩)).mousePressEvent ⟨35, 10⟩ with
          m_closeButtonRectangle := QRect.ofSize 0 0 10 10, m_window := some ⟨1, true⟩,
          m_isCloseButtonUnderMouse := true } : TabHandleWidget).mouseReleaseEvent
        true ⟨5, 5⟩ = false) :=
  ⟨by decide, by decide, by decide, by decide,
    (handle_close_request (sampleHandle (some ⟨1, false⟩)) ⟨35, 10⟩ ⟨5, 5⟩
      (QRect.ofSize 0 0 10 10) ⟨1, true⟩ true true).2.1 rfl⟩

/-! ## Theorems: dropping a list of URLs -/

theorem openRequests_length (dropIndex : Int) :
    ∀ (urls : List QString) (k : Nat), (openRequests dropIndex urls k).length = urls.length
  | [], _ => rfl
  | url :: rest, k => by
    simp only [openRequests, List.length_cons]
    rw [openRequests_length dropIndex rest (k + 1)]

/-- The outcome of `dropEvent` for a drop that is not a dragged tab and
carries URLs. -/
theorem dropEvent_urls_eq (t : TabBarWidget) (event : DropEvent) (context : DropContext)
    (hbranch : event.hasSource = false ∨ event.windowIdentifier = none)
    (hurls : event.hasUrls = true) :
    t.dropEvent event context =
      if (context.hasMainWindow &&
          !(decide (event.urls.length > 1) && context.warnMultiple && context.userCancels))
          = true then
        ⟨{ t with m_dragMovePosition := ⟨0, 0⟩ }, true,
          openRequests t.getDropIndex event.urls 0⟩
      else ⟨{ t with m_dragMovePosition := ⟨0, 0⟩ }, false, []⟩ := by
  unfold TabBarWidget.dropEvent
  simp only
  cases hs : event.hasSource <;> cases hw : event.windowIdentifier <;>
    simp only [hurls, if_true]
  rcases hbranch with h | h
  · rw [hs] at h
    exact absurd h (by decide)
  · rw [hw] at h
    exact absurd h (by simp)

/-- C27: when a list of `n` URLs is dropped on the tab bar and opening is
permitted (there is a main window, and the user did not cancel the warning
shown for more than one URL when that warning is on), `dropEvent` issues
exactly `n` open requests, in the order of the list, the `i`-th with index
`dropIndex + i`, and accepts the event; when opening is not permitted it
issues no request and ignores the event. -/
theorem dropEvent_urls (t : TabBarWidget) (event : DropEvent) (context : DropContext)
    (hbranch : event.hasSource = false ∨ event.windowIdentifier = none)
    (hurls : event.hasUrls = true) :
    ((context.hasMainWindow = true ∧
        ¬ (event.urls.length > 1 ∧ context.warnMultiple = true ∧ context.userCancels = true)) →
      (t.dropEvent event context).requests.length = event.urls.length ∧
      (∀ i : Nat, (t.dropEvent event context).requests.get? i =
        (event.urls.get? i).map
          (fun url => DropRequest.openUrl url (t.getDropIndex + (i : Int)))) ∧
      (t.dropEvent event context).accepted = true) ∧
    (¬ (context.hasMainWindow = true ∧
        ¬ (event.urls.length > 1 ∧ context.warnMultiple = true ∧ context.userCancels = true)) →
      (t.dropEvent event context).requests = [] ∧
      (t.dropEvent event context).accepted = false) := by
  have hcond : ((context.hasMainWindow &&
        !(decide (event.urls.length > 1) && context.warnMultiple && context.userCancels))
        = true) ↔
      (context.hasMainWindow = true ∧
        ¬ (event.urls.length > 1 ∧ context.warnMultiple = true ∧ context.userCancels = true)) := by
    simp only [Bool.and_eq_true, Bool.not_eq_true', Bool.and_eq_false_iff,
      decide_eq_false_iff_not, decide_eq_true_eq]
    constructor
    · rintro ⟨h1, h2⟩
      refine ⟨h1, ?_⟩
      rintro ⟨ha, hb, hc⟩
      rcases h2 with (h2 | h2) | h2
      · exact h2 ha
      · rw [hb] at h2
        exact absurd h2 (by decide)
      · rw [hc] at h2
        exact absurd h2 (by decide)
    · rintro ⟨h1, h2⟩
      refine ⟨h1, ?_⟩
      by_cases ha : event.urls.length > 1
      · cases hb : context.warnMultiple with
        | false => exact Or.inl (Or.inr rfl)
        | true =>
          cases hc : context.userCancels with
          | false => exact Or.inr rfl
          | true => exact absurd ⟨ha, hb, hc⟩ h2
      · exact Or.inl (Or.inl ha)
  rw [dropEvent_urls_eq t event context hbranch hurls]
  refine ⟨?_, ?_⟩
  · intro hperm
    rw [if_pos (hcond.mpr hperm)]
    refine ⟨openRequests_length _ _ _, ?_, rfl⟩
    intro i
    simp only [openRequests_get?, Nat.zero_add]
  · intro hnot
    rw [if_neg (fun h => hnot (hcond.mp h))]
    exact ⟨rfl, rfl⟩

/-- C27 at concrete drops on the bar with three tabs, pointer on the right
half of the last tab (drop index 3): three URLs are opened at 3, 4, 5; when
the user cancels the warning nothing is opened and the event is ignored. -/
theorem dropEvent_urls_witness :
    ((sampleBar threeWindows ⟨140, 10⟩).dropEvent (urlDrop [['u'], ['v'], ['w']])
        plainContext).requests =
      [DropRequest.openUrl ['u'] 3, DropRequest.openUrl ['v'] 4, DropRequest.openUrl ['w'] 5] ∧
    ((sampleBar threeWindows ⟨140, 10⟩).dropEvent (urlDrop [['u'], ['v'], ['w']])
        plainContext).requests.length = (urlDrop [['u'], ['v'], ['w']]).urls.length ∧
    ((sampleBar threeWindows ⟨140, 10⟩).dropEvent (urlDrop [['u'], ['v'], ['w']])
        { plainContext with warnMultiple := true, userCancels := true }).requests = [] ∧
    ((sampleBar threeWindows ⟨140, 10⟩).dropEvent (urlDrop [['u'], ['v'], ['w']])
        { plainContext with warnMultiple := true, userCancels := true }).accepted = false :=
  ⟨by decide,
    ((dropEvent_urls (sampleBar threeWindows ⟨140, 10⟩) (urlDrop [['u'], ['v'], ['w']])
      plainContext (Or.inl rfl) rfl).1 (by decide)).1,
    ((dropEvent_urls (sampleBar threeWindows ⟨140, 10⟩) (urlDrop [['u'], ['v'], ['w']])
      { plainContext with warnMultiple := true, userCancels := true } (Or.inl rfl) rfl).2
      (by decide)).1,
    ((dropEvent_urls (sampleBar threeWindows ⟨140, 10⟩) (urlDrop [['u'], ['v'], ['w']])
      { plainContext with warnMultiple := true, userCancels := true } (Or.inl rfl) rfl).2
      (by decide)).2⟩

end Otter
